import Mathlib

/-!
# Salesforce → HubSpot import tools: verification development

Shallow embedding of the migration scripts (`create-task-emails.js`,
`create-activities.js`, `create-import-manifest.js`, ...) and theorems about
them.  Definitions come first, theorems after.

Modelling conventions

* A JavaScript string is a Lean `String` (a sequence of Unicode scalar values;
  lone surrogates are outside the model).  `Buffer.byteLength(s, 'utf8')` is
  the sum of the UTF-8 widths of its characters.
* A JavaScript `Map` with string keys is an insertion-ordered association list
  with unique keys.  A plain object with string values (a row produced by
  `csv-parser`, a `rowData` literal) is modelled the same way; `undefined` is
  `none`.  The scripts read the rows of `csv-parser` under constant column
  names, none of which is the name of a member of `Object.prototype`, so a
  missing column reads as `undefined`.  Where the key of a read on an object
  literal is data (`data[header]`, `reverseTypeMap[event.Type]`), the members
  inherited from `Object.prototype` are part of the model.
* A file produced through a write stream is the list of the strings written to
  it, in order.
* A rejected promise / thrown exception is `Except.error`.
* `readCsv` listens for errors on the parser only, so a file that cannot be
  opened ends the process (`ReadOutcome`, `Disk`, `Node.readCsv`).  A
  `FileSystem` describes the disks on which every file opens.
-/

/-! ## Strings, objects and maps -/

/-- `Buffer.byteLength(s, 'utf8')`. -/
def byteLength (s : String) : Nat := (s.data.map Char.utf8Size).sum

/-- A JavaScript `Map` keyed by strings, in insertion order. -/
abbrev JsMap (α : Type) := List (String × α)

/-- `map.get(key)`; `none` is `undefined`. -/
def JsMap.get {α : Type} (m : JsMap α) (key : String) : Option α :=
  match m with
  | [] => none
  | (k, v) :: rest => if k = key then some v else JsMap.get rest key

/-- `map.has(key)`. -/
def JsMap.has {α : Type} (m : JsMap α) (key : String) : Bool :=
  match m with
  | [] => false
  | (k, _) :: rest => if k = key then true else JsMap.has rest key

/-- `map.set(key, value)`: an existing key keeps its position and takes the
new value, a new key is appended. -/
def JsMap.set {α : Type} (m : JsMap α) (key : String) (value : α) : JsMap α :=
  match m with
  | [] => [(key, value)]
  | (k, v) :: rest =>
    if k = key then (k, value) :: rest else (k, v) :: JsMap.set rest key value

/-- A row object produced by `csv-parser`: every property is a string.
`obj[key]` is `JsMap.get`. -/
abbrev JsObject := JsMap String

/-- An object literal such as `rowData`, whose property values are strings or
`undefined` (`none`).  The assignment `obj[key] = value` is `JsMap.set`. -/
abbrev RowData := JsMap (Option String)

/-- The text `String(f)` of a built-in function named `name`, as Node.js
prints it. -/
def nativeFunctionText (name : String) : String :=
  "function " ++ name ++ "() \x7b [native code] \x7d"

/-- The members every object literal inherits from `Object.prototype`, each
with the text `String(member)`: the source text of a built-in function, and
`[object Object]` for `__proto__`, which reads as `Object.prototype` itself. -/
def objectPrototype : JsMap String :=
  [("constructor", nativeFunctionText "Object"),
   ("__proto__", "[object Object]"),
   ("hasOwnProperty", nativeFunctionText "hasOwnProperty"),
   ("isPrototypeOf", nativeFunctionText "isPrototypeOf"),
   ("propertyIsEnumerable", nativeFunctionText "propertyIsEnumerable"),
   ("toLocaleString", nativeFunctionText "toLocaleString"),
   ("toString", nativeFunctionText "toString"),
   ("valueOf", nativeFunctionText "valueOf"),
   ("__defineGetter__", nativeFunctionText "__defineGetter__"),
   ("__defineSetter__", nativeFunctionText "__defineSetter__"),
   ("__lookupGetter__", nativeFunctionText "__lookupGetter__"),
   ("__lookupSetter__", nativeFunctionText "__lookupSetter__")]

/-- Property read `data[header]` on a `RowData`, as `formatCsvField` sees it
through `String(field ?? '')`: the value of an own property (`undefined` when
it holds `undefined`); for a key that is not an own property, the member
inherited from `Object.prototype`, given by its text, and `undefined` when
there is none. -/
def RowData.read (data : RowData) (header : String) : Option String :=
  match data.get header with
  | some value => value
  | none => objectPrototype.get header

/-- Truthiness of a string-or-undefined value: defined and non-empty. -/
def truthy (v : Option String) : Bool :=
  match v with
  | none => false
  | some s => s != ""

/-- `s.substring(0, 3)`. -/
def substring03 (s : String) : String := String.mk (s.data.take 3)

/-- `parts.join(sep)` for an array of strings. -/
def jsJoin (sep : String) : List String → String
  | [] => ""
  | [a] => a
  | a :: b :: rest => a ++ sep ++ jsJoin sep (b :: rest)

/-! ## CSV formatting (`formatCsvField`, `buildCsvRow`; the same text in every script) -/

/-- The replacement `str.replace(/"/g, '""')` on the characters of a string. -/
def doubleQuotes : List Char → List Char
  | [] => []
  | c :: cs => if c = '"' then '"' :: '"' :: doubleQuotes cs else c :: doubleQuotes cs

/-- The test `str.includes(',') || str.includes('"') || str.includes('\n') ||
str.includes('\r')`. -/
def needsQuoting (str : String) : Bool :=
  str.data.contains ',' || str.data.contains '"' || str.data.contains '\n' ||
    str.data.contains '\r'

/-- `formatCsvField(field)` for a field that is a string or `null`/`undefined`. -/
def formatCsvField (field : Option String) : String :=
  let str := field.getD ""
  if needsQuoting str then
    let escapedStr := String.mk (doubleQuotes str.data)
    "\"" ++ escapedStr ++ "\""
  else
    str

/-- `buildCsvRow(data, headers)`. -/
def buildCsvRow (data : RowData) (headers : List String) : String :=
  let row := headers.map (fun header => formatCsvField (data.read header))
  jsJoin "," row

/-! ## An RFC 4180 record reader (the reference reader for the round trip) -/

/-- States of the record reader. -/
inductive ReaderState where
  | fieldStart
  | unquoted
  | quoted
  | quoteSeen
  deriving DecidableEq, Repr

/-- Reads the first record of the input following RFC 4180.  Fields are
separated by commas; a field is either unquoted text without quote, comma or
line break, or a quoted field in which a quote is written twice.  The end of
the input, or a line break outside quotes, closes the record.  Malformed
input (a quote inside unquoted text, text after a closing quote, an
unterminated quoted field) is rejected with `none`.  `cur` holds the
characters of the field being read, `acc` the fields already read. -/
def readRecordFrom : ReaderState → List Char → List String → List Char → Option (List String)
  | .quoted, _, _, [] => none
  | _, cur, acc, [] => some (acc ++ [String.mk cur])
  | .fieldStart, _, acc, c :: cs =>
    if c = '"' then readRecordFrom .quoted [] acc cs
    else if c = ',' then readRecordFrom .fieldStart [] (acc ++ [""]) cs
    else if c = '\n' ∨ c = '\r' then some (acc ++ [""])
    else readRecordFrom .unquoted [c] acc cs
  | .unquoted, cur, acc, c :: cs =>
    if c = ',' then readRecordFrom .fieldStart [] (acc ++ [String.mk cur]) cs
    else if c = '"' then none
    else if c = '\n' ∨ c = '\r' then some (acc ++ [String.mk cur])
    else readRecordFrom .unquoted (cur ++ [c]) acc cs
  | .quoted, cur, acc, c :: cs =>
    if c = '"' then readRecordFrom .quoteSeen cur acc cs
    else readRecordFrom .quoted (cur ++ [c]) acc cs
  | .quoteSeen, cur, acc, c :: cs =>
    if c = '"' then readRecordFrom .quoted (cur ++ ['"']) acc cs
    else if c = ',' then readRecordFrom .fieldStart [] (acc ++ [String.mk cur]) cs
    else if c = '\n' ∨ c = '\r' then some (acc ++ [String.mk cur])
    else none

/-- The RFC 4180 reader applied to one line of text. -/
def rfc4180ReadRecord (line : String) : Option (List String) :=
  readRecordFrom .fieldStart [] [] line.data

/-! ## `create-task-emails.js`: the chunked writer -/

namespace CreateTaskEmails

/-- The record `outputStats[type]`. -/
structure Stats where
  currentSize : Nat
  chunkIndex : Nat
  totalCount : Nat
  deriving DecidableEq, Repr

/-- One chunk file `hubspot_import_task_emails_for_{type}_chunk{N}.csv`: the
index `N` given to `createWriter` and the strings written to the stream. -/
structure ChunkFile where
  chunkIndex : Nat
  writes : List String
  deriving DecidableEq, Repr

/-- The rows of a chunk: everything written after the header line. -/
def ChunkFile.rows (c : ChunkFile) : List String := c.writes.tail

/-- Serialized size of a chunk in bytes (header bytes + row bytes). -/
def ChunkFile.serializedSize (c : ChunkFile) : Nat := (c.writes.map byteLength).sum

/-- One partition (one association type): `outputStats[type]`, the chunk files
already ended (oldest first) and the file behind `outputWriters[type]`. -/
structure Partition where
  stats : Stats
  closed : List ChunkFile
  writer : ChunkFile
  deriving DecidableEq, Repr

/-- All chunk files of a partition in creation order. -/
def Partition.chunks (p : Partition) : List ChunkFile := p.closed ++ [p.writer]

/-- Writer setup of `main` (lines 154-158) for one association type.  The
header string and the byte limit are parameters; the script uses
`emailHeaders.join(',') + '\n'` and `MAX_CHUNK_SIZE_MB * 1024 * 1024`. -/
def initPartition (emailHeadersString : String) : Partition :=
  { stats := { currentSize := byteLength emailHeadersString, chunkIndex := 1, totalCount := 0 }
    closed := []
    writer := { chunkIndex := 1, writes := [emailHeadersString] } }

/-- Body of the file-writing loop of `main` (lines 207-224) for one partition;
`line` is the result of `buildCsvRow(rowData, emailHeaders)`. -/
def writeRow (maxChunkBytes : Nat) (emailHeadersString : String) (p : Partition)
    (line : String) : Partition :=
  let csvRow := line ++ "\n"
  let rowBytes := byteLength csvRow
  let p1 : Partition :=
    if p.stats.currentSize > 0 ∧ p.stats.currentSize + rowBytes > maxChunkBytes then
      { stats := { p.stats with
                    chunkIndex := p.stats.chunkIndex + 1
                    currentSize := byteLength emailHeadersString }
        closed := p.closed ++ [p.writer]
        writer := { chunkIndex := p.stats.chunkIndex + 1, writes := [emailHeadersString] } }
    else p
  { stats := { p1.stats with
                currentSize := p1.stats.currentSize + rowBytes
                totalCount := p1.stats.totalCount + 1 }
    closed := p1.closed
    writer := { p1.writer with writes := p1.writer.writes ++ [csvRow] } }

/-- Writing a sequence of rows to one partition, starting from the writer
setup. -/
def writeRows (maxChunkBytes : Nat) (emailHeadersString : String) (lines : List String) :
    Partition :=
  lines.foldl (writeRow maxChunkBytes emailHeadersString) (initPartition emailHeadersString)

/-- Invariant of one partition of the chunked writer: `currentSize` is the
size of the open file, every file starts with the header, every row has at
least one byte, and every file either fits the limit or holds one row. -/
def ChunkInv (maxChunkBytes : Nat) (hdr : String) (p : Partition) : Prop :=
  p.stats.currentSize = p.writer.serializedSize ∧
  (∃ rows, p.writer.writes = hdr :: rows ∧ ∀ r ∈ rows, 1 ≤ byteLength r) ∧
  (∀ c ∈ p.closed, (∃ rows, c.writes = hdr :: rows) ∧
      (c.serializedSize ≤ maxChunkBytes ∨ c.rows.length = 1)) ∧
  (p.writer.serializedSize ≤ maxChunkBytes ∨ p.writer.rows.length = 1)

/-- A header line of 40 bytes. -/
def exampleHeader40 : String := String.mk (List.replicate 39 'h') ++ "\n"

/-- A row of 24 bytes (25 with its line break). -/
def exampleLine24 (c : Char) : String := String.mk (List.replicate 24 c)

/-- A row of 69 bytes (70 with its line break). -/
def exampleLine69 : String := String.mk (List.replicate 69 'x')

end CreateTaskEmails

/-! ## Reading a CSV file (`readCsv`, `create-activities.js` lines 49-58; the
same text in `create-classic-notes.js`, `map-snotes.js` and
`create-import-manifest.js`) -/

/-- What happens when `readCsv(path)` is called.  `readCsv` pipes the stream
of `fs.createReadStream(path)` into the parser `csv()` and attaches its three
listeners, `'data'`, `'end'` and `'error'`, to the stream `pipe` returns, which
is the parser.  `pipe` does not forward errors, so the read stream has no
`'error'` listener. -/
inductive ReadOutcome where
  /-- The parser emits `'end'`: the promise is resolved with the rows. -/
  | rows (data : List JsObject)
  /-- The parser emits `'error'`: the `'error'` listener of `readCsv` is called
  with an error of this code. -/
  | parserError (code : String)
  /-- The read stream emits `'error'` (the file cannot be opened: `ENOENT`,
  `EACCES`, ...).  No listener receives it: the error is thrown as an uncaught
  exception, which no `try` block of the script catches, and the process
  ends. -/
  | streamError (code : String)
  deriving DecidableEq, Repr

/-- The state of the disk: what reading each path does. -/
abbrev Disk := String → ReadOutcome

/-- The settled outcome of the promise `readCsv(path)` for every path, on a
disk where every file can be opened: the parsed rows, or the error of the
parser the promise is rejected with. -/
abbrev FileSystem := String → Except String (List JsObject)

/-- The disk on which every file can be opened and every read settles as `fs`
says. -/
def FileSystem.toDisk (fs : FileSystem) : Disk := fun path =>
  match fs path with
  | .ok data => .rows data
  | .error code => .parserError code

/-- The message of the uncaught exception for a read stream error. -/
def unhandledError (code : String) : String := "Unhandled 'error' event: " ++ code

namespace Node

/-- The expression `await readCsv(filePath)` outside any `try` block: the
rows, or the error that ends the caller there, which is the rejection of the
promise (the `'error'` listener is `reject`) or the uncaught exception of the
read stream. -/
def readCsv (disk : Disk) (filePath : String) : Except String (List JsObject) :=
  match disk filePath with
  | .rows data => .ok data
  | .parserError code => .error code
  | .streamError code => .error (unhandledError code)

end Node

/-! ## `loadMappers` (`create-activities.js` lines 61-97; the same text in
`create-classic-notes.js`, `create-task-emails.js` and `map-snotes.js`) -/

/-- One entry of `mappersToLoad`; `pfx` is the field `prefix`. -/
structure Mapper where
  name : String
  pfx : String
  sfIdColumns : List String
  deriving DecidableEq, Repr

/-- The constant `mappersToLoad`. -/
def mappersToLoad : List Mapper :=
  [ { name := "company-mapper.csv", pfx := "001", sfIdColumns := ["SF ID"] },
    { name := "contact-mapper.csv", pfx := "003", sfIdColumns := ["SF ID", "SF Contact ID"] },
    { name := "contact-mapper.csv", pfx := "00Q", sfIdColumns := ["SF Lead ID"] },
    { name := "deal-mapper.csv", pfx := "006", sfIdColumns := ["sf_id", "SF ID"] } ]

/-- The object `sfToHsIdMap`: one `Map` per type prefix. -/
abbrev SfToHsIdMap := JsMap (JsMap String)

/-- The initial value of `sfToHsIdMap`. -/
def emptySfToHsIdMap : SfToHsIdMap :=
  [("001", []), ("003", []), ("00Q", []), ("006", []), ("500", [])]

/-- `path.join(CONFIG.mappersDir, name)` with `mappersDir = './maps/'`. -/
def mapperPath (name : String) : String := "maps/" ++ name

/-- The inner loop over `mapper.sfIdColumns`: the value of the first column
whose value is truthy, `none` (the initial `null`) when there is none. -/
def findSfId (row : JsObject) : List String → Option String
  | [] => none
  | col :: cols => if truthy (row.get col) then row.get col else findSfId row cols

/-- The pair `(sfId, hsId)` a row inserts, when `hsId && sfId` holds. -/
def rowInsertion (mapper : Mapper) (row : JsObject) : Option (String × String) :=
  let hsId := row.get "Record ID"
  let sfId := findSfId row mapper.sfIdColumns
  match hsId, sfId with
  | some h, some s => if truthy (some h) && truthy (some s) then some (s, h) else none
  | _, _ => none

/-- The statement `sfToHsIdMap[p].set(sfId, hsId)`.  When `sfToHsIdMap[p]` is
`undefined` the statement throws inside the `try` and the object is left as
it was, which is what this returns. -/
def setIn (sfToHsIdMap : SfToHsIdMap) (p : String) (sfId hsId : String) : SfToHsIdMap :=
  match sfToHsIdMap.get p with
  | some m => JsMap.set sfToHsIdMap p (m.set sfId hsId)
  | none => sfToHsIdMap

/-- One iteration of `for (const row of data)`. -/
def loadRow (mapper : Mapper) (sfToHsIdMap : SfToHsIdMap) (row : JsObject) : SfToHsIdMap :=
  match rowInsertion mapper row with
  | some (sfId, hsId) => setIn sfToHsIdMap mapper.pfx sfId hsId
  | none => sfToHsIdMap

/-- One iteration of `for (const mapper of mappersToLoad)` once
`readCsv(mapperPath)` has settled: when the promise is resolved the `try`
block loads the rows, when it is rejected the `catch` block only logs.  (A
read that does not settle, the file being impossible to open, is the third
case of `Node.loadMapper`.) -/
def loadMapper (fs : FileSystem) (sfToHsIdMap : SfToHsIdMap) (mapper : Mapper) : SfToHsIdMap :=
  match fs (mapperPath mapper.name) with
  | .ok data => data.foldl (loadRow mapper) sfToHsIdMap
  | .error _ => sfToHsIdMap

/-- The index `loadMappers()` returns on a disk where every table can be
opened (`Node.loadMappers` is the function on every disk, and returns this
index on those: `loadMappers_toDisk`). -/
def loadMappers (fs : FileSystem) : SfToHsIdMap :=
  mappersToLoad.foldl (loadMapper fs) emptySfToHsIdMap

namespace Node

/-- One iteration of `for (const mapper of mappersToLoad)` of `loadMappers()`
on any disk.  The `try` block awaits `readCsv(mapperPath)`: resolved, the
rows are loaded; rejected, the `catch` block logs and the loop goes on; the
uncaught exception of a read stream error is not a rejection of the awaited
promise, the `catch` block does not run and the process ends. -/
def loadMapper (disk : Disk) (sfToHsIdMap : SfToHsIdMap) (mapper : Mapper) :
    Except String SfToHsIdMap :=
  match disk (mapperPath mapper.name) with
  | .rows data => .ok (data.foldl (loadRow mapper) sfToHsIdMap)
  | .parserError _ => .ok sfToHsIdMap
  | .streamError code => .error (unhandledError code)

/-- `loadMappers()` of `create-activities.js`, `create-classic-notes.js` and
`map-snotes.js` on any disk: the index, or the error that ends the process. -/
def loadMappers (disk : Disk) : Except String SfToHsIdMap :=
  mappersToLoad.foldlM (loadMapper disk) emptySfToHsIdMap

end Node

/-- `sfToHsIdMap[p]?.get(id)`: the lookup `resolve(P, id)`. -/
def resolve (sfToHsIdMap : SfToHsIdMap) (p id : String) : Option String :=
  (sfToHsIdMap.get p).bind (fun m => m.get id)

/-- The pairs `(sfId, hsId)` inserted under a descriptor, in row order: those
of the rows of its table, none when the read of the table is rejected. -/
def insertedUnder (fs : FileSystem) (mapper : Mapper) : List (String × String) :=
  match fs (mapperPath mapper.name) with
  | .ok data => data.filterMap (rowInsertion mapper)
  | .error _ => []

/-- Specification of the lookup: the value of the last write to `id` in a
sequence of writes, `none` when `id` was never written. -/
def lastWrite : List (String × String) → String → Option String
  | [], _ => none
  | (k, v) :: rest, id =>
    match lastWrite rest id with
    | some w => some w
    | none => if k = id then some v else none

/-! ## `loadMappers` of `create-import-manifest.js` (lines 39-79) -/

namespace CreateImportManifest

/-- The `||` of two property reads: the first when truthy, else the second. -/
def orElseProp (a b : Option String) : Option String := if truthy a then a else b

/-- `loadMappers()` of `create-import-manifest.js`: the three tables are read
under one `Promise.all` without a `try`, so a read that fails ends the load
with its error.  `fs` gives what each `await readCsv(path)` comes to; on a
disk it is `Node.readCsv disk`.  The stored values are `row['Record ID']`,
possibly `undefined`. -/
def loadMappers (fs : FileSystem) : Except String (JsMap (JsMap (Option String))) := do
  let companyData ← fs (mapperPath "company-mapper.csv")
  let contactData ← fs (mapperPath "contact-mapper.csv")
  let dealData ← fs (mapperPath "deal-mapper.csv")
  let m001 : JsMap (Option String) := companyData.foldl (fun m row =>
    match row.get "SF ID" with
    | some sfId => if truthy (some sfId) then m.set sfId (row.get "Record ID") else m
    | none => m) []
  let m003 : JsMap (Option String) := contactData.foldl (fun m row =>
    match orElseProp (row.get "SF ID") (row.get "SF Contact ID") with
    | some sfContactId =>
      if truthy (some sfContactId) then m.set sfContactId (row.get "Record ID") else m
    | none => m) []
  let m00Q : JsMap (Option String) := contactData.foldl (fun m row =>
    match row.get "SF Lead ID" with
    | some sfLeadId => if truthy (some sfLeadId) then m.set sfLeadId (row.get "Record ID") else m
    | none => m) []
  let m006 : JsMap (Option String) := dealData.foldl (fun m row =>
    match orElseProp (row.get "sf_id") (row.get "SF ID") with
    | some sfDealId => if truthy (some sfDealId) then m.set sfDealId (row.get "Record ID") else m
    | none => m) []
  pure [("001", m001), ("003", m003), ("00Q", m00Q), ("006", m006)]

end CreateImportManifest

/-! ## Association logic (`create-activities.js` lines 139-161; the same
statements in `create-task-emails.js` lines 172-186) -/

/-- One element of `associations`. -/
structure Association where
  type : String
  hsId : String
  deriving DecidableEq, Repr

/-- `id ? id.substring(0, 3) : ''`. -/
def idPre (id : Option String) : String :=
  match id with
  | some s => if truthy (some s) then substring03 s else ""
  | none => ""

/-- The contact / lead association: `WhoId` must start with `003` or `00Q`
and be a key of the map of that prefix.  (`has(k)` is true exactly when
`get(k)` is defined, the values being strings.) -/
def whoAssociation (sfToHsIdMap : SfToHsIdMap) (record : JsObject) : List Association :=
  let WhoId := record.get "WhoId"
  let whoPre := idPre WhoId
  if whoPre = "003" ∨ whoPre = "00Q" then
    match resolve sfToHsIdMap whoPre (WhoId.getD "") with
    | some hsId => [{ type := "contacts", hsId := hsId }]
    | none => []
  else []

/-- The company / account association: `AccountId` must be truthy and a key
of the map `sfToHsIdMap['001']`; its own first characters are not tested. -/
def accountAssociation (sfToHsIdMap : SfToHsIdMap) (record : JsObject) : List Association :=
  let AccountId := record.get "AccountId"
  if truthy AccountId then
    match resolve sfToHsIdMap "001" (AccountId.getD "") with
    | some hsId => [{ type := "companies", hsId := hsId }]
    | none => []
  else []

/-- The deal / opportunity association: `WhatId` must start with `006` and be
a key of the map `sfToHsIdMap['006']`. -/
def whatAssociation (sfToHsIdMap : SfToHsIdMap) (record : JsObject) : List Association :=
  let WhatId := record.get "WhatId"
  let whatPre := idPre WhatId
  if whatPre = "006" then
    match resolve sfToHsIdMap "006" (WhatId.getD "") with
    | some hsId => [{ type := "deals", hsId := hsId }]
    | none => []
  else []

/-- The array `associations` after the three `if` statements. -/
def associations (sfToHsIdMap : SfToHsIdMap) (record : JsObject) : List Association :=
  whoAssociation sfToHsIdMap record ++ accountAssociation sfToHsIdMap record ++
    whatAssociation sfToHsIdMap record

/-! ## Example mapping tables -/

/-- A company table in which two rows map the same source id; every other
file holds no row. -/
def exampleDuplicateKey : FileSystem := fun path =>
  if path = "maps/company-mapper.csv" then
    .ok [[("SF ID", "001A"), ("Record ID", "1")], [("SF ID", "001B"), ("Record ID", "7")],
         [("SF ID", "001A"), ("Record ID", "2")]]
  else .ok []

/-- A company table whose source id does not start with `001`, a contact
table and a deal table; every other file holds no row. -/
def exampleForeignAccountKey : FileSystem := fun path =>
  if path = "maps/company-mapper.csv" then
    .ok [[("SF ID", "XYZ9"), ("Record ID", "55")]]
  else if path = "maps/contact-mapper.csv" then
    .ok [[("SF ID", "003C"), ("Record ID", "101")]]
  else if path = "maps/deal-mapper.csv" then
    .ok [[("sf_id", "006D"), ("Record ID", "303")]]
  else .ok []

/-- A record whose `AccountId` is the foreign key of `exampleForeignAccountKey`. -/
def exampleForeignAccountRecord : JsObject :=
  [("WhoId", "003C"), ("AccountId", "XYZ9"), ("WhatId", "006D")]

/-- The company and deal tables hold one row each; `contact-mapper.csv` does
not exist, so that its read stream fails with `ENOENT`; every other file
holds no row. -/
def exampleContactMissing : Disk := fun path =>
  if path = "maps/company-mapper.csv" then
    .rows [[("SF ID", "001A"), ("Record ID", "202")]]
  else if path = "maps/deal-mapper.csv" then
    .rows [[("sf_id", "006D"), ("Record ID", "303")]]
  else if path = "maps/contact-mapper.csv" then .streamError "ENOENT"
  else .rows []

/-- The tables of `exampleContactMissing` with a contact table that can be
opened and on which the parser fails. -/
def exampleContactRejected : Disk := fun path =>
  if path = "maps/company-mapper.csv" then
    .rows [[("SF ID", "001A"), ("Record ID", "202")]]
  else if path = "maps/deal-mapper.csv" then
    .rows [[("sf_id", "006D"), ("Record ID", "303")]]
  else if path = "maps/contact-mapper.csv" then .parserError "ERR_PARSE"
  else .rows []

/-- A company table with the single row of the example scenario and a contact
table; every other file holds no row. -/
def exampleScenarioMappers : FileSystem := fun path =>
  if path = "maps/company-mapper.csv" then
    .ok [[("SF ID", "001xx1"), ("Record ID", "111")]]
  else if path = "maps/contact-mapper.csv" then
    .ok [[("SF ID", ""), ("SF Contact ID", "003X"), ("SF Lead ID", "00QL"), ("Record ID", "9")]]
  else .ok []

/-- A source record with `AccountId = "001xx1"`, an empty `WhoId` and no
`WhatId`. -/
def exampleScenarioRecord : JsObject :=
  [("Type", "Email"), ("WhoId", ""), ("AccountId", "001xx1"), ("Description", "Hello")]

/-- A record whose three reference fields do not resolve against
`exampleScenarioMappers`: an unknown contact, no account, a `WhatId` that is
not a deal. -/
def exampleUnresolvedRecord : JsObject :=
  [("Type", "Email"), ("WhoId", "003ZZ"), ("AccountId", ""), ("WhatId", "001xx1"),
   ("Description", "Hello")]

/-- Specification of the replacement in `formatCsvField`: every double quote
of the string is replaced by two double quotes, every other character is
kept. -/
def everyQuoteDoubled (s : String) : String :=
  String.mk (s.data.flatMap (fun c => if c = '"' then ['"', '"'] else [c]))

/-! ## `create-activities.js`: `main` -/

namespace CreateActivities

/-- The platform functions `main` calls on dates and numbers.  `none` stands
for `NaN` (an invalid date).  Numbers are integers, which is exact for time
values and durations below `2^53`. -/
structure Platform where
  /-- `Date.parse(s)`. -/
  dateParse : String → Option Int
  /-- `new Date(t).toISOString()` for a valid time value `t`. -/
  toISOString : Int → String
  /-- `parseInt(v, 10)`. -/
  parseInt10 : Option String → Option Int

/-- The constant `TYPE_MAP`. -/
def TYPE_MAP : JsMap (List String) :=
  [("calls", ["Call", "Qual Call"]), ("meetings", ["Meeting", "Demo"]), ("emails", ["Email"])]

/-- The object `reverseTypeMap` built by the two nested loops. -/
def reverseTypeMap : JsObject :=
  TYPE_MAP.foldl (fun acc entry => entry.2.foldl (fun acc sfType => acc.set sfType entry.1) acc) []

/-- Names every object literal inherits from `Object.prototype`. -/
def objectPrototypeKeys : List String := objectPrototype.map (fun member => member.1)

/-- The value of `reverseTypeMap[event.Type]`. -/
inductive TypeLookup where
  /-- No such property: `undefined`. -/
  | undefined
  /-- An own property: one of the strings `calls`, `meetings`, `emails`. -/
  | own (hsType : String)
  /-- A member inherited from `Object.prototype`: a truthy value that is not a string. -/
  | inherited (name : String)
  deriving DecidableEq, Repr

/-- The read `reverseTypeMap[event.Type]`; an `undefined` type reads the key
`"undefined"`. -/
def lookupType (type : Option String) : TypeLookup :=
  let key := type.getD "undefined"
  match reverseTypeMap.get key with
  | some hsType => .own hsType
  | none => if key ∈ objectPrototypeKeys then .inherited key else .undefined

/-- The constant `headers`. -/
def headers : JsMap (List String) :=
  [("calls", ["Record ID", "Call notes", "Activity date", "Call direction", "Call title"]),
   ("meetings", ["Record ID", "Meeting description", "Activity date", "Meeting start time",
      "Meeting end time", "Meeting title"]),
   ("emails", ["Record ID", "Email body", "Activity date", "Email direction", "Email subject"])]

/-- The state of the event loop.  `heap` holds the `rowData` objects created
so far; the arrays of `outputData` hold references (positions in `heap`) to
them, as `push(rowData)` stores the object itself and not a copy. -/
structure LoopState where
  heap : List RowData
  outputData : JsMap (JsMap (List Nat))

/-- The initial `outputData`. -/
def initialOutputData : JsMap (JsMap (List Nat)) :=
  [("calls", [("contacts", []), ("companies", []), ("deals", [])]),
   ("meetings", [("contacts", []), ("companies", []), ("deals", [])]),
   ("emails", [("contacts", []), ("companies", []), ("deals", [])])]

/-- `new Date(v)` for a string or `undefined`: the time value, `none` when the
date is invalid (`new Date(undefined)` is invalid). -/
def newDate (pl : Platform) (v : Option String) : Option Int :=
  match v with
  | some s => pl.dateParse s
  | none => none

/-- `new Date(t)` for a number: invalid beyond the range of time values. -/
def timeClip (t : Int) : Option Int :=
  if -8640000000000000 ≤ t ∧ t ≤ 8640000000000000 then some t else none

/-- `d.toISOString()`: throws a `RangeError` on an invalid date. -/
def toISOString (pl : Platform) (d : Option Int) : Except String String :=
  match d with
  | some t => .ok (pl.toISOString t)
  | none => .error "RangeError: Invalid time value"

/-- The row-building statements of `main` (lines 164-176). -/
def buildRowData (pl : Platform) (hsEngagementType : TypeLookup) (event : JsObject) :
    Except String RowData :=
  let activityDate :=
    if truthy (event.get "ActivityDateTime") then event.get "ActivityDateTime"
    else event.get "CreatedDate"
  if hsEngagementType = .own "calls" then
    .ok [("Record ID", some ""), ("Call notes", event.get "Description"),
         ("Activity date", activityDate), ("Call direction", some "Outbound"),
         ("Call title", event.get "Subject")]
  else if hsEngagementType = .own "meetings" then
    let startTime := newDate pl activityDate
    let duration : Int :=
      match pl.parseInt10 (event.get "DurationInMinutes") with
      | some n => n
      | none => 0
    let endTime := startTime.bind (fun t => timeClip (t + duration * 60000))
    match toISOString pl startTime with
    | .error e => .error e
    | .ok startIso =>
      match toISOString pl endTime with
      | .error e => .error e
      | .ok endIso =>
        .ok [("Record ID", some ""), ("Meeting description", event.get "Description"),
             ("Activity date", activityDate), ("Meeting start time", some startIso),
             ("Meeting end time", some endIso), ("Meeting title", event.get "Subject")]
  else if hsEngagementType = .own "emails" then
    .ok [("Record ID", some ""), ("Email body", event.get "Description"),
         ("Activity date", activityDate), ("Email direction", some "UNKNOWN"),
         ("Email subject", event.get "Subject")]
  else
    .ok []

/-- The property key `hsEngagementType` is converted to when it indexes
`outputData`: the string itself, or the source text of the inherited member
(never one of the keys of `outputData`). -/
def typeKey (hsEngagementType : TypeLookup) : Option String :=
  match hsEngagementType with
  | .own hsType => some hsType
  | _ => none

/-- One iteration of `for (const assoc of associations)` (lines 179-182) on
the object at position `ref` of the heap: the assignment
`rowData['Record ID'] = assoc.hsId` changes that one object, and
`outputData[hsEngagementType][assoc.type].push(rowData)` stores the
reference.  Reading a property of `undefined` throws a `TypeError`. -/
def pushAssociation (hsEngagementType : TypeLookup) (ref : Nat) (st : LoopState)
    (assoc : Association) : Except String LoopState :=
  let heap := st.heap.modify (fun rowData => rowData.set "Record ID" (some assoc.hsId)) ref
  match (typeKey hsEngagementType).bind (fun key => st.outputData.get key) with
  | none => .error "TypeError: Cannot read properties of undefined"
  | some assocData =>
    match assocData.get assoc.type with
    | none => .error "TypeError: Cannot read properties of undefined (reading 'push')"
    | some data =>
      .ok { heap := heap
            outputData := st.outputData.set ((typeKey hsEngagementType).getD "")
              (assocData.set assoc.type (data ++ [ref])) }

/-- One iteration of `for (const event of events)` (lines 133-183). -/
def processEvent (pl : Platform) (sfToHsIdMap : SfToHsIdMap) (st : LoopState)
    (event : JsObject) : Except String LoopState :=
  let hsEngagementType := lookupType (event.get "Type")
  if hsEngagementType = .undefined then .ok st
  else
    let assocs := associations sfToHsIdMap event
    if assocs.length = 0 then .ok st
    else
      match buildRowData pl hsEngagementType event with
      | .error e => .error e
      | .ok rowData =>
        let ref := st.heap.length
        assocs.foldlM (pushAssociation hsEngagementType ref)
          { st with heap := st.heap ++ [rowData] }

/-- The text written for one array of `outputData` (lines 192-200): the
header, then `buildCsvRow` of every object the array refers to, as it is when
the file is written, joined by line breaks. -/
def fileContent (heap : List RowData) (outputHeaders : List String) (data : List Nat) : String :=
  let csvRows := [jsJoin "," outputHeaders] ++
    data.map (fun ref => buildCsvRow (heap.getD ref []) outputHeaders)
  jsJoin "\n" csvRows

/-- The file-writing loops of `main` (lines 189-204): file name and content
of every non-empty array, in the order written. -/
def writeFiles (st : LoopState) : List (String × String) :=
  st.outputData.flatMap (fun engagement =>
    engagement.2.filterMap (fun assoc =>
      if assoc.2.length > 0 then
        some ("hubspot_import_" ++ engagement.1 ++ "_for_" ++ assoc.1 ++ ".csv",
              fileContent st.heap ((headers.get engagement.1).getD []) assoc.2)
      else none))

/-- `main()` of `create-activities.js` on any disk: the files written, or the
error that ends the run, which is the rejection of the promise `main()`
returns or the uncaught exception of a read stream (in both cases no file
has been written, all writes coming after the event loop). -/
def main (pl : Platform) (disk : Disk) : Except String (List (String × String)) :=
  match Node.loadMappers disk with
  | .error e => .error e
  | .ok sfToHsIdMap =>
    match Node.readCsv disk "../CSV/Event.csv" with
    | .error e => .error e
    | .ok events =>
      match events.foldlM (processEvent pl sfToHsIdMap)
          { heap := [], outputData := initialOutputData } with
      | .error e => .error e
      | .ok st => .ok (writeFiles st)

/-- A platform for the examples: it parses one ISO date and nothing else. -/
def examplePlatform : Platform :=
  { dateParse := fun s => if s = "2024-01-01T00:00:00.000Z" then some 1704067200000 else none
    toISOString := fun t => if t = 1704067200000 then "2024-01-01T00:00:00.000Z" else "other"
    parseInt10 := fun _ => none }

/-- Mapping tables for the examples: one company and one contact; every other
file, `deal-mapper.csv` included, exists and holds no row. -/
def exampleMappers : FileSystem := fun path =>
  if path = "maps/company-mapper.csv" then
    .ok [[("SF ID", "001A"), ("Record ID", "202")]]
  else if path = "maps/contact-mapper.csv" then
    .ok [[("SF ID", "003C"), ("Record ID", "101")]]
  else .ok []

/-- One call linked to the contact `003C` and to the company `001A`. -/
def exampleFanOut : FileSystem := fun path =>
  if path = "../CSV/Event.csv" then
    .ok [[("Type", "Call"), ("WhoId", "003C"), ("AccountId", "001A"), ("Description", "notes"),
          ("ActivityDateTime", "2024-01-01T00:00:00.000Z"), ("Subject", "Intro")]]
  else exampleMappers path

/-- A call followed by a meeting whose two dates are empty. -/
def exampleEmptyDates : FileSystem := fun path =>
  if path = "../CSV/Event.csv" then
    .ok [[("Type", "Call"), ("WhoId", "003C"), ("Description", "notes"),
          ("ActivityDateTime", "2024-01-01T00:00:00.000Z"), ("Subject", "Intro")],
         [("Type", "Meeting"), ("WhoId", "003C"), ("Description", "demo"),
          ("ActivityDateTime", ""), ("CreatedDate", ""), ("Subject", "Demo")]]
  else exampleMappers path

/-- The call of `exampleEmptyDates` alone. -/
def exampleCallOnly : FileSystem := fun path =>
  if path = "../CSV/Event.csv" then
    .ok [[("Type", "Call"), ("WhoId", "003C"), ("Description", "notes"),
          ("ActivityDateTime", "2024-01-01T00:00:00.000Z"), ("Subject", "Intro")]]
  else exampleMappers path

/-- A call followed by an event whose `Type` is the string `constructor`. -/
def exampleInheritedType : FileSystem := fun path =>
  if path = "../CSV/Event.csv" then
    .ok [[("Type", "Call"), ("WhoId", "003C"), ("Description", "notes"),
          ("ActivityDateTime", "2024-01-01T00:00:00.000Z"), ("Subject", "Intro")],
         [("Type", "constructor"), ("WhoId", "003C")]]
  else exampleMappers path

end CreateActivities

/-! ## `create-task-emails.js`: `loadEmailBodies` and `main` -/

namespace CreateTaskEmails

/-- The options of `CONFIG` that `main` reads; `maxChunkBytes` is
`MAX_CHUNK_SIZE_MB * 1024 * 1024`. -/
structure Config where
  skipEmptyBodies : Bool
  maxChunkBytes : Nat
  deriving DecidableEq, Repr

/-- The constant `CONFIG`. -/
def CONFIG : Config := { skipEmptyBodies := true, maxChunkBytes := 500 * 1024 * 1024 }

/-- The constant `TYPE_MAP`. -/
def TYPE_MAP : JsMap (List String) := [("emails", ["Email"])]

/-- The object `reverseTypeMap` built by the two nested loops. -/
def reverseTypeMap : JsObject :=
  TYPE_MAP.foldl (fun acc entry => entry.2.foldl (fun acc sfType => acc.set sfType entry.1) acc) []

/-- The test `reverseTypeMap[task.Type] === 'emails'`.  Only an own property
can be the string `emails`; a member inherited from `Object.prototype` is not
a string, and an `undefined` type reads the key `"undefined"`. -/
def isEmailTask (task : JsObject) : Bool :=
  reverseTypeMap.get ((task.get "Type").getD "undefined") == some "emails"

/-- The constant `emailHeaders`. -/
def emailHeaders : List String :=
  ["Record ID", "Email body", "Activity date", "Email direction", "Email subject"]

/-- The constant `emailHeadersString`. -/
def emailHeadersString : String := jsJoin "," emailHeaders ++ "\n"

/-- The constant `assocTypes`. -/
def assocTypes : List String := ["contacts", "companies", "deals", "other"]

/-- The name `createWriter(assocType, chunkIndex)` gives to a chunk file. -/
def chunkFilename (assocType : String) (chunkIndex : Nat) : String :=
  "hubspot_import_task_emails_for_" ++ assocType ++ "_chunk" ++ toString chunkIndex ++ ".csv"

/-- One iteration of the loop of `loadEmailBodies`:
`if (message.ActivityId && (message.HtmlBody || message.TextBody))`
`emailBodyMap.set(message.ActivityId, message.HtmlBody || message.TextBody)`. -/
def loadEmailBody (emailBodyMap : JsMap String) (message : JsObject) : JsMap String :=
  let body :=
    if truthy (message.get "HtmlBody") then message.get "HtmlBody" else message.get "TextBody"
  match message.get "ActivityId", body with
  | some activityId, some b =>
    if truthy (some activityId) && truthy (some b) then emailBodyMap.set activityId b
    else emailBodyMap
  | _, _ => emailBodyMap

/-- `readCsv(filePath)` of `create-task-emails.js` (lines 41-57), whose
`'error'` listener resolves the promise with no row for an error of code
`ENOENT` and rejects it otherwise.  The listener is attached to the parser,
as in the other scripts: it is not called for an error of the read stream. -/
def readCsv (disk : Disk) : Disk := fun filePath =>
  match disk filePath with
  | .rows data => .rows data
  | .parserError code => if code = "ENOENT" then .rows [] else .parserError code
  | .streamError code => .streamError code

/-- `loadEmailBodies()` on any disk: the `try` block awaits
`readCsv(CONFIG.emailMessageCsv)` and fills the map; a rejection is caught and
gives the empty map; the uncaught exception of a read stream error is not
caught and the process ends. -/
def loadEmailBodies (disk : Disk) : Except String (JsMap String) :=
  match readCsv disk "../CSV/EmailMessage.csv" with
  | .rows emailMessages => .ok (emailMessages.foldl loadEmailBody [])
  | .parserError _ => .ok []
  | .streamError code => .error (unhandledError code)

/-- The objects `outputStats` and `outputWriters`, one partition per
association type. -/
abbrev Outputs := JsMap Partition

/-- Writer setup of `main` (lines 150-158). -/
def initOutputs : Outputs := assocTypes.map (fun type => (type, initPartition emailHeadersString))

/-- The value `emailBodyMap.get(task.Id) || task.Description || ''`. -/
def emailBodyOf (emailBodyMap : JsMap String) (task : JsObject) : String :=
  let fromMap := (task.get "Id").bind (fun id => emailBodyMap.get id)
  if truthy fromMap then fromMap.getD ""
  else if truthy (task.get "Description") then (task.get "Description").getD ""
  else ""

/-- The object `rowData` as built at lines 196-202, before any `Record ID` is
assigned. -/
def taskRowData (emailBodyMap : JsMap String) (task : JsObject) : RowData :=
  let activityDate :=
    if truthy (task.get "ActivityDate") then task.get "ActivityDate" else task.get "CreatedDate"
  [("Email body", some (emailBodyOf emailBodyMap task)), ("Activity date", activityDate),
   ("Email direction", some "UNKNOWN"), ("Email subject", task.get "Subject")]

/-- The loop `for (const assoc of associations)` (lines 205-225).  Each
iteration assigns `rowData['Record ID']`, serializes the row and writes it
to the partition of the association.  Were `outputStats[assoc.type]`
`undefined`, reading `stats.currentSize` would throw inside the `try` and the
rest of the row be abandoned. -/
def writeAssociations (cfg : Config) (out : Outputs) (rowData : RowData) :
    List Association → Outputs
  | [] => out
  | assoc :: rest =>
    let rowData1 := rowData.set "Record ID" (some assoc.hsId)
    let line := buildCsvRow rowData1 emailHeaders
    match out.get assoc.type with
    | none => out
    | some p =>
      writeAssociations cfg
        (out.set assoc.type (writeRow cfg.maxChunkBytes emailHeadersString p line)) rowData1 rest

/-- The handler of one `data` event of `main` (lines 165-229). -/
def processTask (cfg : Config) (sfToHsIdMap : SfToHsIdMap) (emailBodyMap : JsMap String)
    (out : Outputs) (task : JsObject) : Outputs :=
  if ¬ isEmailTask task then out
  else
    let assocs := associations sfToHsIdMap task
    if assocs.length = 0 then out
    else
      let emailBody := emailBodyOf emailBodyMap task
      if cfg.skipEmptyBodies ∧ emailBody = "" then out
      else writeAssociations cfg out (taskRowData emailBodyMap task) assocs

/-- `main()` of `create-task-emails.js` on any disk: the partitions at the end
of the run, or the error that ends it.  `loadMappers()` (the text of
`Node.loadMappers`, over this script's `readCsv`) and `loadEmailBodies()` are
awaited first; the stream of `Task.csv` is then piped into the parser, whose
`'error'` listener is `reject`, the read stream having none. -/
def main (cfg : Config) (disk : Disk) : Except String Outputs :=
  match Node.loadMappers (readCsv disk) with
  | .error e => .error e
  | .ok sfToHsIdMap =>
    match loadEmailBodies disk with
    | .error e => .error e
    | .ok emailBodyMap =>
      match disk "../CSV/Task.csv" with
      | .rows tasks => .ok (tasks.foldl (processTask cfg sfToHsIdMap emailBodyMap) initOutputs)
      | .parserError code => .error code
      | .streamError code => .error (unhandledError code)

/-- All rows written to a partition so far, over its chunks in creation order. -/
def Partition.allRows (p : Partition) : List String := (p.chunks.map ChunkFile.rows).flatten

/-- The rows of the partition of one association type (none when there is no
such partition). -/
def rowsOf (out : Outputs) (type : String) : List String :=
  match out.get type with
  | some p => p.allRows
  | none => []

/-- Mapping tables and one email task linked to a contact and a company;
every other file, `deal-mapper.csv` and `EmailMessage.csv` included, exists
and holds no row. -/
def exampleEmailFanOut : FileSystem := fun path =>
  if path = "maps/company-mapper.csv" then
    .ok [[("SF ID", "001A"), ("Record ID", "202")]]
  else if path = "maps/contact-mapper.csv" then
    .ok [[("SF ID", "003C"), ("Record ID", "101")]]
  else if path = "../CSV/Task.csv" then
    .ok [[("Id", "00T1"), ("Type", "Email"), ("WhoId", "003C"), ("AccountId", "001A"),
          ("Description", "Hello, world"), ("ActivityDate", "2024-01-01"), ("Subject", "Hi")]]
  else .ok []

/-- A configuration with a chunk ceiling of 100 bytes. -/
def exampleSmallChunks : Config := { skipEmptyBodies := true, maxChunkBytes := 100 }

/-- Three email tasks of the contact `003C`, each giving a row of 32 bytes. -/
def exampleThreeTasks : List JsObject :=
  [[("Id", "00T1"), ("Type", "Email"), ("WhoId", "003C"), ("Description", "Hello"),
    ("ActivityDate", "2024-01-01"), ("Subject", "Hi")],
   [("Id", "00T2"), ("Type", "Email"), ("WhoId", "003C"), ("Description", "Hallo"),
    ("ActivityDate", "2024-01-02"), ("Subject", "Hi")],
   [("Id", "00T3"), ("Type", "Email"), ("WhoId", "003C"), ("Description", "Salut"),
    ("ActivityDate", "2024-01-03"), ("Subject", "Hi")]]

/-- A contact table and the three tasks of `exampleThreeTasks`; every other
file, the other tables and `EmailMessage.csv` included, exists and holds no
row. -/
def exampleThreeEmails : FileSystem := fun path =>
  if path = "maps/contact-mapper.csv" then
    .ok [[("SF ID", "003C"), ("Record ID", "101")]]
  else if path = "../CSV/Task.csv" then .ok exampleThreeTasks
  else .ok []

/-- The email task of `exampleEmailFanOut`. -/
def exampleEmailTask : JsObject :=
  [("Id", "00T1"), ("Type", "Email"), ("WhoId", "003C"), ("AccountId", "001A"),
   ("Description", "Hello, world"), ("ActivityDate", "2024-01-01"), ("Subject", "Hi")]

end CreateTaskEmails

namespace CreateTaskEmails

/-- What holds of `outputStats` / `outputWriters` throughout `main`: the three
partitions an association can name exist, and every open file has received at
least its header. -/
def OutputsOk (out : Outputs) : Prop :=
  (∀ t ∈ ["contacts", "companies", "deals"], (out.get t).isSome = true) ∧
  ∀ t p, out.get t = some p → p.writer.writes ≠ []

/-- Numbering invariant of one partition: the closed chunks are numbered
`1, 2, ...` in creation order, the open chunk carries the next number, which
is `stats.chunkIndex`, and every chunk starts with the header. -/
def ChunkNumbering (hdr : String) (p : Partition) : Prop :=
  p.stats.chunkIndex = p.closed.length + 1 ∧
  p.writer.chunkIndex = p.stats.chunkIndex ∧
  p.closed.map ChunkFile.chunkIndex = List.range' 1 p.closed.length ∧
  ∀ c ∈ p.chunks, c.writes.head? = some hdr

end CreateTaskEmails

/-! ## String helpers for file names -/

/-- `s.startsWith(t)` on the characters of the two strings. -/
def startsWithChars : List Char → List Char → Bool
  | _, [] => true
  | [], _ :: _ => false
  | c :: cs, d :: ds => c == d && startsWithChars cs ds

/-- `file.startsWith(id)`. -/
def jsStartsWith (file id : String) : Bool := startsWithChars file.data id.data

/-- `s.includes(sub)` on the characters of the two strings. -/
def includesChars : List Char → List Char → Bool
  | [], sub => sub.isEmpty
  | c :: cs, sub => startsWithChars (c :: cs) sub || includesChars cs sub

/-- `s.includes(sub)`. -/
def jsIncludes (s sub : String) : Bool := includesChars s.data sub.data

/-- The characters `String.prototype.trim` removes: white space and line
terminators. -/
def isJsWhiteSpace (c : Char) : Bool :=
  c.toNat ∈ [0x09, 0x0A, 0x0B, 0x0C, 0x0D, 0x20, 0xA0, 0x1680, 0x2028, 0x2029, 0x202F, 0x205F,
    0x3000, 0xFEFF] || (0x2000 ≤ c.toNat && c.toNat ≤ 0x200A)

/-- `s.trim()`. -/
def jsTrim (s : String) : String :=
  String.mk ((s.data.dropWhile isJsWhiteSpace).reverse.dropWhile isJsWhiteSpace).reverse

/-- The number of UTF-16 code units of a character: two beyond the Basic
Multilingual Plane, where JavaScript stores a surrogate pair. -/
def utf16Size (c : Char) : Nat := if c.toNat < 0x10000 then 1 else 2

/-- `s.length`: the number of UTF-16 code units of the string. -/
def jsLength (s : String) : Nat := (s.data.map utf16Size).sum

/-- `s.substring(0, n)` on the characters of `s`: the first `n` UTF-16 code
units.  A cut inside the surrogate pair of a character keeps its high
surrogate alone; such a JavaScript string is not a Lean string, and the lone
surrogate is written `U+FFFD` here, the character Node.js puts in its place
when it encodes a file name for the file system. -/
def utf16Take : Nat → List Char → List Char
  | 0, _ => []
  | _ + 1, [] => []
  | n + 1, c :: cs =>
    if utf16Size c = 1 then c :: utf16Take n cs
    else if n = 0 then ['\uFFFD']
    else c :: utf16Take (n - 1) cs

/-- `sanitizeFilename(filename)`: the replacement
`filename.replace(/[<>:"/\\|?*]/g, '_')`. -/
def sanitizeFilename (filename : String) : String :=
  String.mk (filename.data.map (fun c =>
    if c ∈ ['<', '>', ':', '"', '/', '\\', '|', '?', '*'] then '_' else c))

/-! ## `import-files.js`: `findFileById` -/

namespace ImportFiles

/-- `findFileById(dirPath, sfFileId)`; `none` is `null`.  `readdir` gives the
outcome of `fs.promises.readdir` for every directory and `pathJoin` is
`path.join`. -/
def findFileById (pathJoin : String → String → String)
    (readdir : String → Except String (List String)) (dirPath sfFileId : String) :
    Option String :=
  match readdir dirPath with
  | .ok files =>
    let foundFile := files.find? (fun file => jsStartsWith file sfFileId)
    if truthy foundFile then some (pathJoin dirPath (foundFile.getD "")) else none
  | .error _ => none

/-- A directory listing for the examples. -/
def exampleReaddir : String → Except String (List String) := fun dir =>
  if dir = "../Attachments" then
    .ok ["00P000000000000001 -- a.pdf", "00P000000000000002 -- b.pdf",
         "00P000000000000002 -- c.pdf"]
  else .error "ENOENT"

end ImportFiles

/-! ## The renamers (`attachment-renamer.js`, `contentVersion-renamer.js`) -/

namespace Renamer

/-- The library functions the renamers call.  They are deterministic: the
same arguments give the same answer in every run. -/
structure Platform where
  /-- `path.extname(p)`. -/
  extname : String → String
  /-- `path.parse(p).name`. -/
  parseName : String → String
  /-- `mime.extension(type)`: a string, or `false` (`none`). -/
  mimeExtension : String → Option String
  /-- `fileTypeFromFile(path)`: rejected, or `undefined` (`none`), or a type
  whose `ext` is given. -/
  fileTypeFromFile : String → Except String (Option String)
  /-- `path.join(dir, name)`. -/
  pathJoin : String → String → String
  /-- Whether `fs.promises.rename(oldPath, newPath)` is rejected. -/
  renameFails : String → String → Bool

/-- The counters and the content of the directory during the loop. -/
structure RunState where
  dir : List String
  renamedCount : Nat
  skippedCount : Nat
  deriving DecidableEq, Repr

/-- The effect of a successful `rename(old, new)` on the names in the
directory: `old` becomes `new`, replacing a file already named `new`. -/
def renameIn (dir : List String) (old new : String) : List String :=
  (dir.filter (fun g => g ≠ new)).map (fun g => if g = old then new else g)

/-- One iteration of `for (const originalFilename of filesInDir)`, the same
in the two scripts but for `newFileName`, which gives the new name, or `none`
when one of the `continue` statements before the rename is reached.  The
rename is attempted; when it is rejected the `catch` counts the file as
skipped. -/
def renameStep (pl : Platform) (filesDirectoryPath : String)
    (newFileName : String → Option String) (st : RunState) (originalFilename : String) :
    RunState :=
  match newFileName originalFilename with
  | none => { st with skippedCount := st.skippedCount + 1 }
  | some newName =>
    if pl.renameFails (pl.pathJoin filesDirectoryPath originalFilename)
        (pl.pathJoin filesDirectoryPath newName) then
      { st with skippedCount := st.skippedCount + 1 }
    else
      { st with dir := renameIn st.dir originalFilename newName
                renamedCount := st.renamedCount + 1 }

/-- The loop over `filesInDir`, the listing read before the loop. -/
def renameLoop (pl : Platform) (filesDirectoryPath : String)
    (newFileName : String → Option String) (filesInDir : List String) : RunState :=
  filesInDir.foldl (renameStep pl filesDirectoryPath newFileName)
    { dir := filesInDir, renamedCount := 0, skippedCount := 0 }

/-- A file the loop leaves in place: it has no new name, or its rename is
rejected. -/
def Stuck (pl : Platform) (filesDirectoryPath : String) (newFileName : String → Option String)
    (g : String) : Prop :=
  match newFileName g with
  | none => True
  | some newName =>
    pl.renameFails (pl.pathJoin filesDirectoryPath g) (pl.pathJoin filesDirectoryPath newName)
      = true

/-! ### `attachment-renamer.js` -/

/-- A value of the map `fileMetadata` of `attachment-renamer.js`. -/
structure AttachmentMeta where
  name : String
  contentType : Option String
  deriving DecidableEq, Repr

/-- The constant `FILES_DIRECTORY_PATH` of `attachment-renamer.js`. -/
def attachmentsDirectory : String := "../Attachments"

/-- The `data` handler of `attachment-renamer.js` (lines 29-36). -/
def loadAttachmentRow (fileMetadata : JsMap AttachmentMeta) (row : JsObject) :
    JsMap AttachmentMeta :=
  match row.get "Id", row.get "Name" with
  | some id, some name =>
    if truthy (some id) && truthy (some name) then
      fileMetadata.set (jsTrim id) { name := name, contentType := row.get "ContentType" }
    else fileMetadata
  | _, _ => fileMetadata

/-- The extension of the record's `Name`: `path.extname(sfName).substring(1)`. -/
def extensionOfName (pl : Platform) (entry : AttachmentMeta) : String :=
  String.mk ((pl.extname entry.name).data.drop 1)

/-- The extension derived from the `ContentType`, consulted only for a truthy
content type: `mime.extension(contentType)`; `none` is `false` or not
consulted. -/
def extensionOfContentType (pl : Platform) (entry : AttachmentMeta) : Option String :=
  if truthy entry.contentType then pl.mimeExtension (entry.contentType.getD "") else none

/-- The extension sniffed from the file content: `type.ext` when
`fileTypeFromFile` answers with a type, nothing when it answers `undefined`
or is rejected. -/
def extensionOfContent (pl : Platform) (originalFilePath : String) : Option String :=
  match pl.fileTypeFromFile originalFilePath with
  | .ok (some ext) => some ext
  | .ok none => none
  | .error _ => none

/-- The extension inference of `attachment-renamer.js` (lines 74-91): the
value of `extension` when line 93 is reached; `none` is `false`. -/
def inferExtension (pl : Platform) (entry : AttachmentMeta) (originalFilePath : String) :
    Option String :=
  let extension1 : Option String := some (extensionOfName pl entry)
  let extension2 :=
    if ¬ truthy extension1 ∧ truthy entry.contentType then
      pl.mimeExtension (entry.contentType.getD "")
    else extension1
  if ¬ truthy extension2 then
    match pl.fileTypeFromFile originalFilePath with
    | .ok (some ext) => some ext
    | .ok none => extension2
    | .error _ => extension2
  else extension2

/-- The new name `attachment-renamer.js` gives to a file (lines 59-102);
`none` when one of the three `continue` statements is reached. -/
def attachmentNewFileName (pl : Platform) (fileMetadata : JsMap AttachmentMeta)
    (originalFilename : String) : Option String :=
  if jsIncludes originalFilename " -- " then none
  else
    let cleanFileId := jsTrim originalFilename
    match fileMetadata.get cleanFileId with
    | none => none
    | some entry =>
      let extension :=
        inferExtension pl entry (pl.pathJoin attachmentsDirectory originalFilename)
      if ¬ truthy extension then none
      else
        let sanitizedName := sanitizeFilename (pl.parseName entry.name)
        some (cleanFileId ++ " -- " ++ sanitizedName ++ "." ++ extension.getD "")

/-- The rename loop of `attachment-renamer.js` (lines 52-111). -/
def attachmentRun (pl : Platform) (fileMetadata : JsMap AttachmentMeta)
    (filesInDir : List String) : RunState :=
  renameLoop pl attachmentsDirectory (attachmentNewFileName pl fileMetadata) filesInDir

/-- Specification of the chain: the first non-empty candidate, if any. -/
def firstNonEmpty : List (Option String) → Option String
  | [] => none
  | c :: cs => if truthy c then c else firstNonEmpty cs

/-! ### `contentVersion-renamer.js` -/

/-- A value of the map `fileMetadata` of `contentVersion-renamer.js`.  `Title`
and `PathOnClient` are columns of the export and are taken to be present in
every row. -/
structure ContentVersionMeta where
  title : String
  pathOnClient : String
  deriving DecidableEq, Repr

/-- The constant `FILES_DIRECTORY_PATH` of `contentVersion-renamer.js`. -/
def contentVersionDirectory : String := "../ContentVersion"

/-- The constant `MAX_FILENAME_BODY_LENGTH`. -/
def MAX_FILENAME_BODY_LENGTH : Nat := 200

/-- The new name `contentVersion-renamer.js` gives to a file (lines 58-88);
`none` when one of the three `continue` statements is reached.  The length
test and the truncation count UTF-16 code units, as `sanitizedName.length`
and `sanitizedName.substring(0, MAX_FILENAME_BODY_LENGTH)` do. -/
def contentVersionNewFileName (pl : Platform) (fileMetadata : JsMap ContentVersionMeta)
    (originalFilename : String) : Option String :=
  if jsIncludes originalFilename " -- " then none
  else
    let cleanFileId := jsTrim originalFilename
    match fileMetadata.get cleanFileId with
    | none => none
    | some entry =>
      let extension := String.mk ((pl.extname entry.pathOnClient).data.drop 1)
      if extension = "" then none
      else
        let sanitizedName := sanitizeFilename (pl.parseName entry.title)
        let sanitizedName :=
          if jsLength sanitizedName > MAX_FILENAME_BODY_LENGTH then
            String.mk (utf16Take MAX_FILENAME_BODY_LENGTH sanitizedName.data)
          else sanitizedName
        some (cleanFileId ++ " -- " ++ sanitizedName ++ "." ++ extension)

/-- The rename loop of `contentVersion-renamer.js` (lines 51-100). -/
def contentVersionRun (pl : Platform) (fileMetadata : JsMap ContentVersionMeta)
    (filesInDir : List String) : RunState :=
  renameLoop pl contentVersionDirectory (contentVersionNewFileName pl fileMetadata) filesInDir

/-- A platform for the examples: the extension is what follows the last dot,
`application/pdf` maps to `pdf`, the content of `00P3` is a PNG image, and
the rename of `00P4` is rejected. -/
def examplePlatform : Platform :=
  { extname := fun p =>
      if p = "report.pdf" then ".pdf" else if p = "long.pdf" then ".pdf" else ""
    parseName := fun p =>
      if p = "report.pdf" then "report" else if p = "long.pdf" then "long" else p
    mimeExtension := fun t => if t = "application/pdf" then some "pdf" else none
    fileTypeFromFile := fun p => if p = "../Attachments/00P3" then .ok (some "png") else .ok none
    pathJoin := fun d n => d ++ "/" ++ n
    renameFails := fun old _ => old == "../Attachments/00P4" }

/-- Metadata for the examples. -/
def exampleMetadata : JsMap AttachmentMeta :=
  [("00P1", { name := "report.pdf", contentType := none }),
   ("00P2", { name := "scan", contentType := some "application/pdf" }),
   ("00P3", { name := "photo", contentType := some "" }),
   ("00P4", { name := "long.pdf", contentType := none }),
   ("00P5", { name := "unknown", contentType := some "x/unknown" })]

end Renamer

/-! ## `create-task-emails.js`: further invariants of the chunked writer -/

namespace CreateTaskEmails

/-- The computation `CONFIG.MAX_CHUNK_SIZE_MB * 1024 * 1024` of
`MAX_CHUNK_SIZE_BYTES` (line 148). -/
def maxChunkSizeBytes (maxChunkSizeMB : Nat) : Nat := maxChunkSizeMB * 1024 * 1024

/-- The value of `CONFIG.MAX_CHUNK_SIZE_MB`. -/
def MAX_CHUNK_SIZE_MB : Nat := 500

/-- The bytes of a chunk file: the strings written to it, one after the other. -/
def ChunkFile.content (c : ChunkFile) : String := String.join c.writes

/-- Accounting invariant of one partition: `currentSize` is the number of
bytes written to the open chunk, `totalCount` the number of rows written to
the partition, and the open chunk has received its header. -/
def StatsExact (p : Partition) : Prop :=
  p.stats.currentSize = p.writer.serializedSize ∧
  p.stats.totalCount = p.allRows.length ∧
  p.writer.writes ≠ []

/-- Invariant behind the rows of the chunks: every chunk has received its
header, and every chunk created by a rollover (numbered 2 or more) holds at
least one row. -/
def LaterChunksNonEmpty (p : Partition) : Prop :=
  (∀ c ∈ p.chunks, c.writes ≠ []) ∧
  (∀ c ∈ p.chunks, 2 ≤ c.chunkIndex → 1 ≤ c.rows.length) ∧
  p.writer.chunkIndex = p.stats.chunkIndex ∧ 1 ≤ p.stats.chunkIndex

end CreateTaskEmails

/-! ## `parseInt(v, 10)` -/

/-- `parseInt(v, 10)` for a string or `undefined` (which is converted to the
string `"undefined"`): leading white space is skipped, a sign is read, then
the longest run of decimal digits; `none` is `NaN`, the result when there is
no digit.  The value is exact below `2^53`. -/
def jsParseInt10 (v : Option String) : Option Int :=
  let s := (v.getD "undefined").data.dropWhile isJsWhiteSpace
  let negative := s.head? == some '-'
  let unsigned := if s.head? == some '-' || s.head? == some '+' then s.tail else s
  let digits := unsigned.takeWhile Char.isDigit
  if digits = [] then none
  else
    let value : Int := digits.foldl (fun acc c => acc * 10 + ((c.toNat - 48 : Nat) : Int)) 0
    some (if negative then -value else value)

namespace CreateActivities

/-- A platform for the examples whose `parseInt` is `jsParseInt10`; it parses
one ISO date and nothing else. -/
def examplePlatformParseInt : Platform :=
  { dateParse := fun s => if s = "2024-01-01T00:00:00.000Z" then some 1704067200000 else none
    toISOString := fun t =>
      if t = 1704067200000 then "2024-01-01T00:00:00.000Z"
      else if t = 1704069000000 then "2024-01-01T00:30:00.000Z"
      else "other"
    parseInt10 := jsParseInt10 }

/-- A meeting of 30 minutes. -/
def exampleMeeting : JsObject :=
  [("Type", "Meeting"), ("WhoId", "003C"), ("Description", "demo"),
   ("ActivityDateTime", "2024-01-01T00:00:00.000Z"), ("CreatedDate", "2023-12-01"),
   ("DurationInMinutes", "30"), ("Subject", "Demo")]

/-- A meeting whose duration carries the end time beyond the range of dates. -/
def exampleEndlessMeeting : JsObject :=
  [("Type", "Meeting"), ("WhoId", "003C"), ("Description", "demo"),
   ("ActivityDateTime", "2024-01-01T00:00:00.000Z"),
   ("DurationInMinutes", "999999999999999"), ("Subject", "Demo")]

/-- An event whose `Type` is not listed in `TYPE_MAP` but names a member of
`Object.prototype`, linked to the contact `003C`. -/
def exampleUnlistedEvent : JsObject := [("Type", "toString"), ("WhoId", "003C")]

/-- An event whose `Type` is neither listed nor inherited. -/
def exampleOtherEvent : JsObject := [("Type", "Lunch"), ("WhoId", "003C")]

/-- A call followed by `exampleUnlistedEvent`. -/
def exampleUnlistedType : FileSystem := fun path =>
  if path = "../CSV/Event.csv" then
    .ok [[("Type", "Call"), ("WhoId", "003C"), ("Description", "notes"),
          ("ActivityDateTime", "2024-01-01T00:00:00.000Z"), ("Subject", "Intro")],
         exampleUnlistedEvent]
  else exampleMappers path

end CreateActivities

/-! ## `create-classic-notes.js`: `main` -/

namespace CreateClassicNotes

/-- The constant `header`. -/
def header : List String := ["Record ID", "Note Body", "Timestamp", "Title", "Body"]

/-- The constant `prefixMap`. -/
def prefixMap : JsObject :=
  [("001", "companies"), ("003", "contacts"), ("00Q", "contacts"), ("006", "deals")]

/-- The initial `outputData`: every partition starts with the header line. -/
def initialOutputData : JsMap (List String) :=
  [("contacts", [jsJoin "," header]), ("companies", [jsJoin "," header]),
   ("deals", [jsJoin "," header]), ("other", [jsJoin "," header])]

/-- The value `prefixMap[p] || 'other'` for the first characters `p` of an id
(at most three characters; no member of `Object.prototype` has so short a
name). -/
def objectTypeOf (p : String) : String :=
  match prefixMap.get p with
  | some objectType => if truthy (some objectType) then objectType else "other"
  | none => "other"

/-- The five values formatted into `newRow` (lines 117-125). -/
def noteFields (hubspotId : String) (note : JsObject) : List (Option String) :=
  let noteTitleText :=
    if truthy (note.get "Title") then "Title: " ++ (note.get "Title").getD "" ++ "\n\n" else ""
  let mergedBody :=
    noteTitleText ++ (if truthy (note.get "Body") then (note.get "Body").getD "" else "")
  [some hubspotId, some mergedBody, note.get "CreatedDate", note.get "Title", note.get "Body"]

/-- The string `newRow`. -/
def newRow (hubspotId : String) (note : JsObject) : String :=
  jsJoin "," ((noteFields hubspotId note).map formatCsvField)

/-- One iteration of `for (const note of notes)` (lines 105-130).  Were
`outputData[objectType]` `undefined`, `push` would throw a `TypeError`. -/
def processNote (sfToHsIdMap : SfToHsIdMap) (outputData : JsMap (List String))
    (note : JsObject) : Except String (JsMap (List String)) :=
  if ¬ truthy (note.get "ParentId") ∨ note.get "IsDeleted" = some "1" then .ok outputData
  else
    let parentId := (note.get "ParentId").getD ""
    let pre := substring03 parentId
    let objectType := objectTypeOf pre
    let hubspotId := resolve sfToHsIdMap pre parentId
    if truthy hubspotId then
      match outputData.get objectType with
      | some data => .ok (outputData.set objectType (data ++ [newRow (hubspotId.getD "") note]))
      | none => .error "TypeError: Cannot read properties of undefined (reading 'push')"
    else .ok outputData

/-- The file-writing loop (lines 135-141): name and content of every
partition that holds more than the header. -/
def writeFiles (outputData : JsMap (List String)) : List (String × String) :=
  outputData.filterMap (fun entry =>
    if entry.2.length > 1 then
      some ("hubspot_import_classic_notes_" ++ entry.1 ++ ".csv", jsJoin "\n" entry.2)
    else none)

/-- `main()` of `create-classic-notes.js` on any disk: the files written, or
the error that ends the run. -/
def main (disk : Disk) : Except String (List (String × String)) :=
  match Node.loadMappers disk with
  | .error e => .error e
  | .ok sfToHsIdMap =>
    match Node.readCsv disk "../CSV/Note.csv" with
    | .error e => .error e
    | .ok notes =>
      match notes.foldlM (processNote sfToHsIdMap) initialOutputData with
      | .error e => .error e
      | .ok outputData => .ok (writeFiles outputData)

/-- A note attached to the contact `003C`. -/
def exampleNote : JsObject :=
  [("ParentId", "003C"), ("IsDeleted", "0"), ("Title", "Call, again"), ("Body", "Left a message"),
   ("CreatedDate", "2024-01-01")]

end CreateClassicNotes

/-! ## `create-import-manifest.js`: `processFiles` and `docLinkMap` -/

namespace CreateImportManifest

/-- One entry of a manifest. -/
structure ManifestEntry where
  hubspot_id : Option String
  original_sf_id : String
  salesforce_file_id : Option String
  file_location : String
  original_filename : Option String
  deriving DecidableEq, Repr

/-- The constant `prefixMap` of `processFiles`. -/
def prefixMap : JsObject :=
  [("001", "companies"), ("003", "contacts"), ("00Q", "contacts"), ("006", "deals")]

/-- One iteration of the loop of `processFiles` (lines 86-109).  Were
`manifest[objectType]` `undefined`, `push` would throw a `TypeError`. -/
def processRecord (dataType : String) (sfToHsIdMap : JsMap (JsMap (Option String)))
    (manifest : JsMap (List ManifestEntry)) (record : JsObject) :
    Except String (JsMap (List ManifestEntry)) :=
  let parentId :=
    if dataType = "Attachments" then record.get "ParentId" else record.get "LinkedEntityId"
  if ¬ truthy parentId then .ok manifest
  else
    let pid := parentId.getD ""
    let pre := substring03 pid
    match prefixMap.get pre, sfToHsIdMap.get pre with
    | some objectType, some m =>
      if truthy (some objectType) ∧ m.has pid then
        let hubspotId := (m.get pid).join
        let fileId := if dataType = "Attachments" then record.get "Id" else record.get "VersionId"
        let filename :=
          if dataType = "Attachments" then record.get "Name" else record.get "Title"
        let fileLocation :=
          if dataType = "Attachments" then "../Attachments" else "../ContentVersion"
        match manifest.get objectType with
        | some entries =>
          .ok (manifest.set objectType (entries ++
            [{ hubspot_id := hubspotId, original_sf_id := pid, salesforce_file_id := fileId,
               file_location := fileLocation, original_filename := filename }]))
        | none => .error "TypeError: Cannot read properties of undefined (reading 'push')"
      else .ok manifest
    | _, _ => .ok manifest

/-- `processFiles(dataType, sfData, sfToHsIdMap, manifest)`. -/
def processFiles (dataType : String) (sfData : List JsObject)
    (sfToHsIdMap : JsMap (JsMap (Option String))) (manifest : JsMap (List ManifestEntry)) :
    Except String (JsMap (List ManifestEntry)) :=
  sfData.foldlM (processRecord dataType sfToHsIdMap) manifest

/-- The initial `fileManifest`. -/
def initialManifest : JsMap (List ManifestEntry) :=
  [("companies", []), ("contacts", []), ("deals", [])]

/-- The entries `links.map(l => [l.ContentDocumentId, l.LinkedEntityId])`
given to `new Map(...)`; a key or a value may be `undefined`. -/
def docLinkEntries (links : List JsObject) : List (Option String × Option String) :=
  links.map (fun l => (l.get "ContentDocumentId", l.get "LinkedEntityId"))

/-- Lookup in the `Map` built by `new Map(entries)`: the constructor sets the
entries in order, so the value found is that of the last entry with the
key. -/
def entriesGet : List (Option String × Option String) → Option String → Option String
  | [], _ => none
  | (k, v) :: rest, key =>
    if rest.any (fun e => e.1 == key) then entriesGet rest key
    else if k = key then v else none

/-- `docLinkMap.get(id)` for `docLinkMap` built from the link rows. -/
def docLinkGet (links : List JsObject) (id : Option String) : Option String :=
  entriesGet (docLinkEntries links) id

/-- Mapping tables whose company row has a source id and an empty
`Record ID`; the contact and deal tables, as every other file, hold no row. -/
def exampleEmptyRecordId : FileSystem := fun path =>
  if path = "maps/company-mapper.csv" then
    .ok [[("SF ID", "001A"), ("Record ID", "")]]
  else .ok []

/-- An attachment of the account `001A`. -/
def exampleAttachment : JsObject := [("Id", "00P1"), ("ParentId", "001A"), ("Name", "a.pdf")]

/-- Two link rows for the same document. -/
def exampleLinks : List JsObject :=
  [[("ContentDocumentId", "069D"), ("LinkedEntityId", "003A")],
   [("ContentDocumentId", "069D"), ("LinkedEntityId", "001B")]]

end CreateImportManifest

/-! ## `create-snotes.js`: `docIdToEntityIdMap` -/

namespace CreateSnotes

/-- The `data` handler of step 1 (lines 35-39): a row sets its document only
when the document and the entity are non-empty and the document is not yet a
key. -/
def loadLink (docIdToEntityIdMap : JsMap String) (row : JsObject) : JsMap String :=
  match row.get "ContentDocumentId", row.get "LinkedEntityId" with
  | some docId, some entityId =>
    if truthy (some docId) ∧ truthy (some entityId) ∧ docIdToEntityIdMap.has docId = false then
      docIdToEntityIdMap.set docId entityId
    else docIdToEntityIdMap
  | _, _ => docIdToEntityIdMap

/-- The map `docIdToEntityIdMap` after all link rows. -/
def docIdToEntityIdMap (links : List JsObject) : JsMap String := links.foldl loadLink []

end CreateSnotes

/-! ## `map-snotes.js`: the mapping loop -/

namespace MapSnotes

/-- The array `newCsvRows` and the two counters of one input file. -/
structure FileResult where
  newCsvRows : List String
  mappedCount : Nat
  unmappedCount : Nat
  deriving DecidableEq, Repr

/-- The string `header` (lines 92-96). -/
def header : String :=
  jsJoin "," [formatCsvField (some "Record ID"), formatCsvField (some "Note Body"),
    formatCsvField (some "Timestamp")]

/-- The value `hubspotId` (lines 103-105): `sfToHsIdMap[p]?.get(sfId)` with
`p` the first three characters of a non-empty `sfId` and `''` otherwise; no
key of the maps is `undefined`. -/
def hubspotIdOf (sfToHsIdMap : SfToHsIdMap) (row : JsObject) : Option String :=
  match row.get "Association ID" with
  | some sfId => resolve sfToHsIdMap (idPre (some sfId)) sfId
  | none => none

/-- One iteration of `for (const row of noteRows)` (lines 102-118). -/
def mapRow (sfToHsIdMap : SfToHsIdMap) (res : FileResult) (row : JsObject) : FileResult :=
  let hubspotId := hubspotIdOf sfToHsIdMap row
  if truthy hubspotId then
    let mappedRow := jsJoin "," [formatCsvField hubspotId, formatCsvField (row.get "Note Body"),
      formatCsvField (row.get "Timestamp")]
    { res with
      newCsvRows := res.newCsvRows ++ [mappedRow]
      mappedCount := res.mappedCount + 1 }
  else { res with unmappedCount := res.unmappedCount + 1 }

/-- The mapping loop over the rows of one input file. -/
def mapNoteRows (sfToHsIdMap : SfToHsIdMap) (noteRows : List JsObject) : FileResult :=
  noteRows.foldl (mapRow sfToHsIdMap)
    { newCsvRows := [header]
      mappedCount := 0
      unmappedCount := 0 }

/-- The content written to the output file (lines 120-128), `none` when no
file is written. -/
def outputFile (res : FileResult) : Option String :=
  if res.mappedCount > 0 then some (jsJoin "\n" res.newCsvRows) else none

/-- Note rows of an `Other` file: ids of cases and of users. -/
def exampleOtherRows : List JsObject :=
  [[("Association ID", "500A"), ("Note Body", "x"), ("Timestamp", "1")],
   [("Association ID", "005B"), ("Note Body", "y"), ("Timestamp", "2")],
   [("Association ID", ""), ("Note Body", "z"), ("Timestamp", "3")]]

end MapSnotes


namespace Renamer

/-- Metadata of two attachments with 18-character ids. -/
def exampleMetadata18 : JsMap AttachmentMeta :=
  [("00P000000000000001", { name := "report.pdf", contentType := none }),
   ("00P000000000000002", { name := "scan", contentType := some "application/pdf" })]

/-- A platform for the content versions of the examples: the extension of
`plan.docx` is `.docx`, that of `f.txt` is `.txt`, and titles have no
extension to strip. -/
def exampleContentPlatform : Platform :=
  { extname := fun p =>
      if p = "plan.docx" then ".docx" else if p = "f.txt" then ".txt" else ""
    parseName := fun p => p
    mimeExtension := fun _ => none
    fileTypeFromFile := fun _ => .ok none
    pathJoin := fun d n => d ++ "/" ++ n
    renameFails := fun _ _ => false }

/-- A title of 190 letters followed by 6 emoji: 196 characters, 202 UTF-16
code units. -/
def exampleLongTitle : String :=
  String.mk (List.replicate 190 'b' ++ List.replicate 6 (Char.ofNat 0x1F600))

/-- Metadata of two content versions with 18-character ids. -/
def exampleContentVersions : JsMap ContentVersionMeta :=
  [("068000000000000001", { title := "Quarterly: plan?", pathOnClient := "plan.docx" }),
   ("068000000000000002", { title := exampleLongTitle, pathOnClient := "f.txt" })]

/-- The listing of the directory after the first content version was
renamed, the second file not being renamed yet. -/
def exampleVersionListing : String → Except String (List String) := fun _ =>
  .ok ["068000000000000001 -- Quarterly_ plan_.docx"]

/-- The listing of the directory after the two attachments were renamed. -/
def exampleRenamedListing : String → Except String (List String) := fun _ =>
  .ok ["00P000000000000001 -- report.pdf", "00P000000000000002 -- scan.pdf"]

end Renamer

/-! # Theorems -/

/-! ## CSV formatting and the round trip through the RFC 4180 reader -/

theorem needsQuoting_false_iff (s : String) :
    needsQuoting s = false ↔ ∀ c ∈ s.data, c ≠ ',' ∧ c ≠ '"' ∧ c ≠ '\n' ∧ c ≠ '\r' := by
  simp only [needsQuoting, Bool.or_eq_false_iff, List.contains_eq_any_beq, List.any_eq_false,
    beq_iff_eq]
  constructor
  · rintro ⟨⟨⟨h1, h2⟩, h3⟩, h4⟩ c hc
    exact ⟨fun e => h1 c hc e.symm, fun e => h2 c hc e.symm, fun e => h3 c hc e.symm,
      fun e => h4 c hc e.symm⟩
  · intro h
    exact ⟨⟨⟨fun c hc e => (h c hc).1 e.symm, fun c hc e => (h c hc).2.1 e.symm⟩,
      fun c hc e => (h c hc).2.2.1 e.symm⟩, fun c hc e => (h c hc).2.2.2 e.symm⟩

theorem readRecordFrom_unquoted_run (s : List Char) (cur : List Char) (acc : List String)
    (rest : List Char) (hs : ∀ c ∈ s, c ≠ ',' ∧ c ≠ '"' ∧ c ≠ '\n' ∧ c ≠ '\r') :
    readRecordFrom .unquoted cur acc (s ++ rest) =
      readRecordFrom .unquoted (cur ++ s) acc rest := by
  induction s generalizing cur with
  | nil => simp
  | cons c cs ih =>
    obtain ⟨h1, h2, h3, h4⟩ := hs c (by simp)
    have hcs : ∀ d ∈ cs, d ≠ ',' ∧ d ≠ '"' ∧ d ≠ '\n' ∧ d ≠ '\r' :=
      fun d hd => hs d (by simp [hd])
    simp only [List.cons_append, readRecordFrom, h1, h2, h3, h4, if_false, or_self, List.append_eq]
    rw [ih (cur ++ [c]) hcs]
    simp

theorem readRecordFrom_quoted_run (s : List Char) (cur : List Char) (acc : List String)
    (rest : List Char) :
    readRecordFrom .quoted cur acc (doubleQuotes s ++ '"' :: rest) =
      readRecordFrom .quoteSeen (cur ++ s) acc rest := by
  induction s generalizing cur with
  | nil => simp [doubleQuotes, readRecordFrom]
  | cons c cs ih =>
    by_cases hc : c = '"'
    · subst hc
      simp only [doubleQuotes, if_true, List.cons_append, readRecordFrom, List.append_eq]
      rw [ih]; simp
    · simp only [doubleQuotes, hc, if_false, List.cons_append, readRecordFrom, List.append_eq]
      rw [ih]; simp

theorem readRecordFrom_field_comma (v : Option String) (acc : List String) (rest : List Char) :
    readRecordFrom .fieldStart [] acc ((formatCsvField v).data ++ ',' :: rest) =
      readRecordFrom .fieldStart [] (acc ++ [v.getD ""]) rest := by
  unfold formatCsvField
  by_cases hq : needsQuoting (v.getD "") = true
  · simp only [hq, if_true, String.data_append]
    show readRecordFrom .fieldStart [] acc
      (('"' :: doubleQuotes (v.getD "").data ++ ['"']) ++ ',' :: rest) = _
    simp only [List.cons_append, List.append_assoc, List.singleton_append, readRecordFrom,
      if_true, List.append_eq]
    rw [readRecordFrom_quoted_run]
    simp [readRecordFrom]
  · have hq2 : needsQuoting (v.getD "") = false := by simpa using hq
    have hs := (needsQuoting_false_iff _).mp hq2
    simp only [hq2, Bool.false_eq_true, if_false]
    cases hdata : (v.getD "").data with
    | nil =>
      have : v.getD "" = "" := by
        apply String.ext; simpa using hdata
      simp [readRecordFrom, this]
    | cons c cs =>
      rw [hdata] at hs
      obtain ⟨h1, h2, h3, h4⟩ := hs c (by simp)
      have hcs : ∀ d ∈ cs, d ≠ ',' ∧ d ≠ '"' ∧ d ≠ '\n' ∧ d ≠ '\r' :=
        fun d hd => hs d (by simp [hd])
      simp only [List.cons_append, readRecordFrom, h1, h2, h3, h4, if_false, or_self, List.append_eq]
      rw [readRecordFrom_unquoted_run cs [c] acc _ hcs]
      simp only [List.singleton_append, readRecordFrom, if_true]
      rw [← hdata]

theorem readRecordFrom_field_end (v : Option String) (acc : List String) :
    readRecordFrom .fieldStart [] acc (formatCsvField v).data = some (acc ++ [v.getD ""]) := by
  unfold formatCsvField
  by_cases hq : needsQuoting (v.getD "") = true
  · simp only [hq, if_true, String.data_append]
    show readRecordFrom .fieldStart [] acc
      (('"' :: doubleQuotes (v.getD "").data ++ '"' :: [])) = _
    simp only [List.cons_append, readRecordFrom, if_true, List.append_eq]
    rw [readRecordFrom_quoted_run]
    simp [readRecordFrom]
  · have hq2 : needsQuoting (v.getD "") = false := by simpa using hq
    have hs := (needsQuoting_false_iff _).mp hq2
    simp only [hq2, Bool.false_eq_true, if_false]
    cases hdata : (v.getD "").data with
    | nil =>
      have : v.getD "" = "" := by
        apply String.ext; simpa using hdata
      simp [readRecordFrom, this]
    | cons c cs =>
      rw [hdata] at hs
      obtain ⟨h1, h2, h3, h4⟩ := hs c (by simp)
      have hcs : ∀ d ∈ cs, d ≠ ',' ∧ d ≠ '"' ∧ d ≠ '\n' ∧ d ≠ '\r' :=
        fun d hd => hs d (by simp [hd])
      simp only [readRecordFrom, h1, h2, h3, h4, if_false, or_self, List.append_eq]
      have := readRecordFrom_unquoted_run cs [c] acc [] hcs
      simp only [List.append_nil, List.singleton_append] at this
      rw [this]
      simp only [readRecordFrom]
      rw [← hdata]

theorem readRecordFrom_row (vs : List (Option String)) (hne : vs ≠ []) (acc : List String) :
    readRecordFrom .fieldStart [] acc (jsJoin "," (vs.map formatCsvField)).data =
      some (acc ++ vs.map (fun v => v.getD "")) := by
  induction vs generalizing acc with
  | nil => exact absurd rfl hne
  | cons v rest ih =>
    cases rest with
    | nil => simpa [jsJoin] using readRecordFrom_field_end v acc
    | cons w ws =>
      have h := ih (by simp) (acc ++ [v.getD ""])
      simp only [List.map_cons, jsJoin, String.data_append] at h ⊢
      rw [List.append_assoc, List.singleton_append, readRecordFrom_field_comma, h]
      simp

/-- Reading back a row of at least one column gives the text of every
property read, in order. -/
theorem rfc4180_buildCsvRow (data : RowData) (headers : List String) (hne : headers ≠ []) :
    rfc4180ReadRecord (buildCsvRow data headers) =
      some (headers.map (fun header => (data.read header).getD "")) := by
  have := readRecordFrom_row (headers.map (fun h => data.read h)) (by simpa using hne) []
  simpa [rfc4180ReadRecord, buildCsvRow, List.map_map, Function.comp] using this

/-- C3 (amended): for every non-empty header list and every data record whose
values are strings or absent, reading `buildCsvRow(data, headers)` with the
RFC 4180 record reader succeeds and yields exactly one field per header, field
`i` being the text of `data[headers[i]]`: the original string when the record
holds one under that key, the empty string when the key holds `undefined` or
is absent, unless the absent key names a member inherited from
`Object.prototype` (such as `toString`), whose text is then the field. -/
theorem buildCsvRow_roundtrip (data : RowData) (headers : List String) (hne : headers ≠ []) :
    rfc4180ReadRecord (buildCsvRow data headers) =
      some (headers.map (fun header => (data.read header).getD "")) ∧
    (∀ header value, data.get header = some value → data.read header = value) ∧
    (∀ header, data.get header = none → objectPrototype.get header = none →
      data.read header = none) ∧
    (∀ header, data.get header = none → data.read header = objectPrototype.get header) := by
  refine ⟨?_, ?_, ?_, ?_⟩
  · exact rfc4180_buildCsvRow data headers hne
  · intro header value h
    simp [RowData.read, h]
  · intro header h hp
    simp [RowData.read, h, hp]
  · intro header h
    simp [RowData.read, h]

/-- Witness for C3 (amended): a value with a comma, quotes and a line break,
and an absent column; and a header that names an inherited member. -/
theorem buildCsvRow_roundtrip_witness :
    (["Email body", "Email subject"] : List String) ≠ [] ∧
    rfc4180ReadRecord
        (buildCsvRow [("Email body", some "a,\"b\"\nc")] ["Email body", "Email subject"]) =
      some ["a,\"b\"\nc", ""] ∧
    buildCsvRow [("Email body", some "a,\"b\"\nc")] ["Email body", "Email subject"] =
      "\"a,\"\"b\"\"\nc\"," ∧
    rfc4180ReadRecord (buildCsvRow [] ["Record ID", "toString"]) =
      some ["", "function toString() \x7b [native code] \x7d"] :=
  ⟨by decide,
   (buildCsvRow_roundtrip [("Email body", some "a,\"b\"\nc")] ["Email body", "Email subject"]
     (by decide)).1,
   by decide,
   (buildCsvRow_roundtrip [] ["Record ID", "toString"] (by decide)).1⟩

/-- C3 (counterexample): with the empty header list `buildCsvRow` returns the
empty line, in which the RFC 4180 reader finds one (empty) field and not the
`headers.length = 0` fields of the claim; no reader can do better, as the
same line is produced for one header whose value is absent. -/
theorem buildCsvRow_empty_headers_one_field :
    rfc4180ReadRecord (buildCsvRow [] []) = some [""] ∧
    rfc4180ReadRecord (buildCsvRow [] []) ≠
      some (([] : List String).map (fun header => (RowData.read [] header).getD "")) ∧
    buildCsvRow [] [] = buildCsvRow [] ["Record ID"] := by
  decide

/-! ## Lemmas: strings -/

theorem byteLength_append (a b : String) :
    byteLength (a ++ b) = byteLength a + byteLength b := by
  simp [byteLength, String.data_append]

theorem byteLength_newline : byteLength "\n" = 1 := by decide

theorem byteLength_csvRow_pos (line : String) : 1 ≤ byteLength (line ++ "\n") := by
  rw [byteLength_append, byteLength_newline]; omega

/-! ## The chunked writer of `create-task-emails.js` -/

namespace CreateTaskEmails

theorem chunkInv_init (maxChunkBytes : Nat) (hdr : String)
    (h : byteLength hdr ≤ maxChunkBytes) : ChunkInv maxChunkBytes hdr (initPartition hdr) := by
  refine ⟨?_, ⟨[], rfl, by simp⟩, by simp [initPartition], ?_⟩
  · simp [initPartition, ChunkFile.serializedSize]
  · left; simpa [initPartition, ChunkFile.serializedSize] using h

theorem sum_pos_of_forall_pos (rows : List String) (h : ∀ r ∈ rows, 1 ≤ byteLength r)
    (hne : rows ≠ []) : 1 ≤ (rows.map byteLength).sum := by
  cases rows with
  | nil => exact absurd rfl hne
  | cons r rest =>
    have := h r (by simp)
    simp only [List.map_cons, List.sum_cons]
    omega

theorem chunkInv_writeRow (maxChunkBytes : Nat) (hdr : String) (p : Partition) (line : String)
    (hp : ChunkInv maxChunkBytes hdr p) :
    ChunkInv maxChunkBytes hdr (writeRow maxChunkBytes hdr p line) := by
  obtain ⟨hsize, ⟨rows, hrows, hpos⟩, hclosed, hw⟩ := hp
  have hrow := byteLength_csvRow_pos line
  unfold writeRow
  by_cases hc : p.stats.currentSize > 0 ∧
      p.stats.currentSize + byteLength (line ++ "\n") > maxChunkBytes
  · simp only [hc, and_self, if_true]
    refine ⟨?_, ⟨[line ++ "\n"], by simp, by simpa using hrow⟩, ?_, ?_⟩
    · simp [ChunkFile.serializedSize]
    · intro c hcm
      rcases List.mem_append.mp hcm with h | h
      · exact hclosed c h
      · have : c = p.writer := by simpa using h
        subst this
        exact ⟨⟨rows, hrows⟩, hw⟩
    · right; simp [ChunkFile.rows]
  · simp only [hc, if_false]
    refine ⟨?_, ⟨rows ++ [line ++ "\n"], by simp [hrows], ?_⟩, hclosed, ?_⟩
    · simp [ChunkFile.serializedSize, hsize]
    · intro r hr
      rcases List.mem_append.mp hr with h | h
      · exact hpos r h
      · have : r = line ++ "\n" := by simpa using h
        subst this; exact hrow
    · by_cases h0 : p.stats.currentSize > 0
      · left
        have : ¬ (p.stats.currentSize + byteLength (line ++ "\n") > maxChunkBytes) :=
          fun h => hc ⟨h0, h⟩
        simp only [ChunkFile.serializedSize, List.map_append, List.sum_append, List.map_cons,
          List.map_nil, List.sum_cons, List.sum_nil] 
        simp only [ChunkFile.serializedSize] at hsize
        omega
      · right
        have hz : p.writer.serializedSize = 0 := by omega
        have hrows0 : rows = [] := by
          by_contra hne
          have := sum_pos_of_forall_pos rows hpos hne
          simp only [ChunkFile.serializedSize, hrows, List.map_cons, List.sum_cons] at hz
          omega
        simp [ChunkFile.rows, hrows, hrows0]

theorem chunkInv_foldl (maxChunkBytes : Nat) (hdr : String) (lines : List String)
    (p : Partition) (hp : ChunkInv maxChunkBytes hdr p) :
    ChunkInv maxChunkBytes hdr (lines.foldl (writeRow maxChunkBytes hdr) p) := by
  induction lines generalizing p with
  | nil => exact hp
  | cons l ls ih => exact ih _ (chunkInv_writeRow maxChunkBytes hdr p l hp)

theorem chunkInv_writeRows (maxChunkBytes : Nat) (hdr : String) (lines : List String)
    (h : byteLength hdr ≤ maxChunkBytes) :
    ChunkInv maxChunkBytes hdr (writeRows maxChunkBytes hdr lines) :=
  chunkInv_foldl maxChunkBytes hdr lines _ (chunkInv_init maxChunkBytes hdr h)

theorem chunkInv_chunks (maxChunkBytes : Nat) (hdr : String) (p : Partition)
    (hp : ChunkInv maxChunkBytes hdr p) (c : ChunkFile) (hc : c ∈ p.chunks) :
    (∃ rows, c.writes = hdr :: rows) ∧
      (c.serializedSize ≤ maxChunkBytes ∨ c.rows.length = 1) := by
  obtain ⟨_, ⟨rows, hrows, _⟩, hclosed, hw⟩ := hp
  rcases List.mem_append.mp hc with h | h
  · exact hclosed c h
  · have : c = p.writer := by simpa using h
    subst this
    exact ⟨⟨rows, hrows⟩, hw⟩

theorem rows_foldl (maxChunkBytes : Nat) (hdr : String) (lines : List String) (p : Partition)
    (hp : p.writer.writes ≠ []) :
    ((lines.foldl (writeRow maxChunkBytes hdr) p).chunks.map ChunkFile.rows).flatten =
      (p.chunks.map ChunkFile.rows).flatten ++ lines.map (fun l => l ++ "\n") ∧
    (lines.foldl (writeRow maxChunkBytes hdr) p).writer.writes ≠ [] := by
  induction lines generalizing p with
  | nil => simp [hp]
  | cons l ls ih =>
    have hstep : ((writeRow maxChunkBytes hdr p l).chunks.map ChunkFile.rows).flatten =
        (p.chunks.map ChunkFile.rows).flatten ++ [l ++ "\n"] ∧
        (writeRow maxChunkBytes hdr p l).writer.writes ≠ [] := by
      unfold writeRow
      by_cases hc : p.stats.currentSize > 0 ∧
          p.stats.currentSize + byteLength (l ++ "\n") > maxChunkBytes
      · simp [hc, Partition.chunks, ChunkFile.rows]
      · simp only [hc, if_false]
        cases hw : p.writer.writes with
        | nil => exact absurd hw hp
        | cons w ws => simp [Partition.chunks, ChunkFile.rows, hw]
    obtain ⟨h1, h2⟩ := ih _ hstep.2
    refine ⟨?_, h2⟩
    simp only [List.foldl_cons, h1, hstep.1, List.map_cons, List.append_assoc,
      List.singleton_append]

/-- C1: for every `maxChunkBytes`, every header of at most `maxChunkBytes`
bytes and every sequence of rows written to one partition, each chunk produced
has serialized size (header bytes + row bytes) at most `maxChunkBytes` or
contains exactly one row. -/
theorem chunk_fits_or_single_row (maxChunkBytes : Nat) (emailHeadersString : String)
    (lines : List String) (hh : byteLength emailHeadersString ≤ maxChunkBytes)
    (c : ChunkFile) (hc : c ∈ (writeRows maxChunkBytes emailHeadersString lines).chunks) :
    c.serializedSize ≤ maxChunkBytes ∨ c.rows.length = 1 :=
  (chunkInv_chunks maxChunkBytes emailHeadersString _
    (chunkInv_writeRows maxChunkBytes emailHeadersString lines hh) c hc).2

/-- Witness for C1: limit 100, a header of 40 bytes and one row of 70 bytes;
the second chunk exceeds the limit and holds one row. -/
theorem chunk_fits_or_single_row_witness :
    byteLength exampleHeader40 ≤ 100 ∧
    (⟨2, [exampleHeader40, exampleLine69 ++ "\n"]⟩ : ChunkFile) ∈
      (writeRows 100 exampleHeader40 [exampleLine69]).chunks ∧
    ((⟨2, [exampleHeader40, exampleLine69 ++ "\n"]⟩ : ChunkFile).serializedSize ≤ 100 ∨
      (⟨2, [exampleHeader40, exampleLine69 ++ "\n"]⟩ : ChunkFile).rows.length = 1) :=
  ⟨by decide, by decide,
    chunk_fits_or_single_row 100 exampleHeader40 [exampleLine69] (by decide) _ (by decide)⟩

/-- C4 (counterexample): with `maxChunkBytes = 100`, a header of 40 bytes and
four rows of 25 bytes, the chunks are not "header and three rows, then header
and the fourth row". -/
theorem rollover_not_before_fourth_row :
    byteLength exampleHeader40 = 40 ∧
    (∀ c ∈ ['a', 'b', 'c', 'd'], byteLength (exampleLine24 c ++ "\n") = 25) ∧
    (writeRows 100 exampleHeader40
        [exampleLine24 'a', exampleLine24 'b', exampleLine24 'c', exampleLine24 'd']).chunks ≠
      [⟨1, [exampleHeader40, exampleLine24 'a' ++ "\n", exampleLine24 'b' ++ "\n",
            exampleLine24 'c' ++ "\n"]⟩,
       ⟨2, [exampleHeader40, exampleLine24 'd' ++ "\n"]⟩] := by
  decide

/-- C4 (amended): with `maxChunkBytes = 100` and a header of 40 bytes, writing
four 25-byte rows to one partition triggers the first rollover before the
third row (40 + 25 + 25 + 25 = 115 > 100): chunk 1 holds the header and the
first two rows, chunk 2 holds the header and the third and fourth rows. -/
theorem rollover_before_third_row (hdr l1 l2 l3 l4 : String) (hh : byteLength hdr = 40)
    (h1 : byteLength (l1 ++ "\n") = 25) (h2 : byteLength (l2 ++ "\n") = 25)
    (h3 : byteLength (l3 ++ "\n") = 25) (h4 : byteLength (l4 ++ "\n") = 25) :
    (writeRows 100 hdr [l1, l2, l3, l4]).chunks =
      [⟨1, [hdr, l1 ++ "\n", l2 ++ "\n"]⟩, ⟨2, [hdr, l3 ++ "\n", l4 ++ "\n"]⟩] := by
  simp [writeRows, writeRow, initPartition, Partition.chunks, hh, h1, h2, h3, h4]

/-- Witness for C4 (amended). -/
theorem rollover_before_third_row_witness :
    byteLength exampleHeader40 = 40 ∧
    byteLength (exampleLine24 'a' ++ "\n") = 25 ∧
    (writeRows 100 exampleHeader40
        [exampleLine24 'a', exampleLine24 'b', exampleLine24 'c', exampleLine24 'd']).chunks =
      [⟨1, [exampleHeader40, exampleLine24 'a' ++ "\n", exampleLine24 'b' ++ "\n"]⟩,
       ⟨2, [exampleHeader40, exampleLine24 'c' ++ "\n", exampleLine24 'd' ++ "\n"]⟩] :=
  ⟨by decide, by decide,
    rollover_before_third_row exampleHeader40 (exampleLine24 'a') (exampleLine24 'b')
      (exampleLine24 'c') (exampleLine24 'd') (by decide) (by decide) (by decide) (by decide)
      (by decide)⟩

/-- C5 (counterexample): limit 100, header of 40 bytes, one row of 70 bytes.
The second chunk has 110 bytes, more than the limit, and its single row has
70 bytes, not more than the limit. -/
theorem oversize_chunk_row_within_limit :
    ¬ (∀ c ∈ (writeRows 100 exampleHeader40 [exampleLine69]).chunks,
        c.serializedSize > 100 → ∃ r, c.rows = [r] ∧ byteLength r > 100) := by
  intro h
  obtain ⟨r, hr, hlt⟩ := h ⟨2, [exampleHeader40, exampleLine69 ++ "\n"]⟩ (by decide) (by decide)
  have : r = exampleLine69 ++ "\n" := by
    simp [ChunkFile.rows] at hr; exact hr.symm
  subst this
  revert hlt; decide

/-- C5 (amended): with a header of at most `maxChunkBytes` bytes, whenever a
produced chunk's serialized size exceeds `maxChunkBytes`, that chunk contains
a single row, and that row does not fit beside the header: header bytes +
`rowBytes` is larger than `maxChunkBytes`. -/
theorem oversize_chunk_single_row (maxChunkBytes : Nat) (emailHeadersString : String)
    (lines : List String) (hh : byteLength emailHeadersString ≤ maxChunkBytes)
    (c : ChunkFile) (hc : c ∈ (writeRows maxChunkBytes emailHeadersString lines).chunks)
    (hbig : c.serializedSize > maxChunkBytes) :
    ∃ r, c.rows = [r] ∧ byteLength emailHeadersString + byteLength r > maxChunkBytes := by
  obtain ⟨⟨rows, hrows⟩, hor⟩ := chunkInv_chunks maxChunkBytes emailHeadersString _
    (chunkInv_writeRows maxChunkBytes emailHeadersString lines hh) c hc
  rcases hor with h | h
  · omega
  · simp only [ChunkFile.rows, hrows, List.tail_cons] at h
    match rows, h with
    | [r], _ =>
      refine ⟨r, by simp [ChunkFile.rows, hrows], ?_⟩
      simp only [ChunkFile.serializedSize, hrows, List.map_cons, List.map_nil, List.sum_cons,
        List.sum_nil] at hbig
      omega

/-- Witness for C5 (amended): the second chunk of the counterexample. -/
theorem oversize_chunk_single_row_witness :
    byteLength exampleHeader40 ≤ 100 ∧
    (⟨2, [exampleHeader40, exampleLine69 ++ "\n"]⟩ : ChunkFile) ∈
      (writeRows 100 exampleHeader40 [exampleLine69]).chunks ∧
    (⟨2, [exampleHeader40, exampleLine69 ++ "\n"]⟩ : ChunkFile).serializedSize > 100 ∧
    ∃ r, (⟨2, [exampleHeader40, exampleLine69 ++ "\n"]⟩ : ChunkFile).rows = [r] ∧
      byteLength exampleHeader40 + byteLength r > 100 :=
  ⟨by decide, by decide, by decide,
    oversize_chunk_single_row 100 exampleHeader40 [exampleLine69] (by decide) _ (by decide)
      (by decide)⟩

/-- C6: for every sequence of rows written to one partition, concatenating the
rows of the chunks in creation order (each chunk without its header) gives
exactly the serialized rows written, in the order written. -/
theorem chunks_rows_eq_written (maxChunkBytes : Nat) (emailHeadersString : String)
    (lines : List String) :
    ((writeRows maxChunkBytes emailHeadersString lines).chunks.map ChunkFile.rows).flatten =
      lines.map (fun l => l ++ "\n") := by
  have := (rows_foldl maxChunkBytes emailHeadersString lines (initPartition emailHeadersString)
    (by simp [initPartition])).1
  simpa [writeRows, initPartition, Partition.chunks, ChunkFile.rows] using this

end CreateTaskEmails

/-! ## Lemmas: maps -/

theorem JsMap.get_set {α : Type} (m : JsMap α) (k : String) (v : α) (k2 : String) :
    (m.set k v).get k2 = if k = k2 then some v else m.get k2 := by
  induction m with
  | nil => simp [JsMap.set, JsMap.get]
  | cons e rest ih =>
    obtain ⟨a, b⟩ := e
    by_cases hak : a = k
    · subst hak
      by_cases h2 : a = k2 <;> simp [JsMap.set, JsMap.get, h2]
    · by_cases h2 : a = k2
      · subst h2
        have hka : ¬ k = a := fun h => hak h.symm
        simp [JsMap.set, JsMap.get, hak, hka]
      · simp [JsMap.set, JsMap.get, hak, h2, ih]

theorem JsMap.has_eq_isSome_get {α : Type} (m : JsMap α) (k : String) :
    m.has k = (m.get k).isSome := by
  induction m with
  | nil => rfl
  | cons e rest ih =>
    obtain ⟨a, b⟩ := e
    by_cases h : a = k <;> simp [JsMap.has, JsMap.get, h, ih]

theorem JsMap.get_foldl_set (writes : List (String × String)) (m : JsMap String) (id : String) :
    (writes.foldl (fun acc kv => acc.set kv.1 kv.2) m).get id =
      match lastWrite writes id with
      | some w => some w
      | none => m.get id := by
  induction writes generalizing m with
  | nil => simp [lastWrite]
  | cons kv rest ih =>
    obtain ⟨k, v⟩ := kv
    simp only [List.foldl_cons, ih, lastWrite, JsMap.get_set]
    cases lastWrite rest id with
    | some w => rfl
    | none => by_cases h : k = id <;> simp [h]

theorem lastWrite_eq_none_iff (writes : List (String × String)) (id : String) :
    lastWrite writes id = none ↔ id ∉ writes.map Prod.fst := by
  induction writes with
  | nil => simp [lastWrite]
  | cons kv rest ih =>
    obtain ⟨k, v⟩ := kv
    simp only [lastWrite, List.map_cons, List.mem_cons, not_or]
    cases h : lastWrite rest id with
    | some w =>
      have : ¬ (id ∉ rest.map Prod.fst) := fun hn => by simpa [h] using ih.mpr hn
      simp only [reduceCtorEq, false_iff, not_and, this, not_false_eq_true, implies_true]
    | none =>
      have := ih.mp h
      by_cases hk : k = id
      · simp [hk]
      · have hk2 : ¬ id = k := fun e => hk e.symm
        simp [hk, hk2, this]

theorem lastWrite_append_same (writes : List (String × String)) (id v : String) :
    lastWrite (writes ++ [(id, v)]) id = some v := by
  induction writes with
  | nil => simp [lastWrite]
  | cons kv rest ih =>
    obtain ⟨k, w⟩ := kv
    simp [lastWrite, ih]

theorem lastWrite_append_other (writes : List (String × String)) (k v id : String)
    (h : k ≠ id) : lastWrite (writes ++ [(k, v)]) id = lastWrite writes id := by
  induction writes with
  | nil => simp [lastWrite, h]
  | cons kv rest ih =>
    obtain ⟨a, w⟩ := kv
    simp [lastWrite, ih]

/-! ## Lemmas: `loadMappers` -/

theorem resolve_setIn (idx : SfToHsIdMap) (p k v p2 id : String) :
    resolve (setIn idx p k v) p2 id =
      if p = p2 ∧ k = id ∧ (idx.get p).isSome then some v else resolve idx p2 id := by
  unfold setIn resolve
  cases hp : idx.get p with
  | none =>
    simp
  | some m =>
    simp only [JsMap.get_set, Option.isSome_some, and_true]
    by_cases h : p = p2
    · subst h
      simp [JsMap.get_set, hp]
    · simp [h]

theorem isSome_get_setIn (idx : SfToHsIdMap) (p k v p2 : String) :
    ((setIn idx p k v).get p2).isSome = (idx.get p2).isSome := by
  unfold setIn
  cases hp : idx.get p with
  | none => rfl
  | some m =>
    simp only [JsMap.get_set]
    by_cases h : p = p2
    · subst h; simp [hp]
    · simp [h]

theorem loadRows_spec (mapper : Mapper) (rows : List JsObject) (idx : SfToHsIdMap)
    (hk : (idx.get mapper.pfx).isSome = true) (p id : String) :
    resolve (rows.foldl (loadRow mapper) idx) p id =
      (if p = mapper.pfx then
        match lastWrite (rows.filterMap (rowInsertion mapper)) id with
        | some w => some w
        | none => resolve idx p id
      else resolve idx p id) ∧
    ∀ p2, ((rows.foldl (loadRow mapper) idx).get p2).isSome = (idx.get p2).isSome := by
  induction rows generalizing idx with
  | nil =>
    simp [lastWrite]
  | cons row rest ih =>
    simp only [List.foldl_cons]
    cases hins : rowInsertion mapper row with
    | none =>
      have hrow : loadRow mapper idx row = idx := by simp [loadRow, hins]
      rw [hrow, List.filterMap_cons_none hins]
      exact ih idx hk
    | some kv =>
      obtain ⟨k, v⟩ := kv
      have hrow : loadRow mapper idx row = setIn idx mapper.pfx k v := by simp [loadRow, hins]
      have hk2 : ((setIn idx mapper.pfx k v).get mapper.pfx).isSome = true := by
        rw [isSome_get_setIn]; exact hk
      obtain ⟨h1, h2⟩ := ih (setIn idx mapper.pfx k v) hk2
      rw [hrow, List.filterMap_cons_some hins]
      refine ⟨?_, fun p2 => by rw [h2, isSome_get_setIn]⟩
      rw [h1]
      by_cases hp : p = mapper.pfx
      · subst hp
        simp only [if_true, lastWrite, resolve_setIn, hk, and_true, true_and]
        cases lastWrite (List.filterMap (rowInsertion mapper) rest) id with
        | some w => rfl
        | none =>
          by_cases hkid : k = id <;> simp [hkid]
      · have hp2 : ¬ mapper.pfx = p := fun e => hp e.symm
        simp [hp, resolve_setIn, hp2]

theorem loadMapper_spec (fs : FileSystem) (mapper : Mapper) (idx : SfToHsIdMap)
    (hk : (idx.get mapper.pfx).isSome = true) (p id : String) :
    resolve (loadMapper fs idx mapper) p id =
      (if p = mapper.pfx then
        match lastWrite (insertedUnder fs mapper) id with
        | some w => some w
        | none => resolve idx p id
      else resolve idx p id) ∧
    ∀ p2, ((loadMapper fs idx mapper).get p2).isSome = (idx.get p2).isSome := by
  unfold loadMapper insertedUnder
  cases fs (mapperPath mapper.name) with
  | error e => simp [lastWrite]
  | ok data => exact loadRows_spec mapper data idx hk p id

theorem loadMapper_foldl_other (fs : FileSystem) (ms : List Mapper) (idx : SfToHsIdMap)
    (hk : ∀ m ∈ ms, (idx.get m.pfx).isSome = true) (p id : String)
    (hp : p ∉ ms.map Mapper.pfx) :
    resolve (ms.foldl (loadMapper fs) idx) p id = resolve idx p id := by
  induction ms generalizing idx with
  | nil => rfl
  | cons m0 rest ih =>
    have h0 := loadMapper_spec fs m0 idx (hk m0 (by simp)) p id
    have hne : ¬ p = m0.pfx := fun e => hp (by simp [e])
    simp only [List.foldl_cons]
    rw [ih (loadMapper fs idx m0)
      (fun m hm => by rw [h0.2]; exact hk m (by simp [hm]))
      (fun hmem => hp (by simp only [List.map_cons, List.mem_cons]; exact Or.inr hmem))]
    rw [h0.1, if_neg hne]

theorem loadMapper_foldl_resolve (fs : FileSystem) (ms : List Mapper) (idx : SfToHsIdMap)
    (hk : ∀ m ∈ ms, (idx.get m.pfx).isSome = true) (hnd : (ms.map Mapper.pfx).Nodup)
    (mapper : Mapper) (hm : mapper ∈ ms) (id : String) :
    resolve (ms.foldl (loadMapper fs) idx) mapper.pfx id =
      match lastWrite (insertedUnder fs mapper) id with
      | some w => some w
      | none => resolve idx mapper.pfx id := by
  induction ms generalizing idx with
  | nil => simp at hm
  | cons m0 rest ih =>
    simp only [List.map_cons, List.nodup_cons] at hnd
    have h0 := fun p => loadMapper_spec fs m0 idx (hk m0 (by simp)) p id
    have hk1 : ∀ m ∈ rest, ((loadMapper fs idx m0).get m.pfx).isSome = true :=
      fun m hmr => by rw [(h0 m.pfx).2]; exact hk m (by simp [hmr])
    simp only [List.foldl_cons]
    rcases List.mem_cons.mp hm with heq | hrest
    · subst heq
      rw [loadMapper_foldl_other fs rest _ hk1 mapper.pfx id hnd.1, (h0 mapper.pfx).1, if_pos rfl]
    · rw [ih (loadMapper fs idx m0) hk1 hnd.2 hrest, (h0 mapper.pfx).1]
      have hne : ¬ mapper.pfx = m0.pfx := fun e =>
        hnd.1 (by rw [← e]; exact List.mem_map_of_mem Mapper.pfx hrest)
      rw [if_neg hne]

theorem loadMappers_resolve_eq (fs : FileSystem) (mapper : Mapper)
    (hm : mapper ∈ mappersToLoad) (id : String) :
    resolve (loadMappers fs) mapper.pfx id = lastWrite (insertedUnder fs mapper) id := by
  have h := loadMapper_foldl_resolve fs mappersToLoad emptySfToHsIdMap (by decide) (by decide)
    mapper hm id
  have hempty : resolve emptySfToHsIdMap mapper.pfx id = none := by
    have : ∀ m ∈ mappersToLoad, emptySfToHsIdMap.get m.pfx = some [] := by decide
    unfold resolve
    rw [this mapper hm]
    rfl
  unfold loadMappers
  rw [h, hempty]
  cases lastWrite (insertedUnder fs mapper) id <;> rfl

/-! ## `loadMappers` on any disk -/

theorem readCsv_toDisk (fs : FileSystem) : Node.readCsv (FileSystem.toDisk fs) = fs := by
  funext path
  unfold Node.readCsv FileSystem.toDisk
  cases fs path <;> rfl

theorem foldlM_loadMapper_toDisk (fs : FileSystem) (mappers : List Mapper)
    (sfToHsIdMap : SfToHsIdMap) :
    mappers.foldlM (Node.loadMapper (FileSystem.toDisk fs)) sfToHsIdMap =
      .ok (mappers.foldl (loadMapper fs) sfToHsIdMap) := by
  induction mappers generalizing sfToHsIdMap with
  | nil => rfl
  | cons mapper rest ih =>
    rw [List.foldlM_cons, List.foldl_cons]
    have hstep : Node.loadMapper (FileSystem.toDisk fs) sfToHsIdMap mapper =
        .ok (loadMapper fs sfToHsIdMap mapper) := by
      unfold Node.loadMapper loadMapper FileSystem.toDisk
      cases fs (mapperPath mapper.name) <;> rfl
    rw [hstep]
    exact ih _

/-- On a disk where every file can be opened, `loadMappers()` returns the
index `loadMappers fs`. -/
theorem loadMappers_toDisk (fs : FileSystem) :
    Node.loadMappers (FileSystem.toDisk fs) = .ok (loadMappers fs) :=
  foldlM_loadMapper_toDisk fs mappersToLoad emptySfToHsIdMap

theorem foldlM_error_of_failing_element {σ α : Type} (f : σ → α → Except String σ)
    (xs : List α) (x : α) (hmem : x ∈ xs) (hfail : ∀ st, ∃ e, f st x = .error e) (st : σ) :
    ∃ e, xs.foldlM f st = .error e := by
  induction xs generalizing st with
  | nil => simp at hmem
  | cons y ys ih =>
    rw [List.foldlM_cons]
    cases hy : f st y with
    | error e => exact ⟨e, rfl⟩
    | ok st1 =>
      rcases List.mem_cons.mp hmem with heq | hys
      · subst heq
        obtain ⟨e, he⟩ := hfail st
        rw [hy] at he
        cases he
      · exact ih hys st1

/-- A mapping table that cannot be opened ends `loadMappers()`, and the
process with it, whatever the other tables hold. -/
theorem loadMappers_ends_on_streamError (disk : Disk) (mapper : Mapper)
    (hm : mapper ∈ mappersToLoad) (code : String)
    (hfail : disk (mapperPath mapper.name) = .streamError code) :
    ∃ e, Node.loadMappers disk = .error e :=
  foldlM_error_of_failing_element (Node.loadMapper disk) mappersToLoad mapper hm
    (fun st => ⟨unhandledError code, by simp [Node.loadMapper, hfail]⟩) emptySfToHsIdMap

theorem foldlM_loadMapper_readCsv_toDisk (fs : FileSystem) (mappers : List Mapper)
    (sfToHsIdMap : SfToHsIdMap) :
    mappers.foldlM (Node.loadMapper (CreateTaskEmails.readCsv (FileSystem.toDisk fs)))
        sfToHsIdMap =
      .ok (mappers.foldl (loadMapper fs) sfToHsIdMap) := by
  induction mappers generalizing sfToHsIdMap with
  | nil => rfl
  | cons mapper rest ih =>
    rw [List.foldlM_cons, List.foldl_cons]
    have hstep : Node.loadMapper (CreateTaskEmails.readCsv (FileSystem.toDisk fs)) sfToHsIdMap
        mapper = .ok (loadMapper fs sfToHsIdMap mapper) := by
      unfold Node.loadMapper loadMapper CreateTaskEmails.readCsv FileSystem.toDisk
      cases fs (mapperPath mapper.name) with
      | ok data => rfl
      | error code =>
        by_cases hc : code = "ENOENT"
        · simp [hc]
        · simp [hc]
    rw [hstep]
    exact ih _

/-- The same for `loadMappers()` of `create-task-emails.js`, whose `readCsv`
resolves with no row where the others reject. -/
theorem loadMappers_readCsv_toDisk (fs : FileSystem) :
    Node.loadMappers (CreateTaskEmails.readCsv (FileSystem.toDisk fs)) = .ok (loadMappers fs) :=
  foldlM_loadMapper_readCsv_toDisk fs mappersToLoad emptySfToHsIdMap
theorem lastWrite_split (before after : List (String × String)) (id v : String)
    (h : id ∉ after.map Prod.fst) : lastWrite (before ++ (id, v) :: after) id = some v := by
  induction before with
  | nil =>
    have := (lastWrite_eq_none_iff after id).mpr h
    simp [lastWrite, this]
  | cons kv rest ih =>
    obtain ⟨k, w⟩ := kv
    simp [lastWrite, ih]

theorem resolve_emptySfToHsIdMap (p id : String) : resolve emptySfToHsIdMap p id = none := by
  unfold resolve emptySfToHsIdMap
  simp only [JsMap.get]
  repeat (split; rfl)
  rfl

/-- C7: in the index built by `loadMappers`, for every descriptor of
`mappersToLoad` (prefix P) and every id: when the rows of the table inserted
`(id, hsId)` and no later row inserted `id` again, the lookup of `id` in the
sub-map of P returns that `hsId` (last write wins on duplicates); when no row
inserted `id` under P, the lookup returns absent. -/
theorem loadMappers_lookup_last_write (fs : FileSystem) (mapper : Mapper)
    (hm : mapper ∈ mappersToLoad) (id : String) :
    (∀ before hsId after, insertedUnder fs mapper = before ++ (id, hsId) :: after →
        id ∉ after.map Prod.fst → resolve (loadMappers fs) mapper.pfx id = some hsId) ∧
    (id ∉ (insertedUnder fs mapper).map Prod.fst →
        resolve (loadMappers fs) mapper.pfx id = none) := by
  rw [loadMappers_resolve_eq fs mapper hm id]
  refine ⟨?_, fun h => (lastWrite_eq_none_iff _ id).mpr h⟩
  intro before hsId after heq hlast
  rw [heq]
  exact lastWrite_split before after id hsId hlast

/-- Under a prefix that no descriptor feeds (such as `500`) every lookup
returns absent. -/
theorem loadMappers_unfed_prefix_empty (fs : FileSystem) (p id : String)
    (hp : p ∉ mappersToLoad.map Mapper.pfx) : resolve (loadMappers fs) p id = none := by
  unfold loadMappers
  rw [loadMapper_foldl_other fs mappersToLoad emptySfToHsIdMap (by decide) p id hp]
  exact resolve_emptySfToHsIdMap p id

/-- Witness for C7: two rows of the company table map `001A`; the lookup
returns the destination id of the later one. -/
theorem loadMappers_lookup_last_write_witness :
    ({ name := "company-mapper.csv", pfx := "001", sfIdColumns := ["SF ID"] } : Mapper) ∈
      mappersToLoad ∧
    insertedUnder exampleDuplicateKey
        { name := "company-mapper.csv", pfx := "001", sfIdColumns := ["SF ID"] } =
      [("001A", "1"), ("001B", "7")] ++ ("001A", "2") :: [] ∧
    resolve (loadMappers exampleDuplicateKey) "001" "001A" = some "2" :=
  ⟨by decide, by decide,
    (loadMappers_lookup_last_write exampleDuplicateKey
      { name := "company-mapper.csv", pfx := "001", sfIdColumns := ["SF ID"] } (by decide)
      "001A").1 [("001A", "1"), ("001B", "7")] "2" [] (by decide) (by decide)⟩

/-- A table whose read is rejected leaves the sub-map of its descriptor
empty. -/
theorem loadMappers_rejected_table_empty (fs : FileSystem) (mapper : Mapper)
    (hm : mapper ∈ mappersToLoad) (e : String)
    (hfail : fs (mapperPath mapper.name) = .error e) (id : String) :
    resolve (loadMappers fs) mapper.pfx id = none := by
  rw [loadMappers_resolve_eq fs mapper hm id]
  simp [insertedUnder, hfail, lastWrite]

/-- The sub-map of a descriptor depends on the content of its own table only:
two runs that read the same rows from it give the same lookups, whatever
happens to the other tables. -/
theorem loadMappers_depends_on_own_table (fs fs2 : FileSystem) (mapper : Mapper)
    (hm : mapper ∈ mappersToLoad)
    (hsame : fs (mapperPath mapper.name) = fs2 (mapperPath mapper.name)) (id : String) :
    resolve (loadMappers fs) mapper.pfx id = resolve (loadMappers fs2) mapper.pfx id := by
  rw [loadMappers_resolve_eq fs mapper hm id, loadMappers_resolve_eq fs2 mapper hm id]
  simp [insertedUnder, hsame]

/-! ## Association logic -/

/-- C8 (counterexample): the company table maps the source id `XYZ9`; a record
with `AccountId = "XYZ9"` gets a company association although the first three
characters of the field, `XYZ`, are not `001`. -/
theorem accountAssociation_foreign_key :
    accountAssociation (loadMappers exampleForeignAccountKey) exampleForeignAccountRecord =
      [{ type := "companies", hsId := "55" }] ∧
    idPre (exampleForeignAccountRecord.get "AccountId") = "XYZ" ∧
    idPre (exampleForeignAccountRecord.get "AccountId") ≠ "001" := by
  decide

/-- C8 (amended): for every record and every index, `WhoId` contributes an
association only if its first three characters are `003` or `00Q`, and
`WhatId` only if its first three characters are `006`; `AccountId` contributes
one only if it is non-empty and is a key of the sub-map `001` (its own first
characters are not examined). -/
theorem association_requires (sfToHsIdMap : SfToHsIdMap) (record : JsObject) :
    (whoAssociation sfToHsIdMap record ≠ [] →
      idPre (record.get "WhoId") = "003" ∨ idPre (record.get "WhoId") = "00Q") ∧
    (whatAssociation sfToHsIdMap record ≠ [] → idPre (record.get "WhatId") = "006") ∧
    (accountAssociation sfToHsIdMap record ≠ [] →
      truthy (record.get "AccountId") = true ∧
      (resolve sfToHsIdMap "001" ((record.get "AccountId").getD "")).isSome = true) := by
  refine ⟨?_, ?_, ?_⟩
  · intro h
    by_contra hn
    exact h (by simp [whoAssociation, hn])
  · intro h
    by_contra hn
    exact h (by simp [whatAssociation, hn])
  · intro h
    by_contra hn
    apply h
    unfold accountAssociation
    by_cases ht : truthy (record.get "AccountId") = true
    · simp only [ht, if_true]
      cases hr : resolve sfToHsIdMap "001" ((record.get "AccountId").getD "") with
      | none => rfl
      | some v => exact absurd ⟨ht, by simp [hr]⟩ hn
    · simp [ht]

/-- Witness for C8 (amended): a record in which the three fields contribute. -/
theorem association_requires_witness :
    whoAssociation (loadMappers exampleForeignAccountKey) exampleForeignAccountRecord ≠ [] ∧
    whatAssociation (loadMappers exampleForeignAccountKey) exampleForeignAccountRecord ≠ [] ∧
    accountAssociation (loadMappers exampleForeignAccountKey) exampleForeignAccountRecord ≠ [] ∧
    idPre (exampleForeignAccountRecord.get "WhatId") = "006" :=
  ⟨by decide, by decide, by decide,
    (association_requires (loadMappers exampleForeignAccountKey)
      exampleForeignAccountRecord).2.1 (by decide)⟩

/-! ## `loadMappers` of `create-import-manifest.js` -/

/-- In `create-import-manifest.js` a failed read of any of the three tables
ends `loadMappers` with an error. -/
theorem manifest_loadMappers_error (fs : FileSystem) (name e : String)
    (hname : name ∈ ["company-mapper.csv", "contact-mapper.csv", "deal-mapper.csv"])
    (hfail : fs (mapperPath name) = .error e) :
    ∃ e2, CreateImportManifest.loadMappers fs = .error e2 := by
  unfold CreateImportManifest.loadMappers
  simp only [List.mem_cons, List.mem_singleton, List.not_mem_nil, or_false] at hname
  cases h1 : fs (mapperPath "company-mapper.csv") with
  | error e1 => exact ⟨e1, rfl⟩
  | ok d1 =>
    cases h2 : fs (mapperPath "contact-mapper.csv") with
    | error e1 => exact ⟨e1, rfl⟩
    | ok d2 =>
      cases h3 : fs (mapperPath "deal-mapper.csv") with
      | error e1 => exact ⟨e1, rfl⟩
      | ok d3 =>
        rcases hname with h | h | h <;> subst h <;> simp_all

/-- C9 (failing input): `contact-mapper.csv` does not exist, the company and
deal tables can be read.  The read stream of the missing file emits an
`'error'` event no listener receives, `readCsv` listening on the parser only:
the `catch` block of `loadMappers()` does not run and the load ends with the
uncaught exception, in `create-activities.js`, `create-classic-notes.js` and
`map-snotes.js`, in `create-task-emails.js`, whose `ENOENT` branch sits in
the same listener, and in `create-import-manifest.js`; the claim asks for an
index with empty contact and lead sub-maps.  When the table can be opened and
the parser fails on it, the first four return that index and
`create-import-manifest.js` is rejected. -/
theorem loadMappers_ends_on_missing_table :
    Node.loadMappers exampleContactMissing = .error "Unhandled 'error' event: ENOENT" ∧
    Node.loadMappers (CreateTaskEmails.readCsv exampleContactMissing) =
      .error "Unhandled 'error' event: ENOENT" ∧
    CreateImportManifest.loadMappers (Node.readCsv exampleContactMissing) =
      .error "Unhandled 'error' event: ENOENT" ∧
    Node.loadMappers exampleContactRejected =
      .ok [("001", [("001A", "202")]), ("003", []), ("00Q", []), ("006", [("006D", "303")]),
           ("500", [])] ∧
    Node.loadMappers (CreateTaskEmails.readCsv exampleContactRejected) =
      .ok [("001", [("001A", "202")]), ("003", []), ("00Q", []), ("006", [("006D", "303")]),
           ("500", [])] ∧
    CreateImportManifest.loadMappers (Node.readCsv exampleContactRejected) =
      .error "ERR_PARSE" := by
  refine ⟨rfl, rfl, rfl, rfl, rfl, rfl⟩

/-! ## `main` of `create-activities.js` -/

namespace CreateActivities

/-- A meeting that has an association and whose date
`event.ActivityDateTime || event.CreatedDate` is invalid makes the iteration
throw, whatever the state of the loop. -/
theorem processEvent_meeting_invalid_date (pl : Platform) (sfToHsIdMap : SfToHsIdMap)
    (st : LoopState) (event : JsObject)
    (htype : lookupType (event.get "Type") = .own "meetings")
    (hassoc : associations sfToHsIdMap event ≠ [])
    (hdate : newDate pl
      (if truthy (event.get "ActivityDateTime") then event.get "ActivityDateTime"
       else event.get "CreatedDate") = none) :
    processEvent pl sfToHsIdMap st event = .error "RangeError: Invalid time value" := by
  have hlen : ¬ (associations sfToHsIdMap event).length = 0 := by
    simpa [List.length_eq_zero] using hassoc
  simp [processEvent, htype, hlen, buildRowData, hdate, CreateActivities.toISOString]

/-- Whatever the other events are, one meeting that has an association and an
invalid date makes `main` fail, so that no file is written. -/
theorem main_rejects_on_invalid_meeting_date (pl : Platform) (disk : Disk)
    (sfToHsIdMap : SfToHsIdMap) (hload : Node.loadMappers disk = .ok sfToHsIdMap)
    (events : List JsObject) (hread : disk "../CSV/Event.csv" = .rows events)
    (event : JsObject) (hmem : event ∈ events)
    (htype : lookupType (event.get "Type") = .own "meetings")
    (hassoc : associations sfToHsIdMap event ≠ [])
    (hdate : newDate pl
      (if truthy (event.get "ActivityDateTime") then event.get "ActivityDateTime"
       else event.get "CreatedDate") = none) :
    ∃ e, main pl disk = .error e := by
  obtain ⟨e, he⟩ := foldlM_error_of_failing_element (processEvent pl sfToHsIdMap) events event
    hmem
    (fun st => ⟨_, processEvent_meeting_invalid_date pl sfToHsIdMap st event htype hassoc
      hdate⟩) { heap := [], outputData := initialOutputData }
  exact ⟨e, by simp [main, hload, Node.readCsv, hread, he]⟩

/-- C2 (failing input): the three mapping tables and `Event.csv` exist (the
deal table holds no row); one call is linked to the contact `003C`
(destination id 101) and to the company `001A` (destination id 202).  Two
rows are written, one per file, but the row in the contacts file carries the
company's id 202 in its `Record ID` column instead of the contact's 101. -/
theorem fanOut_rows_share_last_record_id :
    Node.loadMappers (FileSystem.toDisk exampleFanOut) =
      .ok [("001", [("001A", "202")]), ("003", [("003C", "101")]), ("00Q", []), ("006", []),
           ("500", [])] ∧
    associations (loadMappers exampleFanOut)
        [("Type", "Call"), ("WhoId", "003C"), ("AccountId", "001A"), ("Description", "notes"),
          ("ActivityDateTime", "2024-01-01T00:00:00.000Z"), ("Subject", "Intro")] =
      [{ type := "contacts", hsId := "101" }, { type := "companies", hsId := "202" }] ∧
    main examplePlatform (FileSystem.toDisk exampleFanOut) = .ok
      [("hubspot_import_calls_for_contacts.csv",
        "Record ID,Call notes,Activity date,Call direction,Call title\n" ++
        "202,notes,2024-01-01T00:00:00.000Z,Outbound,Intro"),
       ("hubspot_import_calls_for_companies.csv",
        "Record ID,Call notes,Activity date,Call direction,Call title\n" ++
        "202,notes,2024-01-01T00:00:00.000Z,Outbound,Intro")] := by
  refine ⟨rfl, ?_, rfl⟩
  decide

/-- C10 (failing input): the three mapping tables and `Event.csv` exist; a
call is followed by a meeting whose `ActivityDateTime` and `CreatedDate` are
both empty.  `main` fails with the `RangeError` of `toISOString` and writes
nothing, although the call alone yields one file with one row. -/
theorem main_aborts_on_empty_meeting_dates :
    Node.loadMappers (FileSystem.toDisk exampleEmptyDates) =
      .ok [("001", [("001A", "202")]), ("003", [("003C", "101")]), ("00Q", []), ("006", []),
           ("500", [])] ∧
    main examplePlatform (FileSystem.toDisk exampleEmptyDates) =
      .error "RangeError: Invalid time value" ∧
    main examplePlatform (FileSystem.toDisk exampleCallOnly) = .ok
      [("hubspot_import_calls_for_contacts.csv",
        "Record ID,Call notes,Activity date,Call direction,Call title\n" ++
        "101,notes,2024-01-01T00:00:00.000Z,Outbound,Intro")] := by
  refine ⟨rfl, rfl, rfl⟩

/-- An event whose `Type` is the name of a member of `Object.prototype` and
that has an association makes `main` fail as well. -/
theorem main_aborts_on_inherited_type :
    main examplePlatform (FileSystem.toDisk exampleInheritedType) =
      .error "TypeError: Cannot read properties of undefined" := by
  rfl

end CreateActivities
/-! ## The shape of `associations` -/

theorem whoAssociation_cases (sfToHsIdMap : SfToHsIdMap) (record : JsObject) :
    whoAssociation sfToHsIdMap record = [] ∨
      ∃ hsId, whoAssociation sfToHsIdMap record = [{ type := "contacts", hsId := hsId }] := by
  unfold whoAssociation
  simp only
  split
  · split
    · exact Or.inr ⟨_, rfl⟩
    · exact Or.inl rfl
  · exact Or.inl rfl

theorem accountAssociation_cases (sfToHsIdMap : SfToHsIdMap) (record : JsObject) :
    accountAssociation sfToHsIdMap record = [] ∨
      ∃ hsId, accountAssociation sfToHsIdMap record = [{ type := "companies", hsId := hsId }] := by
  unfold accountAssociation
  simp only
  split
  · split
    · exact Or.inr ⟨_, rfl⟩
    · exact Or.inl rfl
  · exact Or.inl rfl

theorem whatAssociation_cases (sfToHsIdMap : SfToHsIdMap) (record : JsObject) :
    whatAssociation sfToHsIdMap record = [] ∨
      ∃ hsId, whatAssociation sfToHsIdMap record = [{ type := "deals", hsId := hsId }] := by
  unfold whatAssociation
  simp only
  split
  · split
    · exact Or.inr ⟨_, rfl⟩
    · exact Or.inl rfl
  · exact Or.inl rfl

theorem associations_types_sublist (sfToHsIdMap : SfToHsIdMap) (record : JsObject) :
    List.Sublist ((associations sfToHsIdMap record).map Association.type)
      ["contacts", "companies", "deals"] := by
  unfold associations
  rcases whoAssociation_cases sfToHsIdMap record with h1 | ⟨a, h1⟩ <;>
  rcases accountAssociation_cases sfToHsIdMap record with h2 | ⟨b, h2⟩ <;>
  rcases whatAssociation_cases sfToHsIdMap record with h3 | ⟨c, h3⟩ <;>
  rw [h1, h2, h3] <;>
  simp only [List.nil_append, List.append_nil, List.cons_append, List.map_cons,
    List.map_nil] <;>
  decide

theorem associations_types_nodup (sfToHsIdMap : SfToHsIdMap) (record : JsObject) :
    ((associations sfToHsIdMap record).map Association.type).Nodup :=
  (associations_types_sublist sfToHsIdMap record).nodup (by decide)

theorem associations_type_mem (sfToHsIdMap : SfToHsIdMap) (record : JsObject)
    (a : Association) (ha : a ∈ associations sfToHsIdMap record) :
    a.type ∈ ["contacts", "companies", "deals"] :=
  (associations_types_sublist sfToHsIdMap record).subset (List.mem_map_of_mem _ ha)

/-- C16: for every record and index, `associations` is the who-association
(type `contacts`), then the account-association (type `companies`), then the
what-association (type `deals`), each present at most once: its types form a
subsequence of `[contacts, companies, deals]`, and it has at most three
elements. -/
theorem associations_ordered_at_most_three (sfToHsIdMap : SfToHsIdMap) (record : JsObject) :
    associations sfToHsIdMap record =
      whoAssociation sfToHsIdMap record ++ accountAssociation sfToHsIdMap record ++
        whatAssociation sfToHsIdMap record ∧
    (whoAssociation sfToHsIdMap record).length ≤ 1 ∧
    (accountAssociation sfToHsIdMap record).length ≤ 1 ∧
    (whatAssociation sfToHsIdMap record).length ≤ 1 ∧
    (∀ a ∈ whoAssociation sfToHsIdMap record, a.type = "contacts") ∧
    (∀ a ∈ accountAssociation sfToHsIdMap record, a.type = "companies") ∧
    (∀ a ∈ whatAssociation sfToHsIdMap record, a.type = "deals") ∧
    List.Sublist ((associations sfToHsIdMap record).map Association.type)
      ["contacts", "companies", "deals"] ∧
    (associations sfToHsIdMap record).length ≤ 3 := by
  refine ⟨rfl, ?_, ?_, ?_, ?_, ?_, ?_, associations_types_sublist sfToHsIdMap record, ?_⟩
  · rcases whoAssociation_cases sfToHsIdMap record with h | ⟨a, h⟩ <;> simp [h]
  · rcases accountAssociation_cases sfToHsIdMap record with h | ⟨a, h⟩ <;> simp [h]
  · rcases whatAssociation_cases sfToHsIdMap record with h | ⟨a, h⟩ <;> simp [h]
  · rcases whoAssociation_cases sfToHsIdMap record with h | ⟨a, h⟩ <;> simp [h]
  · rcases accountAssociation_cases sfToHsIdMap record with h | ⟨a, h⟩ <;> simp [h]
  · rcases whatAssociation_cases sfToHsIdMap record with h | ⟨a, h⟩ <;> simp [h]
  · have := (associations_types_sublist sfToHsIdMap record).length_le
    simpa using this

/-! ## `formatCsvField` -/

theorem doubleQuotes_eq_flatMap (cs : List Char) :
    doubleQuotes cs = cs.flatMap (fun c => if c = '"' then ['"', '"'] else [c]) := by
  induction cs with
  | nil => rfl
  | cons c cs ih =>
    by_cases h : c = '"' <;> simp [doubleQuotes, h, ih, List.flatMap_cons]

/-- C12: `formatCsvField` returns a string that contains none of comma, double
quote, `\n`, `\r` unchanged; any other string it returns as a double quote,
then the string with every double quote replaced by two double quotes, then a
double quote; for `null` or `undefined` it returns the empty string. -/
theorem formatCsvField_spec (s : String) :
    ((∀ c ∈ s.data, c ≠ ',' ∧ c ≠ '"' ∧ c ≠ '\n' ∧ c ≠ '\r') → formatCsvField (some s) = s) ∧
    ((∃ c ∈ s.data, c = ',' ∨ c = '"' ∨ c = '\n' ∨ c = '\r') →
      formatCsvField (some s) = "\"" ++ everyQuoteDoubled s ++ "\"") ∧
    formatCsvField none = "" := by
  refine ⟨?_, ?_, by decide⟩
  · intro h
    have := (needsQuoting_false_iff s).mpr h
    simp [formatCsvField, this]
  · rintro ⟨c, hc, hspecial⟩
    have hq : needsQuoting s = true := by
      by_contra hn
      have hf : needsQuoting s = false := by simpa using hn
      obtain ⟨h1, h2, h3, h4⟩ := (needsQuoting_false_iff s).mp hf c hc
      rcases hspecial with h | h | h | h
      · exact h1 h
      · exact h2 h
      · exact h3 h
      · exact h4 h
    simp [formatCsvField, hq, everyQuoteDoubled, doubleQuotes_eq_flatMap]

/-- Witness for C12: a plain string, and a string with a comma and quotes. -/
theorem formatCsvField_spec_witness :
    (∀ c ∈ "plain".data, c ≠ ',' ∧ c ≠ '"' ∧ c ≠ '\n' ∧ c ≠ '\r') ∧
    formatCsvField (some "plain") = "plain" ∧
    (∃ c ∈ "a,\"b\"".data, c = ',' ∨ c = '"' ∨ c = '\n' ∨ c = '\r') ∧
    formatCsvField (some "a,\"b\"") = "\"" ++ everyQuoteDoubled "a,\"b\"" ++ "\"" ∧
    "\"" ++ everyQuoteDoubled "a,\"b\"" ++ "\"" = "\"a,\"\"b\"\"\"" :=
  ⟨by decide, (formatCsvField_spec "plain").1 (by decide), by decide,
   (formatCsvField_spec "a,\"b\"").2.1 (by decide), by decide⟩

/-! ## The source identifier of a mapping row -/

theorem findSfId_first_truthy (row : JsObject) (pre : List String) (col : String)
    (post : List String) (hpre : ∀ c ∈ pre, truthy (row.get c) = false)
    (hcol : truthy (row.get col) = true) :
    findSfId row (pre ++ col :: post) = row.get col := by
  induction pre with
  | nil => simp [findSfId, hcol]
  | cons c cs ih =>
    have hc : truthy (row.get c) = false := hpre c (by simp)
    simp only [List.cons_append, findSfId, hc, Bool.false_eq_true, if_false]
    exact ih (fun d hd => hpre d (by simp [hd]))

theorem findSfId_none_of_all_empty (row : JsObject) (cols : List String)
    (h : ∀ c ∈ cols, truthy (row.get c) = false) : findSfId row cols = none := by
  induction cols with
  | nil => rfl
  | cons c cs ih =>
    simp only [findSfId, h c (by simp), Bool.false_eq_true, if_false]
    exact ih (fun d hd => h d (by simp [hd]))

theorem findSfId_truthy (row : JsObject) (cols : List String) (s : String)
    (h : findSfId row cols = some s) : truthy (some s) = true := by
  induction cols with
  | nil => simp [findSfId] at h
  | cons c cs ih =>
    simp only [findSfId] at h
    by_cases hc : truthy (row.get c) = true
    · simp only [hc, if_true] at h
      rw [← h]; exact hc
    · simp only [hc, if_false] at h
      exact ih h

/-- C13: in `loadMappers`, for every mapping row and every descriptor, the
source identifier taken from the row is the value of the first candidate
column (in list order) whose value is non-empty; what the row inserts is that
identifier with the row's `Record ID` as value (and it does insert it when the
`Record ID` is non-empty); a row in which every candidate column is empty
inserts nothing and leaves the index as it was. -/
theorem rowInsertion_first_candidate (mapper : Mapper) (row : JsObject) :
    (∀ pre col post, mapper.sfIdColumns = pre ++ col :: post →
      (∀ c ∈ pre, truthy (row.get c) = false) → truthy (row.get col) = true →
      findSfId row mapper.sfIdColumns = row.get col) ∧
    (∀ sfId hsId, rowInsertion mapper row = some (sfId, hsId) →
      findSfId row mapper.sfIdColumns = some sfId ∧ row.get "Record ID" = some hsId) ∧
    (∀ sfId hsId, findSfId row mapper.sfIdColumns = some sfId →
      row.get "Record ID" = some hsId → hsId ≠ "" →
      rowInsertion mapper row = some (sfId, hsId)) ∧
    ((∀ c ∈ mapper.sfIdColumns, truthy (row.get c) = false) →
      rowInsertion mapper row = none ∧ ∀ sfToHsIdMap, loadRow mapper sfToHsIdMap row = sfToHsIdMap) := by
  refine ⟨?_, ?_, ?_, ?_⟩
  · intro pre col post hcols hpre hcol
    rw [hcols]
    exact findSfId_first_truthy row pre col post hpre hcol
  · intro sfId hsId h
    unfold rowInsertion at h
    simp only at h
    cases h1 : row.get "Record ID" with
    | none => simp [h1] at h
    | some hval =>
      cases h2 : findSfId row mapper.sfIdColumns with
      | none => simp [h1, h2] at h
      | some sval =>
        simp only [h1, h2] at h
        split at h
        · simp only [Option.some.injEq, Prod.mk.injEq] at h
          exact ⟨by rw [h.1], by rw [h.2]⟩
        · cases h
  · intro sfId hsId h1 h2 h3
    have hs := findSfId_truthy row mapper.sfIdColumns sfId h1
    have hh : truthy (some hsId) = true := by simp [truthy, h3]
    simp [rowInsertion, h1, h2, hs, hh]
  · intro h
    have hnone := findSfId_none_of_all_empty row mapper.sfIdColumns h
    have hins : rowInsertion mapper row = none := by
      unfold rowInsertion
      simp only [hnone]
      cases row.get "Record ID" <;> rfl
    exact ⟨hins, fun idx => by simp [loadRow, hins]⟩

/-- Witness for C13: under the contact descriptor, a row whose `SF ID` is
empty and whose `SF Contact ID` is `003X` inserts `003X` with its
`Record ID`. -/
theorem rowInsertion_first_candidate_witness :
    ({ name := "contact-mapper.csv", pfx := "003", sfIdColumns := ["SF ID", "SF Contact ID"] } :
      Mapper).sfIdColumns = ["SF ID"] ++ "SF Contact ID" :: [] ∧
    (∀ c ∈ ["SF ID"], truthy (JsMap.get
      [("SF ID", ""), ("SF Contact ID", "003X"), ("Record ID", "9")] c) = false) ∧
    truthy (JsMap.get [("SF ID", ""), ("SF Contact ID", "003X"), ("Record ID", "9")]
      "SF Contact ID") = true ∧
    findSfId [("SF ID", ""), ("SF Contact ID", "003X"), ("Record ID", "9")]
      ["SF ID", "SF Contact ID"] = some "003X" ∧
    rowInsertion
      { name := "contact-mapper.csv", pfx := "003", sfIdColumns := ["SF ID", "SF Contact ID"] }
      [("SF ID", ""), ("SF Contact ID", "003X"), ("Record ID", "9")] = some ("003X", "9") :=
  ⟨rfl, by decide, by decide,
   (rowInsertion_first_candidate
      { name := "contact-mapper.csv", pfx := "003", sfIdColumns := ["SF ID", "SF Contact ID"] }
      [("SF ID", ""), ("SF Contact ID", "003X"), ("Record ID", "9")]).1
      ["SF ID"] "SF Contact ID" [] rfl (by decide) (by decide),
   by decide⟩

/-! ## The example scenario, and records without association -/

theorem idPre_of_not_truthy (v : Option String) (h : truthy v = false) : idPre v = "" := by
  cases v with
  | none => rfl
  | some s => simp [idPre, h]

/-- C14: when the company table holds the single row
`{SF ID: "001xx1", Record ID: "111"}`, a source record with
`AccountId = "001xx1"` and empty `WhoId` and `WhatId` resolves to exactly one
association, `{type: 'companies', hsId: "111"}`, whatever the other tables
hold. -/
theorem scenario_account_resolves (fs : FileSystem) (record : JsObject)
    (hcompany : fs (mapperPath "company-mapper.csv") =
      .ok [[("SF ID", "001xx1"), ("Record ID", "111")]])
    (haccount : record.get "AccountId" = some "001xx1")
    (hwho : truthy (record.get "WhoId") = false)
    (hwhat : truthy (record.get "WhatId") = false) :
    associations (loadMappers fs) record = [{ type := "companies", hsId := "111" }] := by
  have hres : resolve (loadMappers fs) "001" "001xx1" = some "111" := by
    have := loadMappers_resolve_eq fs
      { name := "company-mapper.csv", pfx := "001", sfIdColumns := ["SF ID"] } (by decide)
      "001xx1"
    simp only [insertedUnder, hcompany] at this
    rw [this]
    decide
  have h1 : whoAssociation (loadMappers fs) record = [] := by
    have hne : ¬ (("" : String) = "003" ∨ ("" : String) = "00Q") := by decide
    simp only [whoAssociation, idPre_of_not_truthy _ hwho, hne, if_false]
  have h3 : whatAssociation (loadMappers fs) record = [] := by
    have hne : ¬ (("" : String) = "006") := by decide
    simp only [whatAssociation, idPre_of_not_truthy _ hwhat, hne, if_false]
  have h2 : accountAssociation (loadMappers fs) record =
      [{ type := "companies", hsId := "111" }] := by
    have ht : truthy (some "001xx1") = true := by decide
    simp only [accountAssociation, haccount, ht, if_true, Option.getD_some, hres]
  simp [associations, h1, h2, h3]

/-- Witness for C14. -/
theorem scenario_account_resolves_witness :
    exampleScenarioMappers (mapperPath "company-mapper.csv") =
      .ok [[("SF ID", "001xx1"), ("Record ID", "111")]] ∧
    exampleScenarioRecord.get "AccountId" = some "001xx1" ∧
    truthy (exampleScenarioRecord.get "WhoId") = false ∧
    truthy (exampleScenarioRecord.get "WhatId") = false ∧
    associations (loadMappers exampleScenarioMappers) exampleScenarioRecord =
      [{ type := "companies", hsId := "111" }] :=
  ⟨rfl, by decide, by decide, by decide,
   scenario_account_resolves exampleScenarioMappers exampleScenarioRecord rfl (by decide)
     (by decide) (by decide)⟩

/-- A field that is empty, or whose first characters are not accepted, or
that is not a key of the index, contributes no association (for `AccountId`:
empty, or not a key of the sub-map `001`). -/
theorem associations_eq_nil_of_fields (sfToHsIdMap : SfToHsIdMap) (record : JsObject)
    (hwho : truthy (record.get "WhoId") = false ∨
      (idPre (record.get "WhoId") ≠ "003" ∧ idPre (record.get "WhoId") ≠ "00Q") ∨
      resolve sfToHsIdMap (idPre (record.get "WhoId")) ((record.get "WhoId").getD "") = none)
    (haccount : truthy (record.get "AccountId") = false ∨
      resolve sfToHsIdMap "001" ((record.get "AccountId").getD "") = none)
    (hwhat : truthy (record.get "WhatId") = false ∨ idPre (record.get "WhatId") ≠ "006" ∨
      resolve sfToHsIdMap "006" ((record.get "WhatId").getD "") = none) :
    associations sfToHsIdMap record = [] := by
  have h1 : whoAssociation sfToHsIdMap record = [] := by
    unfold whoAssociation
    simp only
    split
    · rcases hwho with h | h | h
      · rename_i hp
        rw [idPre_of_not_truthy _ h] at hp
        exact absurd hp (by decide)
      · rename_i hp
        exact absurd hp (by simp [h.1, h.2])
      · rw [h]
    · rfl
  have h2 : accountAssociation sfToHsIdMap record = [] := by
    unfold accountAssociation
    simp only
    split
    · rcases haccount with h | h
      · rename_i hp
        rw [h] at hp; cases hp
      · rw [h]
    · rfl
  have h3 : whatAssociation sfToHsIdMap record = [] := by
    unfold whatAssociation
    simp only
    split
    · rcases hwhat with h | h | h
      · rename_i hp
        rw [idPre_of_not_truthy _ h] at hp
        exact absurd hp (by decide)
      · rename_i hp
        exact absurd hp h
      · rw [h]
    · rfl
  simp [associations, h1, h2, h3]

/-- C15: in `create-activities.js` and in `create-task-emails.js`, a record
for which none of `WhoId`, `AccountId`, `WhatId` resolves (the array
`associations` is empty) produces no output row in any partition and raises
no error: the iteration ends with the state it started from. -/
theorem unresolved_record_writes_nothing (sfToHsIdMap : SfToHsIdMap) (record : JsObject)
    (hnone : associations sfToHsIdMap record = [])
    (pl : CreateActivities.Platform) (st : CreateActivities.LoopState)
    (cfg : CreateTaskEmails.Config) (emailBodyMap : JsMap String)
    (out : CreateTaskEmails.Outputs) :
    CreateActivities.processEvent pl sfToHsIdMap st record = .ok st ∧
    CreateTaskEmails.processTask cfg sfToHsIdMap emailBodyMap out record = out := by
  constructor
  · simp [CreateActivities.processEvent, hnone]
  · simp [CreateTaskEmails.processTask, hnone]

/-- Witness for C15: an unknown contact, an empty account and a `WhatId` that
is not a deal. -/
theorem unresolved_record_writes_nothing_witness :
    associations (loadMappers exampleScenarioMappers) exampleUnresolvedRecord = [] ∧
    CreateActivities.processEvent CreateActivities.examplePlatform
        (loadMappers exampleScenarioMappers)
        { heap := [], outputData := CreateActivities.initialOutputData }
        exampleUnresolvedRecord =
      .ok { heap := [], outputData := CreateActivities.initialOutputData } ∧
    CreateTaskEmails.processTask CreateTaskEmails.CONFIG (loadMappers exampleScenarioMappers) []
        CreateTaskEmails.initOutputs exampleUnresolvedRecord = CreateTaskEmails.initOutputs :=
  ⟨by decide,
   (unresolved_record_writes_nothing (loadMappers exampleScenarioMappers)
      exampleUnresolvedRecord (by decide) CreateActivities.examplePlatform
      { heap := [], outputData := CreateActivities.initialOutputData }
      CreateTaskEmails.CONFIG [] CreateTaskEmails.initOutputs).1,
   (unresolved_record_writes_nothing (loadMappers exampleScenarioMappers)
      exampleUnresolvedRecord (by decide) CreateActivities.examplePlatform
      { heap := [], outputData := CreateActivities.initialOutputData }
      CreateTaskEmails.CONFIG [] CreateTaskEmails.initOutputs).2⟩

/-! ## `main` of `create-task-emails.js`: fan-out and chunk numbering -/

theorem RowData.read_set (data : RowData) (key : String) (v : Option String) (header : String) :
    RowData.read (data.set key v) header = if key = header then v else data.read header := by
  unfold RowData.read
  rw [JsMap.get_set]
  by_cases h : key = header <;> simp [h]

theorem buildCsvRow_set_set (data : RowData) (key : String) (v w : Option String)
    (hs : List String) :
    buildCsvRow ((data.set key v).set key w) hs = buildCsvRow (data.set key w) hs := by
  have hread : ∀ h, RowData.read ((data.set key v).set key w) h =
      RowData.read (data.set key w) h := by
    intro h
    simp only [RowData.read_set]
    by_cases hk : key = h <;> simp [hk]
  simp only [buildCsvRow, hread]

namespace CreateTaskEmails

theorem allRows_writeRow (maxChunkBytes : Nat) (hdr : String) (p : Partition) (line : String)
    (hp : p.writer.writes ≠ []) :
    (writeRow maxChunkBytes hdr p line).allRows = p.allRows ++ [line ++ "\n"] ∧
    (writeRow maxChunkBytes hdr p line).writer.writes ≠ [] := by
  have := rows_foldl maxChunkBytes hdr [line] p hp
  simpa [Partition.allRows] using this

theorem rowsOf_set (out : Outputs) (key : String) (p : Partition) (t : String) :
    rowsOf (out.set key p) t = if key = t then p.allRows else rowsOf out t := by
  unfold rowsOf
  rw [JsMap.get_set]
  by_cases h : key = t <;> simp [h]

theorem outputsOk_set (out : Outputs) (key : String) (p : Partition) (hok : OutputsOk out)
    (hp : p.writer.writes ≠ []) : OutputsOk (out.set key p) := by
  refine ⟨fun t ht => ?_, fun t q hq => ?_⟩
  · rw [JsMap.get_set]
    by_cases h : key = t
    · simp [h]
    · simpa [h] using hok.1 t ht
  · rw [JsMap.get_set] at hq
    by_cases h : key = t
    · simp only [h, if_true, Option.some.injEq] at hq
      rw [← hq]; exact hp
    · simp only [h, if_false] at hq
      exact hok.2 t q hq

theorem outputsOk_initOutputs : OutputsOk initOutputs := by
  refine ⟨by decide, ?_⟩
  intro t p h
  simp only [initOutputs, assocTypes, List.map_cons, List.map_nil, JsMap.get] at h
  repeat (split at h; (· cases h; simp [initPartition]))
  cases h

theorem writeAssociations_rows (cfg : Config) (assocs : List Association) (out : Outputs)
    (rowData : RowData) (hok : OutputsOk out)
    (htypes : ∀ a ∈ assocs, a.type ∈ ["contacts", "companies", "deals"]) :
    OutputsOk (writeAssociations cfg out rowData assocs) ∧
    ∀ t, rowsOf (writeAssociations cfg out rowData assocs) t =
      rowsOf out t ++ (assocs.filter (fun a => a.type = t)).map
        (fun a => buildCsvRow (rowData.set "Record ID" (some a.hsId)) emailHeaders ++ "\n") := by
  induction assocs generalizing out rowData with
  | nil => simp [writeAssociations, hok]
  | cons a rest ih =>
    have hsome := hok.1 a.type (htypes a (by simp))
    cases hget : out.get a.type with
    | none => simp [hget] at hsome
    | some p =>
      have hp := hok.2 a.type p hget
      have hw := allRows_writeRow cfg.maxChunkBytes emailHeadersString p
        (buildCsvRow (rowData.set "Record ID" (some a.hsId)) emailHeaders) hp
      have hok1 := outputsOk_set out a.type _ hok hw.2
      obtain ⟨ih1, ih2⟩ := ih (out.set a.type (writeRow cfg.maxChunkBytes emailHeadersString p
        (buildCsvRow (rowData.set "Record ID" (some a.hsId)) emailHeaders)))
        (rowData.set "Record ID" (some a.hsId)) hok1 (fun b hb => htypes b (by simp [hb]))
      simp only [writeAssociations, hget]
      refine ⟨ih1, fun t => ?_⟩
      rw [ih2 t, rowsOf_set]
      simp only [buildCsvRow_set_set]
      by_cases ht : a.type = t
      · have hrows : p.allRows = rowsOf out t := by simp [rowsOf, ← ht, hget]
        simp [ht, hw.1, List.filter_cons, hrows]
      · simp [ht, List.filter_cons]

theorem outputsOk_processTask (cfg : Config) (sfToHsIdMap : SfToHsIdMap)
    (emailBodyMap : JsMap String) (out : Outputs) (task : JsObject) (hok : OutputsOk out) :
    OutputsOk (processTask cfg sfToHsIdMap emailBodyMap out task) := by
  unfold processTask
  split
  · exact hok
  · simp only
    split
    · exact hok
    · split
      · exact hok
      · exact (writeAssociations_rows cfg _ out _ hok
          (fun a ha => associations_type_mem sfToHsIdMap task a ha)).1

theorem outputsOk_foldl (cfg : Config) (sfToHsIdMap : SfToHsIdMap)
    (emailBodyMap : JsMap String) (tasks : List JsObject) (out : Outputs) (hok : OutputsOk out) :
    OutputsOk (tasks.foldl (processTask cfg sfToHsIdMap emailBodyMap) out) := by
  induction tasks generalizing out with
  | nil => exact hok
  | cons t ts ih => exact ih _ (outputsOk_processTask cfg sfToHsIdMap emailBodyMap out t hok)

theorem filter_type_eq_singleton (assocs : List Association)
    (hnd : (assocs.map Association.type).Nodup) (a : Association) (ha : a ∈ assocs) :
    assocs.filter (fun b => b.type = a.type) = [a] := by
  induction assocs with
  | nil => simp at ha
  | cons b rest ih =>
    simp only [List.map_cons, List.nodup_cons] at hnd
    rcases List.mem_cons.mp ha with heq | hrest
    · subst heq
      have : rest.filter (fun b => b.type = a.type) = [] := by
        rw [List.filter_eq_nil_iff]
        intro c hc hct
        exact hnd.1 (by
          have := List.mem_map_of_mem Association.type hc
          simpa [of_decide_eq_true hct] using this)
      simp [List.filter_cons, this]
    · have hne : ¬ b.type = a.type := fun e =>
        hnd.1 (by rw [e]; exact List.mem_map_of_mem Association.type hrest)
      simp [List.filter_cons, hne, ih hnd.2 hrest]

theorem filter_type_eq_nil (assocs : List Association) (t : String)
    (ht : t ∉ assocs.map Association.type) : assocs.filter (fun b => b.type = t) = [] := by
  rw [List.filter_eq_nil_iff]
  intro c hc hct
  exact ht (by
    have := List.mem_map_of_mem Association.type hc
    simpa [of_decide_eq_true hct] using this)

theorem sum_filter_types (assocs : List Association)
    (htypes : ∀ a ∈ assocs, a.type ∈ ["contacts", "companies", "deals"]) :
    (assocTypes.map (fun t => (assocs.filter (fun a => a.type = t)).length)).sum =
      assocs.length := by
  induction assocs with
  | nil => simp [assocTypes]
  | cons a rest ih =>
    have ih1 := ih (fun b hb => htypes b (by simp [hb]))
    have ha := htypes a (by simp)
    simp only [assocTypes, List.map_cons, List.map_nil, List.sum_cons, List.sum_nil,
      List.length_cons] at ih1 ⊢
    simp only [List.mem_cons, List.mem_singleton, List.not_mem_nil, or_false] at ha
    rcases ha with h | h | h <;> simp [List.filter_cons, h] <;> omega

/-- C11: in `main` of `create-task-emails.js`, an email task that resolves to
`k >= 1` associations and is not skipped for an empty body writes exactly one
row into the partition of each association and nothing into any other
partition; the associations have pairwise different types, so that the number
of rows over the four partitions grows by exactly `k`; the row written for an association reads back, field by field, as that
association's `hsId` in `Record ID` followed by the body, the activity date,
`UNKNOWN` and the subject, which are the same for the `k` rows. -/
theorem processTask_fanOut (cfg : Config) (sfToHsIdMap : SfToHsIdMap)
    (emailBodyMap : JsMap String) (out : Outputs) (task : JsObject) (hok : OutputsOk out)
    (hemail : isEmailTask task = true)
    (hassoc : associations sfToHsIdMap task ≠ [])
    (hbody : ¬ (cfg.skipEmptyBodies = true ∧ emailBodyOf emailBodyMap task = "")) :
    ((associations sfToHsIdMap task).map Association.type).Nodup ∧
    (∀ a ∈ associations sfToHsIdMap task,
      rowsOf (processTask cfg sfToHsIdMap emailBodyMap out task) a.type =
        rowsOf out a.type ++
          [buildCsvRow ((taskRowData emailBodyMap task).set "Record ID" (some a.hsId))
            emailHeaders ++ "\n"] ∧
      rfc4180ReadRecord
          (buildCsvRow ((taskRowData emailBodyMap task).set "Record ID" (some a.hsId))
            emailHeaders) =
        some [a.hsId, emailBodyOf emailBodyMap task,
          ((if truthy (task.get "ActivityDate") then task.get "ActivityDate"
            else task.get "CreatedDate")).getD "",
          "UNKNOWN", (task.get "Subject").getD ""]) ∧
    (∀ t, t ∉ (associations sfToHsIdMap task).map Association.type →
      rowsOf (processTask cfg sfToHsIdMap emailBodyMap out task) t = rowsOf out t) ∧
    (assocTypes.map (fun t =>
        (rowsOf (processTask cfg sfToHsIdMap emailBodyMap out task) t).length)).sum =
      (assocTypes.map (fun t => (rowsOf out t).length)).sum +
        (associations sfToHsIdMap task).length := by
  have hnd := associations_types_nodup sfToHsIdMap task
  have hlen : ¬ (associations sfToHsIdMap task).length = 0 := by
    simpa [List.length_eq_zero] using hassoc
  have hproc : processTask cfg sfToHsIdMap emailBodyMap out task =
      writeAssociations cfg out (taskRowData emailBodyMap task)
        (associations sfToHsIdMap task) := by
    unfold processTask
    simp only [hemail, not_true_eq_false, if_false, hlen, hbody]
  have hrows := (writeAssociations_rows cfg (associations sfToHsIdMap task) out
    (taskRowData emailBodyMap task) hok
    (fun a ha => associations_type_mem sfToHsIdMap task a ha)).2
  refine ⟨hnd, fun a ha => ⟨?_, ?_⟩, fun t ht => ?_, ?_⟩
  · rw [hproc, hrows a.type, filter_type_eq_singleton _ hnd a ha]
    rfl
  · rw [rfc4180_buildCsvRow _ _ (by decide)]
    simp only [emailHeaders, List.map_cons, List.map_nil, RowData.read_set]
    simp [taskRowData, RowData.read, JsMap.get]
  · rw [hproc, hrows t, filter_type_eq_nil _ t ht]
    simp
  · have hsum := sum_filter_types (associations sfToHsIdMap task)
      (fun a ha => associations_type_mem sfToHsIdMap task a ha)
    rw [hproc]
    simp only [hrows, List.length_append, List.length_map, assocTypes, List.map_cons,
      List.map_nil, List.sum_cons, List.sum_nil] at hsum ⊢
    omega

/-- Witness for C11: an email task linked to a contact and a company. -/
theorem processTask_fanOut_witness :
    OutputsOk initOutputs ∧ isEmailTask exampleEmailTask = true ∧
    associations (loadMappers exampleEmailFanOut) exampleEmailTask =
      [{ type := "contacts", hsId := "101" }, { type := "companies", hsId := "202" }] ∧
    rowsOf (processTask CONFIG (loadMappers exampleEmailFanOut) [] initOutputs
        exampleEmailTask) "contacts" =
      ["101,\"Hello, world\",2024-01-01,UNKNOWN,Hi\n"] ∧
    rowsOf (processTask CONFIG (loadMappers exampleEmailFanOut) [] initOutputs
        exampleEmailTask) "companies" =
      ["202,\"Hello, world\",2024-01-01,UNKNOWN,Hi\n"] ∧
    ((associations (loadMappers exampleEmailFanOut) exampleEmailTask).map
      Association.type).Nodup :=
  ⟨outputsOk_initOutputs, by decide, by decide, by decide, by decide,
   (processTask_fanOut CONFIG (loadMappers exampleEmailFanOut) [] initOutputs exampleEmailTask
      outputsOk_initOutputs (by decide) (by decide) (by decide)).1⟩

end CreateTaskEmails

/-! ## Chunk numbering in `create-task-emails.js` -/

namespace CreateTaskEmails

theorem chunkNumbering_init (hdr : String) : ChunkNumbering hdr (initPartition hdr) := by
  refine ⟨rfl, rfl, rfl, ?_⟩
  intro c hc
  simp only [initPartition, Partition.chunks, List.nil_append, List.mem_singleton] at hc
  subst hc; rfl

theorem chunkNumbering_writeRow (maxChunkBytes : Nat) (hdr : String) (p : Partition)
    (line : String) (hp : ChunkNumbering hdr p) :
    ChunkNumbering hdr (writeRow maxChunkBytes hdr p line) := by
  obtain ⟨h1, h2, h3, h4⟩ := hp
  unfold writeRow
  by_cases hc : p.stats.currentSize > 0 ∧
      p.stats.currentSize + byteLength (line ++ "\n") > maxChunkBytes
  · simp only [hc, and_self, if_true]
    refine ⟨by simp [h1], rfl, ?_, ?_⟩
    · simp only [List.map_append, List.map_cons, List.map_nil, List.length_append,
        List.length_singleton, List.range'_concat, h3, h2, h1]
      simp [Nat.add_comm]
    · intro c hcm
      simp only [Partition.chunks, List.mem_append, List.mem_singleton] at hcm
      rcases hcm with hcm | hcm
      · exact h4 c (by simpa [Partition.chunks] using hcm)
      · subst hcm; rfl
  · simp only [hc, if_false]
    refine ⟨h1, h2, h3, ?_⟩
    intro c hcm
    simp only [Partition.chunks, List.mem_append, List.mem_singleton] at hcm
    rcases hcm with hcm | hcm
    · exact h4 c (by simp [Partition.chunks, hcm])
    · subst hcm
      have hw := h4 p.writer (by simp [Partition.chunks])
      cases hws : p.writer.writes with
      | nil => simp [hws] at hw
      | cons w ws => simpa [hws] using hw

theorem chunkNumbering_writeRows (maxChunkBytes : Nat) (hdr : String) (lines : List String) :
    ChunkNumbering hdr (writeRows maxChunkBytes hdr lines) := by
  have key : ∀ (ls : List String) (p : Partition), ChunkNumbering hdr p →
      ChunkNumbering hdr (ls.foldl (writeRow maxChunkBytes hdr) p) := by
    intro ls
    induction ls with
    | nil => intro p hp; exact hp
    | cons l ls ih => intro p hp; exact ih _ (chunkNumbering_writeRow maxChunkBytes hdr p l hp)
  exact key lines _ (chunkNumbering_init hdr)

theorem chunkNumbering_chunks (hdr : String) (p : Partition) (hp : ChunkNumbering hdr p) :
    p.chunks.map ChunkFile.chunkIndex = List.range' 1 p.chunks.length ∧
    p.stats.chunkIndex = p.chunks.length ∧
    ∀ c ∈ p.closed, c.chunkIndex < p.writer.chunkIndex := by
  obtain ⟨h1, h2, h3, _⟩ := hp
  refine ⟨?_, by simp [Partition.chunks, h1], ?_⟩
  · simp only [Partition.chunks, List.map_append, List.map_cons, List.map_nil,
      List.length_append, List.length_singleton, List.range'_concat, h3, h2, h1]
    simp [Nat.add_comm]
  · intro c hc
    have hm : c.chunkIndex ∈ List.range' 1 p.closed.length := by
      rw [← h3]; exact List.mem_map_of_mem _ hc
    rw [List.mem_range'_1] at hm
    omega

/-- C20: in the chunked writer of `create-task-emails.js`, after every
sequence of writes to a partition the chunks created are numbered exactly
`1, 2, ..., n` in creation order, every chunk begins with the header line and
`stats.chunkIndex` is the number of the open chunk.  A write that rolls over
closes the open chunk, opens the chunk with the next number, and leaves
`currentSize` at the header's byte length plus the row's, the new chunk
holding the header and then the row; a write that does not roll over appends
the row to the open chunk.  Either way the closed chunks are left as they
were and all have a smaller number than the chunk written to. -/
theorem chunks_numbered_sequentially (maxChunkBytes : Nat) (emailHeadersString : String)
    (lines : List String) (line : String) :
    (writeRows maxChunkBytes emailHeadersString lines).chunks.map ChunkFile.chunkIndex =
      List.range' 1 (writeRows maxChunkBytes emailHeadersString lines).chunks.length ∧
    (∀ c ∈ (writeRows maxChunkBytes emailHeadersString lines).chunks,
      c.writes.head? = some emailHeadersString) ∧
    (writeRows maxChunkBytes emailHeadersString lines).stats.chunkIndex =
      (writeRows maxChunkBytes emailHeadersString lines).chunks.length ∧
    (writeRows maxChunkBytes emailHeadersString lines).writer.chunkIndex =
      (writeRows maxChunkBytes emailHeadersString lines).stats.chunkIndex ∧
    (((writeRows maxChunkBytes emailHeadersString lines).stats.currentSize > 0 ∧
        (writeRows maxChunkBytes emailHeadersString lines).stats.currentSize +
          byteLength (line ++ "\n") > maxChunkBytes) →
      (writeRow maxChunkBytes emailHeadersString
          (writeRows maxChunkBytes emailHeadersString lines) line).closed =
        (writeRows maxChunkBytes emailHeadersString lines).closed ++
          [(writeRows maxChunkBytes emailHeadersString lines).writer] ∧
      (writeRow maxChunkBytes emailHeadersString
          (writeRows maxChunkBytes emailHeadersString lines) line).writer =
        { chunkIndex := (writeRows maxChunkBytes emailHeadersString lines).stats.chunkIndex + 1
          writes := [emailHeadersString, line ++ "\n"] } ∧
      (writeRow maxChunkBytes emailHeadersString
          (writeRows maxChunkBytes emailHeadersString lines) line).stats.currentSize =
        byteLength emailHeadersString + byteLength (line ++ "\n")) ∧
    (¬ ((writeRows maxChunkBytes emailHeadersString lines).stats.currentSize > 0 ∧
        (writeRows maxChunkBytes emailHeadersString lines).stats.currentSize +
          byteLength (line ++ "\n") > maxChunkBytes) →
      (writeRow maxChunkBytes emailHeadersString
          (writeRows maxChunkBytes emailHeadersString lines) line).closed =
        (writeRows maxChunkBytes emailHeadersString lines).closed ∧
      (writeRow maxChunkBytes emailHeadersString
          (writeRows maxChunkBytes emailHeadersString lines) line).writer =
        { chunkIndex := (writeRows maxChunkBytes emailHeadersString lines).writer.chunkIndex
          writes := (writeRows maxChunkBytes emailHeadersString lines).writer.writes ++
            [line ++ "\n"] }) ∧
    (∀ c ∈ (writeRow maxChunkBytes emailHeadersString
          (writeRows maxChunkBytes emailHeadersString lines) line).closed,
      c.chunkIndex < (writeRow maxChunkBytes emailHeadersString
          (writeRows maxChunkBytes emailHeadersString lines) line).writer.chunkIndex) := by
  have hn := chunkNumbering_writeRows maxChunkBytes emailHeadersString lines
  have hn1 := chunkNumbering_writeRow maxChunkBytes emailHeadersString _ line hn
  have hc := chunkNumbering_chunks emailHeadersString _ hn
  have hc1 := chunkNumbering_chunks emailHeadersString _ hn1
  refine ⟨hc.1, hn.2.2.2, hc.2.1, hn.2.1, ?_, ?_, hc1.2.2⟩
  · intro hroll
    simp [writeRow, hroll]
  · intro hno
    simp [writeRow, hno]

/-- Witness for C20: limit 100, header of 40 bytes, two rows of 25 bytes
written; the third one rolls over into chunk 2. -/
theorem chunks_numbered_sequentially_witness :
    ((writeRows 100 exampleHeader40 [exampleLine24 'a', exampleLine24 'b']).stats.currentSize > 0 ∧
      (writeRows 100 exampleHeader40 [exampleLine24 'a', exampleLine24 'b']).stats.currentSize +
        byteLength (exampleLine24 'c' ++ "\n") > 100) ∧
    ((writeRow 100 exampleHeader40
        (writeRows 100 exampleHeader40 [exampleLine24 'a', exampleLine24 'b'])
        (exampleLine24 'c')).closed =
      (writeRows 100 exampleHeader40 [exampleLine24 'a', exampleLine24 'b']).closed ++
        [(writeRows 100 exampleHeader40 [exampleLine24 'a', exampleLine24 'b']).writer] ∧
    (writeRow 100 exampleHeader40
        (writeRows 100 exampleHeader40 [exampleLine24 'a', exampleLine24 'b'])
        (exampleLine24 'c')).writer =
      { chunkIndex :=
          (writeRows 100 exampleHeader40 [exampleLine24 'a', exampleLine24 'b']).stats.chunkIndex
            + 1
        writes := [exampleHeader40, exampleLine24 'c' ++ "\n"] } ∧
    (writeRow 100 exampleHeader40
        (writeRows 100 exampleHeader40 [exampleLine24 'a', exampleLine24 'b'])
        (exampleLine24 'c')).stats.currentSize =
      byteLength exampleHeader40 + byteLength (exampleLine24 'c' ++ "\n")) ∧
    (writeRows 100 exampleHeader40
        [exampleLine24 'a', exampleLine24 'b', exampleLine24 'c']).chunks.map
        ChunkFile.chunkIndex = [1, 2] ∧
    chunkFilename "contacts" 2 = "hubspot_import_task_emails_for_contacts_chunk2.csv" :=
  ⟨by decide,
   (chunks_numbered_sequentially 100 exampleHeader40 [exampleLine24 'a', exampleLine24 'b']
      (exampleLine24 'c')).2.2.2.2.1 (by decide),
   by decide, by decide⟩

end CreateTaskEmails

/-! ## File names: `startsWith`, `includes` -/

theorem startsWithChars_iff (s t : List Char) :
    startsWithChars s t = true ↔ ∃ rest, s = t ++ rest := by
  induction t generalizing s with
  | nil => cases s <;> simp [startsWithChars]
  | cons d ds ih =>
    cases s with
    | nil => simp [startsWithChars]
    | cons c cs =>
      simp only [startsWithChars, Bool.and_eq_true, beq_iff_eq, ih, List.cons_append,
        List.cons.injEq]
      constructor
      · rintro ⟨rfl, rest, rfl⟩; exact ⟨rest, rfl, rfl⟩
      · rintro ⟨rest, rfl, rfl⟩; exact ⟨rfl, rest, rfl⟩

theorem startsWithChars_append (t rest : List Char) : startsWithChars (t ++ rest) t = true :=
  (startsWithChars_iff _ _).mpr ⟨rest, rfl⟩

theorem includesChars_append (a sub b : List Char) :
    includesChars (a ++ (sub ++ b)) sub = true := by
  induction a with
  | nil =>
    cases h : sub ++ b with
    | nil =>
      have : sub = [] := (List.append_eq_nil.mp h).1
      simp [includesChars, this]
    | cons c cs =>
      simp only [List.nil_append, h, includesChars, Bool.or_eq_true]
      left
      rw [← h]
      exact startsWithChars_append sub b
  | cons c cs ih =>
    simp only [List.cons_append, includesChars, Bool.or_eq_true]
    exact Or.inr ih

theorem jsIncludes_marker (id rest : String) : jsIncludes (id ++ " -- " ++ rest) " -- " = true := by
  unfold jsIncludes
  rw [String.data_append, String.data_append, List.append_assoc]
  exact includesChars_append _ _ _

/-! ## `findFileById` -/

namespace ImportFiles

theorem find?_split {α : Type} (p : α → Bool) (pre : List α) (x : α) (post : List α)
    (hpre : ∀ y ∈ pre, p y = false) (hx : p x = true) :
    (pre ++ x :: post).find? p = some x := by
  induction pre with
  | nil => simp [List.find?, hx]
  | cons y ys ih =>
    simp only [List.cons_append, List.find?, hpre y (by simp)]
    exact ih (fun z hz => hpre z (by simp [hz]))

/-- C17: `findFileById` returns the directory path joined with the first
filename of the listing (in enumeration order) that starts with the id, and
`null` exactly when no filename of the listing starts with the id; it
returns `null` as well when the directory cannot be read.  A listing holds
file names, which are not empty. -/
theorem findFileById_first_match (pathJoin : String → String → String)
    (readdir : String → Except String (List String)) (dirPath sfFileId : String) :
    (∀ files, readdir dirPath = .ok files → (∀ f ∈ files, f ≠ "") →
      (∀ pre f post, files = pre ++ f :: post →
        (∀ g ∈ pre, jsStartsWith g sfFileId = false) → jsStartsWith f sfFileId = true →
        findFileById pathJoin readdir dirPath sfFileId = some (pathJoin dirPath f)) ∧
      (findFileById pathJoin readdir dirPath sfFileId = none ↔
        ∀ f ∈ files, jsStartsWith f sfFileId = false)) ∧
    (∀ e, readdir dirPath = .error e →
      findFileById pathJoin readdir dirPath sfFileId = none) := by
  refine ⟨?_, ?_⟩
  · intro files hread hnames
    refine ⟨?_, ?_⟩
    · intro pre f post hsplit hpre hf
      have hfind := find?_split (fun file => jsStartsWith file sfFileId) pre f post hpre hf
      have hne : f ≠ "" := hnames f (by rw [hsplit]; simp)
      have ht : truthy (some f) = true := by simp [truthy, hne]
      simp [findFileById, hread, hsplit, hfind, ht]
    · unfold findFileById
      simp only [hread]
      cases hfind : files.find? (fun file => jsStartsWith file sfFileId) with
      | none =>
        simp only [truthy, Bool.false_eq_true, if_false, true_iff]
        intro f hf
        have := List.find?_eq_none.mp hfind f hf
        simpa using this
      | some f =>
        have hmem := List.mem_of_find?_eq_some hfind
        have hp := List.find?_some hfind
        have hne : f ≠ "" := hnames f hmem
        have ht : truthy (some f) = true := by simp [truthy, hne]
        simp only [ht, if_true, reduceCtorEq, false_iff, not_forall]
        exact ⟨f, hmem, by simpa using hp⟩
  · intro e hread
    simp [findFileById, hread]

/-- Witness for C17: two files start with the id; the first one is found. -/
theorem findFileById_first_match_witness :
    exampleReaddir "../Attachments" =
      .ok (["00P000000000000001 -- a.pdf"] ++ "00P000000000000002 -- b.pdf" ::
        ["00P000000000000002 -- c.pdf"]) ∧
    findFileById (fun d n => d ++ "/" ++ n) exampleReaddir "../Attachments"
        "00P000000000000002" =
      some ("../Attachments" ++ "/" ++ "00P000000000000002 -- b.pdf") ∧
    findFileById (fun d n => d ++ "/" ++ n) exampleReaddir "../Missing"
        "00P000000000000002" = none :=
  ⟨rfl,
   ((findFileById_first_match (fun d n => d ++ "/" ++ n) exampleReaddir "../Attachments"
      "00P000000000000002").1 _ rfl (by decide)).1
      ["00P000000000000001 -- a.pdf"] "00P000000000000002 -- b.pdf"
      ["00P000000000000002 -- c.pdf"] rfl (by decide) (by decide),
   (findFileById_first_match (fun d n => d ++ "/" ++ n) exampleReaddir "../Missing"
      "00P000000000000002").2 "ENOENT" rfl⟩

end ImportFiles

/-! ## The renamers -/

namespace Renamer

theorem firstNonEmpty_eq_none_iff (cs : List (Option String)) :
    firstNonEmpty cs = none ↔ ∀ c ∈ cs, truthy c = false := by
  induction cs with
  | nil => simp [firstNonEmpty]
  | cons c cs ih =>
    by_cases hc : truthy c = true
    · have hne : c ≠ none := by
        intro h; rw [h] at hc; cases hc
      simp only [firstNonEmpty, hc, if_true, List.mem_cons, forall_eq_or_imp,
        Bool.true_eq_false, false_and, iff_false]
      exact hne
    · have hf : truthy c = false := by simpa using hc
      simp [firstNonEmpty, hf, ih]

theorem firstNonEmpty_some (cs : List (Option String)) (e : String)
    (h : firstNonEmpty cs = some e) : some e ∈ cs ∧ e ≠ "" := by
  induction cs with
  | nil => simp [firstNonEmpty] at h
  | cons c cs ih =>
    by_cases hc : truthy c = true
    · simp only [firstNonEmpty, hc, if_true] at h
      subst h
      refine ⟨by simp, ?_⟩
      simpa [truthy] using hc
    · simp only [firstNonEmpty, hc, if_false] at h
      exact ⟨by simp [(ih h).1], (ih h).2⟩

theorem truthy_some_iff (s : String) : truthy (some s) = true ↔ s ≠ "" := by
  simp [truthy]

theorem truthy_none : truthy none = false := rfl

/-- The value the extension inference leaves in `extension` is the first
non-empty candidate of the chain, and is falsy when there is none. -/
theorem inferExtension_eq_firstNonEmpty (pl : Platform) (entry : AttachmentMeta)
    (originalFilePath : String) :
    (∀ e, firstNonEmpty [some (extensionOfName pl entry), extensionOfContentType pl entry,
        extensionOfContent pl originalFilePath] = some e →
      inferExtension pl entry originalFilePath = some e) ∧
    (firstNonEmpty [some (extensionOfName pl entry), extensionOfContentType pl entry,
        extensionOfContent pl originalFilePath] = none →
      truthy (inferExtension pl entry originalFilePath) = false) := by
  unfold inferExtension extensionOfContentType extensionOfContent firstNonEmpty firstNonEmpty
    firstNonEmpty firstNonEmpty
  by_cases h1 : truthy (some (extensionOfName pl entry)) = true
  · simp [h1]
  · have h1f : truthy (some (extensionOfName pl entry)) = false := by simpa using h1
    by_cases hct : truthy entry.contentType = true
    · cases hm : pl.mimeExtension (entry.contentType.getD "") with
      | none =>
        rcases hft : pl.fileTypeFromFile originalFilePath with e | (_ | ext)
        · simp [h1f, hct, hm, hft, truthy_none]
        · simp [h1f, hct, hm, hft, truthy_none]
        · by_cases hx : truthy (some ext) = true
          · simp [h1f, hct, hm, hft, hx, truthy_none]
          · have hxf : truthy (some ext) = false := by simpa using hx
            simp [h1f, hct, hm, hft, hxf, truthy_none]
      | some m =>
        by_cases hmt : truthy (some m) = true
        · simp [h1f, hct, hm, hmt, truthy_none]
        · have hmf : truthy (some m) = false := by simpa using hmt
          rcases hft : pl.fileTypeFromFile originalFilePath with e | (_ | ext)
          · simp [h1f, hct, hm, hmf, hft, truthy_none]
          · simp [h1f, hct, hm, hmf, hft, truthy_none]
          · by_cases hx : truthy (some ext) = true
            · simp [h1f, hct, hm, hmf, hft, hx, truthy_none]
            · have hxf : truthy (some ext) = false := by simpa using hx
              simp [h1f, hct, hm, hmf, hft, hxf, truthy_none]
    · have hctf : truthy entry.contentType = false := by simpa using hct
      rcases hft : pl.fileTypeFromFile originalFilePath with e | (_ | ext)
      · simp [h1f, hctf, hft, truthy_none]
      · simp [h1f, hctf, hft, truthy_none]
      · by_cases hx : truthy (some ext) = true
        · simp [h1f, hctf, hft, hx, truthy_none]
        · have hxf : truthy (some ext) = false := by simpa using hx
          simp [h1f, hctf, hft, hxf, truthy_none]

/-- C18 (counterexample): the file `00P4` is matched and the extension of its
record's `Name` is `pdf`, not empty; its rename is rejected, and the `catch`
leaves the file in place and increments `skippedCount`.  The file is skipped
although not all three sources are empty. -/
theorem skipped_with_extension_when_rename_fails :
    jsIncludes "00P4" " -- " = false ∧
    exampleMetadata.get (jsTrim "00P4") = some { name := "long.pdf", contentType := none } ∧
    extensionOfName examplePlatform { name := "long.pdf", contentType := none } = "pdf" ∧
    attachmentNewFileName examplePlatform exampleMetadata "00P4" = some "00P4 -- long.pdf" ∧
    renameStep examplePlatform attachmentsDirectory
        (attachmentNewFileName examplePlatform exampleMetadata)
        { dir := ["00P4"], renamedCount := 0, skippedCount := 0 } "00P4" =
      { dir := ["00P4"], renamedCount := 0, skippedCount := 1 } := by
  decide

/-- C18 (amended): in `attachment-renamer.js`, for every matched file the
extension used is the first non-empty result among, in order, the extension
of the record's `Name`, the extension derived from its `ContentType` and the
extension sniffed from the file content.  The file is skipped without a
rename being attempted (left in place, `skippedCount` incremented) exactly
when all three are empty; otherwise the rename to
`id -- name.extension` is attempted with that extension, which is one of the
three results and never a default, and the file is renamed when the rename
succeeds and counted as skipped when it is rejected. -/
theorem extension_chain (pl : Platform) (fileMetadata : JsMap AttachmentMeta)
    (originalFilename : String) (entry : AttachmentMeta) (st : RunState)
    (hmarker : jsIncludes originalFilename " -- " = false)
    (hmatched : fileMetadata.get (jsTrim originalFilename) = some entry) :
    (attachmentNewFileName pl fileMetadata originalFilename = none ↔
      ∀ c ∈ [some (extensionOfName pl entry), extensionOfContentType pl entry,
        extensionOfContent pl (pl.pathJoin attachmentsDirectory originalFilename)],
        truthy c = false) ∧
    (attachmentNewFileName pl fileMetadata originalFilename = none →
      renameStep pl attachmentsDirectory (attachmentNewFileName pl fileMetadata) st
          originalFilename =
        { st with skippedCount := st.skippedCount + 1 }) ∧
    (∀ e, firstNonEmpty [some (extensionOfName pl entry), extensionOfContentType pl entry,
        extensionOfContent pl (pl.pathJoin attachmentsDirectory originalFilename)] = some e →
      e ≠ "" ∧
      some e ∈ [some (extensionOfName pl entry), extensionOfContentType pl entry,
        extensionOfContent pl (pl.pathJoin attachmentsDirectory originalFilename)] ∧
      attachmentNewFileName pl fileMetadata originalFilename =
        some (jsTrim originalFilename ++ " -- " ++ sanitizeFilename (pl.parseName entry.name)
          ++ "." ++ e) ∧
      renameStep pl attachmentsDirectory (attachmentNewFileName pl fileMetadata) st
          originalFilename =
        (if pl.renameFails (pl.pathJoin attachmentsDirectory originalFilename)
            (pl.pathJoin attachmentsDirectory
              (jsTrim originalFilename ++ " -- " ++ sanitizeFilename (pl.parseName entry.name)
                ++ "." ++ e)) then
          { st with skippedCount := st.skippedCount + 1 }
        else
          { st with
            dir := renameIn st.dir originalFilename
              (jsTrim originalFilename ++ " -- " ++ sanitizeFilename (pl.parseName entry.name)
                ++ "." ++ e)
            renamedCount := st.renamedCount + 1 })) := by
  have hinf := inferExtension_eq_firstNonEmpty pl entry
    (pl.pathJoin attachmentsDirectory originalFilename)
  have hname : ∀ e, firstNonEmpty [some (extensionOfName pl entry),
      extensionOfContentType pl entry,
      extensionOfContent pl (pl.pathJoin attachmentsDirectory originalFilename)] = some e →
      attachmentNewFileName pl fileMetadata originalFilename =
        some (jsTrim originalFilename ++ " -- " ++ sanitizeFilename (pl.parseName entry.name)
          ++ "." ++ e) := by
    intro e he
    have h1 := hinf.1 e he
    have h2 := (firstNonEmpty_some _ e he).2
    have ht : truthy (some e) = true := (truthy_some_iff e).mpr h2
    simp [attachmentNewFileName, hmarker, hmatched, h1, ht]
  refine ⟨?_, ?_, ?_⟩
  · rw [← firstNonEmpty_eq_none_iff]
    constructor
    · intro hnone
      cases hf : firstNonEmpty [some (extensionOfName pl entry),
          extensionOfContentType pl entry,
          extensionOfContent pl (pl.pathJoin attachmentsDirectory originalFilename)] with
      | none => rfl
      | some e =>
        rw [hname e hf] at hnone
        cases hnone
    · intro hf
      have := hinf.2 hf
      simp [attachmentNewFileName, hmarker, hmatched, this]
  · intro hnone
    simp [renameStep, hnone]
  · intro e he
    obtain ⟨hmem, hne⟩ := firstNonEmpty_some _ e he
    refine ⟨hne, hmem, hname e he, ?_⟩
    simp only [renameStep, hname e he]

/-- Witness for C18 (amended): `00P2` has no extension in its `Name`; the
extension comes from its `ContentType`. -/
theorem extension_chain_witness :
    jsIncludes "00P2" " -- " = false ∧
    exampleMetadata.get (jsTrim "00P2") =
      some { name := "scan", contentType := some "application/pdf" } ∧
    firstNonEmpty [some (extensionOfName examplePlatform
        { name := "scan", contentType := some "application/pdf" }),
      extensionOfContentType examplePlatform
        { name := "scan", contentType := some "application/pdf" },
      extensionOfContent examplePlatform
        (examplePlatform.pathJoin attachmentsDirectory "00P2")] = some "pdf" ∧
    attachmentNewFileName examplePlatform exampleMetadata "00P2" =
      some (jsTrim "00P2" ++ " -- " ++ sanitizeFilename (examplePlatform.parseName "scan")
        ++ "." ++ "pdf") ∧
    attachmentNewFileName examplePlatform exampleMetadata "00P2" = some "00P2 -- scan.pdf" :=
  ⟨by decide, by decide, by decide,
   ((extension_chain examplePlatform exampleMetadata "00P2"
      { name := "scan", contentType := some "application/pdf" }
      { dir := ["00P2"], renamedCount := 0, skippedCount := 0 } (by decide) (by decide)).2.2
      "pdf" (by decide)).2.2.1,
   by decide⟩

/-! ### Running a renamer twice -/

theorem stuck_of_none (pl : Platform) (dir : String) (newFileName : String → Option String)
    (g : String) (h : newFileName g = none) : Stuck pl dir newFileName g := by
  simp [Stuck, h]

theorem renameStep_stuck (pl : Platform) (dir : String) (newFileName : String → Option String)
    (st : RunState) (g : String) (h : Stuck pl dir newFileName g) :
    renameStep pl dir newFileName st g = { st with skippedCount := st.skippedCount + 1 } := by
  unfold Stuck at h
  unfold renameStep
  cases hn : newFileName g with
  | none => rfl
  | some n =>
    simp only [hn] at h
    simp [h]

theorem foldl_all_stuck (pl : Platform) (dir : String) (newFileName : String → Option String)
    (files : List String) (st : RunState) (h : ∀ g ∈ files, Stuck pl dir newFileName g) :
    files.foldl (renameStep pl dir newFileName) st =
      { st with skippedCount := st.skippedCount + files.length } := by
  induction files generalizing st with
  | nil => rfl
  | cons f fs ih =>
    rw [List.foldl_cons, renameStep_stuck pl dir newFileName st f (h f (by simp)),
      ih _ (fun g hg => h g (by simp [hg]))]
    simp only [List.length_cons, RunState.mk.injEq, true_and]
    omega

theorem mem_renameIn (dir : List String) (old new g : String) (h : g ∈ renameIn dir old new) :
    g = new ∨ (g ∈ dir ∧ g ≠ old) := by
  simp only [renameIn, List.mem_map, List.mem_filter] at h
  obtain ⟨g0, ⟨hmem, _⟩, hg⟩ := h
  by_cases h0 : g0 = old
  · left; simpa [h0] using hg.symm
  · right
    simp only [h0, if_false] at hg
    subst hg
    exact ⟨hmem, h0⟩

theorem foldl_dir_stuck (pl : Platform) (dir : String) (newFileName : String → Option String)
    (hmarker : ∀ f, jsIncludes f " -- " = true → newFileName f = none)
    (hnew : ∀ f n, newFileName f = some n → jsIncludes n " -- " = true)
    (rest : List String) (st : RunState)
    (hinv : ∀ g ∈ st.dir, Stuck pl dir newFileName g ∨ g ∈ rest) :
    ∀ g ∈ (rest.foldl (renameStep pl dir newFileName) st).dir, Stuck pl dir newFileName g := by
  induction rest generalizing st with
  | nil =>
    intro g hg
    rcases hinv g hg with h | h
    · exact h
    · simp at h
  | cons f fs ih =>
    rw [List.foldl_cons]
    apply ih
    intro g hg
    unfold renameStep at hg
    cases hn : newFileName f with
    | none =>
      simp only [hn] at hg
      rcases hinv g hg with h | h
      · exact Or.inl h
      · rcases List.mem_cons.mp h with heq | hfs
        · subst heq; exact Or.inl (stuck_of_none pl dir newFileName g hn)
        · exact Or.inr hfs
    | some n =>
      simp only [hn] at hg
      by_cases hfail : pl.renameFails (pl.pathJoin dir f) (pl.pathJoin dir n) = true
      · simp only [hfail, if_true] at hg
        rcases hinv g hg with h | h
        · exact Or.inl h
        · rcases List.mem_cons.mp h with heq | hfs
          · subst heq
            left
            simp [Stuck, hn, hfail]
          · exact Or.inr hfs
      · simp only [hfail, if_false] at hg
        rcases mem_renameIn st.dir f n g hg with heq | ⟨hmem, hne⟩
        · subst heq
          exact Or.inl (stuck_of_none pl dir newFileName g (hmarker g (hnew f g hn)))
        · rcases hinv g hmem with h | h
          · exact Or.inl h
          · rcases List.mem_cons.mp h with heq | hfs
            · exact absurd heq hne
            · exact Or.inr hfs

theorem renameLoop_twice (pl : Platform) (dir : String) (newFileName : String → Option String)
    (hmarker : ∀ f, jsIncludes f " -- " = true → newFileName f = none)
    (hnew : ∀ f n, newFileName f = some n → jsIncludes n " -- " = true)
    (filesInDir : List String) :
    renameLoop pl dir newFileName (renameLoop pl dir newFileName filesInDir).dir =
      { dir := (renameLoop pl dir newFileName filesInDir).dir
        renamedCount := 0
        skippedCount := (renameLoop pl dir newFileName filesInDir).dir.length } := by
  have hstuck := foldl_dir_stuck pl dir newFileName hmarker hnew filesInDir
    { dir := filesInDir, renamedCount := 0, skippedCount := 0 } (fun g hg => Or.inr hg)
  have := foldl_all_stuck pl dir newFileName (renameLoop pl dir newFileName filesInDir).dir
    { dir := (renameLoop pl dir newFileName filesInDir).dir, renamedCount := 0,
      skippedCount := 0 } hstuck
  unfold renameLoop at this ⊢
  rw [this]
  simp

theorem attachmentNewFileName_marker (pl : Platform) (fileMetadata : JsMap AttachmentMeta) :
    (∀ f, jsIncludes f " -- " = true → attachmentNewFileName pl fileMetadata f = none) ∧
    (∀ f n, attachmentNewFileName pl fileMetadata f = some n → jsIncludes n " -- " = true) := by
  refine ⟨fun f h => by simp [attachmentNewFileName, h], ?_⟩
  intro f n h
  unfold attachmentNewFileName at h
  split at h
  · cases h
  · simp only at h
    split at h
    · cases h
    · split at h
      · cases h
      · simp only [Option.some.injEq] at h
        rw [← h, String.append_assoc, String.append_assoc]
        exact jsIncludes_marker _ _

theorem contentVersionNewFileName_marker (pl : Platform)
    (fileMetadata : JsMap ContentVersionMeta) :
    (∀ f, jsIncludes f " -- " = true → contentVersionNewFileName pl fileMetadata f = none) ∧
    (∀ f n, contentVersionNewFileName pl fileMetadata f = some n →
      jsIncludes n " -- " = true) := by
  refine ⟨fun f h => by simp [contentVersionNewFileName, h], ?_⟩
  intro f n h
  unfold contentVersionNewFileName at h
  split at h
  · cases h
  · simp only at h
    split at h
    · cases h
    · split at h
      · cases h
      · simp only [Option.some.injEq] at h
        rw [← h, String.append_assoc, String.append_assoc]
        exact jsIncludes_marker _ _

/-- C19: for every metadata map, listing and platform, running a renamer
(`attachment-renamer.js` or `contentVersion-renamer.js`) a second time on the
listing the first run produced, with the same metadata and the same library
answers, performs zero renames and leaves the listing as it is; every
filename containing ` -- ` is skipped, and every name produced by a rename
contains ` -- `. -/
theorem renamer_second_run_renames_nothing (pl : Platform)
    (attachmentMetadata : JsMap AttachmentMeta) (contentVersionMetadata : JsMap ContentVersionMeta)
    (filesInDir : List String) :
    (attachmentRun pl attachmentMetadata
        (attachmentRun pl attachmentMetadata filesInDir).dir).renamedCount = 0 ∧
    (attachmentRun pl attachmentMetadata
        (attachmentRun pl attachmentMetadata filesInDir).dir).dir =
      (attachmentRun pl attachmentMetadata filesInDir).dir ∧
    (contentVersionRun pl contentVersionMetadata
        (contentVersionRun pl contentVersionMetadata filesInDir).dir).renamedCount = 0 ∧
    (contentVersionRun pl contentVersionMetadata
        (contentVersionRun pl contentVersionMetadata filesInDir).dir).dir =
      (contentVersionRun pl contentVersionMetadata filesInDir).dir ∧
    (∀ f, jsIncludes f " -- " = true →
      attachmentNewFileName pl attachmentMetadata f = none ∧
      contentVersionNewFileName pl contentVersionMetadata f = none) ∧
    (∀ f n, attachmentNewFileName pl attachmentMetadata f = some n →
      jsIncludes n " -- " = true) ∧
    (∀ f n, contentVersionNewFileName pl contentVersionMetadata f = some n →
      jsIncludes n " -- " = true) := by
  have ha := attachmentNewFileName_marker pl attachmentMetadata
  have hc := contentVersionNewFileName_marker pl contentVersionMetadata
  have h1 := renameLoop_twice pl attachmentsDirectory
    (attachmentNewFileName pl attachmentMetadata) ha.1 ha.2 filesInDir
  have h2 := renameLoop_twice pl contentVersionDirectory
    (contentVersionNewFileName pl contentVersionMetadata) hc.1 hc.2 filesInDir
  refine ⟨?_, ?_, ?_, ?_, fun f hf => ⟨ha.1 f hf, hc.1 f hf⟩, ha.2, hc.2⟩
  · unfold attachmentRun; rw [h1]
  · unfold attachmentRun; rw [h1]
  · unfold contentVersionRun; rw [h2]
  · unfold contentVersionRun; rw [h2]

/-- Witness for C19: the first run renames three files, the second none. -/
theorem renamer_second_run_renames_nothing_witness :
    (attachmentRun examplePlatform exampleMetadata
        ["00P1", "00P2", "00P3", "00P4", "00P5", "zzz", "00P1 -- old.pdf"]).renamedCount = 3 ∧
    (attachmentRun examplePlatform exampleMetadata
        (attachmentRun examplePlatform exampleMetadata
          ["00P1", "00P2", "00P3", "00P4", "00P5", "zzz", "00P1 -- old.pdf"]).dir).renamedCount
      = 0 :=
  ⟨by decide,
   (renamer_second_run_renames_nothing examplePlatform exampleMetadata []
      ["00P1", "00P2", "00P3", "00P4", "00P5", "zzz", "00P1 -- old.pdf"]).1⟩

end Renamer

/-! ## Every partition of `main` is written through the chunked writer -/

namespace CreateTaskEmails

theorem writeRows_append_singleton (maxChunkBytes : Nat) (hdr : String) (lines : List String)
    (line : String) :
    writeRows maxChunkBytes hdr (lines ++ [line]) =
      writeRow maxChunkBytes hdr (writeRows maxChunkBytes hdr lines) line := by
  simp [writeRows, List.foldl_append]

theorem writeAssociations_written (cfg : Config) (assocs : List Association) (out : Outputs)
    (rowData : RowData)
    (h : ∀ t p, out.get t = some p →
      ∃ lines, p = writeRows cfg.maxChunkBytes emailHeadersString lines) :
    ∀ t p, (writeAssociations cfg out rowData assocs).get t = some p →
      ∃ lines, p = writeRows cfg.maxChunkBytes emailHeadersString lines := by
  induction assocs generalizing out rowData with
  | nil => simpa [writeAssociations] using h
  | cons a rest ih =>
    cases hget : out.get a.type with
    | none => simpa [writeAssociations, hget] using h
    | some q =>
      simp only [writeAssociations, hget]
      apply ih
      intro t p hp
      rw [JsMap.get_set] at hp
      by_cases ht : a.type = t
      · simp only [ht, if_true, Option.some.injEq] at hp
        obtain ⟨lines, hl⟩ := h a.type q hget
        exact ⟨lines ++ [buildCsvRow (rowData.set "Record ID" (some a.hsId)) emailHeaders], by
          rw [writeRows_append_singleton, ← hl, hp]⟩
      · simp only [ht, if_false] at hp
        exact h t p hp

/-- A run of `main` that comes to its end has loaded the index and the
bodies, has read the tasks and has handled them in order. -/
theorem main_ok (cfg : Config) (disk : Disk) (out : Outputs) (hmain : main cfg disk = .ok out) :
    ∃ sfToHsIdMap emailBodyMap tasks,
      Node.loadMappers (readCsv disk) = .ok sfToHsIdMap ∧
      loadEmailBodies disk = .ok emailBodyMap ∧
      disk "../CSV/Task.csv" = .rows tasks ∧
      out = tasks.foldl (processTask cfg sfToHsIdMap emailBodyMap) initOutputs := by
  unfold main at hmain
  cases hload : Node.loadMappers (readCsv disk) with
  | error e => simp [hload] at hmain
  | ok sfToHsIdMap =>
    cases hbodies : loadEmailBodies disk with
    | error e => simp [hload, hbodies] at hmain
    | ok emailBodyMap =>
      cases hread : disk "../CSV/Task.csv" with
      | parserError code => simp [hload, hbodies, hread] at hmain
      | streamError code => simp [hload, hbodies, hread] at hmain
      | rows tasks =>
        simp only [hload, hbodies, hread, Except.ok.injEq] at hmain
        exact ⟨sfToHsIdMap, emailBodyMap, tasks, rfl, rfl, rfl, hmain.symm⟩

/-- In every run of `main`, each partition is in the state the chunked writer
reaches from its setup by writing some sequence of rows: what is proved of
`writeRows` holds of every partition of `main`. -/
theorem main_partitions_written (cfg : Config) (disk : Disk) (out : Outputs)
    (hmain : main cfg disk = .ok out) (t : String) (p : Partition) (hp : out.get t = some p) :
    ∃ lines, p = writeRows cfg.maxChunkBytes emailHeadersString lines := by
  have hinit : ∀ t p, initOutputs.get t = some p →
      ∃ lines, p = writeRows cfg.maxChunkBytes emailHeadersString lines := by
    intro t p h
    refine ⟨[], ?_⟩
    simp only [initOutputs, assocTypes, List.map_cons, List.map_nil, JsMap.get] at h
    repeat (split at h; (· cases h; rfl))
    cases h
  have hstep : ∀ (idx : SfToHsIdMap) (bodies : JsMap String) (o : Outputs) (task : JsObject),
      (∀ t p, o.get t = some p →
        ∃ lines, p = writeRows cfg.maxChunkBytes emailHeadersString lines) →
      ∀ t p, (processTask cfg idx bodies o task).get t = some p →
        ∃ lines, p = writeRows cfg.maxChunkBytes emailHeadersString lines := by
    intro idx bodies o task ho
    unfold processTask
    split
    · exact ho
    · simp only
      split
      · exact ho
      · split
        · exact ho
        · exact writeAssociations_written cfg _ o _ ho
  have hfold : ∀ (idx : SfToHsIdMap) (bodies : JsMap String) (tasks : List JsObject)
      (o : Outputs),
      (∀ t p, o.get t = some p →
        ∃ lines, p = writeRows cfg.maxChunkBytes emailHeadersString lines) →
      ∀ t p, (tasks.foldl (processTask cfg idx bodies) o).get t = some p →
        ∃ lines, p = writeRows cfg.maxChunkBytes emailHeadersString lines := by
    intro idx bodies tasks
    induction tasks with
    | nil => intro o ho; exact ho
    | cons task rest ih => intro o ho; exact ih _ (hstep idx bodies o task ho)
  obtain ⟨sfToHsIdMap, emailBodyMap, tasks, _, _, _, hout⟩ := main_ok cfg disk out hmain
  rw [hout] at hp
  exact hfold _ _ tasks initOutputs hinit t p hp

end CreateTaskEmails

/-! ## `create-task-emails.js`: eager first chunk, byte ceiling, accounting -/

namespace CreateTaskEmails

theorem laterChunksNonEmpty_init (hdr : String) : LaterChunksNonEmpty (initPartition hdr) := by
  refine ⟨?_, ?_, rfl, by simp [initPartition]⟩
  · intro c hc
    simp only [initPartition, Partition.chunks, List.nil_append, List.mem_singleton] at hc
    subst hc; simp
  · intro c hc h2
    simp only [initPartition, Partition.chunks, List.nil_append, List.mem_singleton] at hc
    subst hc
    simp at h2

theorem laterChunksNonEmpty_writeRow (maxChunkBytes : Nat) (hdr : String) (p : Partition)
    (line : String) (hp : LaterChunksNonEmpty p) :
    LaterChunksNonEmpty (writeRow maxChunkBytes hdr p line) := by
  obtain ⟨h1, h2, h3, h4⟩ := hp
  unfold writeRow
  by_cases hc : p.stats.currentSize > 0 ∧
      p.stats.currentSize + byteLength (line ++ "\n") > maxChunkBytes
  · simp only [hc, and_self, if_true]
    refine ⟨?_, ?_, rfl, by simp⟩
    · intro c hcm
      simp only [Partition.chunks, List.mem_append, List.mem_singleton] at hcm
      rcases hcm with hcm | hcm
      · exact h1 c (by simpa [Partition.chunks] using hcm)
      · subst hcm; simp
    · intro c hcm hidx
      simp only [Partition.chunks, List.mem_append, List.mem_singleton] at hcm
      rcases hcm with hcm | hcm
      · exact h2 c (by simpa [Partition.chunks] using hcm) hidx
      · subst hcm; simp [ChunkFile.rows]
  · simp only [hc, if_false]
    have hw : p.writer.writes ≠ [] := h1 p.writer (by simp [Partition.chunks])
    refine ⟨?_, ?_, h3, h4⟩
    · intro c hcm
      simp only [Partition.chunks, List.mem_append, List.mem_singleton] at hcm
      rcases hcm with hcm | hcm
      · exact h1 c (by simp [Partition.chunks, hcm])
      · subst hcm; simp
    · intro c hcm hidx
      simp only [Partition.chunks, List.mem_append, List.mem_singleton] at hcm
      rcases hcm with hcm | hcm
      · exact h2 c (by simp [Partition.chunks, hcm]) hidx
      · subst hcm
        cases hws : p.writer.writes with
        | nil => exact absurd hws hw
        | cons w ws => simp [ChunkFile.rows, hws]

theorem laterChunksNonEmpty_writeRows (maxChunkBytes : Nat) (hdr : String)
    (lines : List String) : LaterChunksNonEmpty (writeRows maxChunkBytes hdr lines) := by
  have key : ∀ (ls : List String) (p : Partition), LaterChunksNonEmpty p →
      LaterChunksNonEmpty (ls.foldl (writeRow maxChunkBytes hdr) p) := by
    intro ls
    induction ls with
    | nil => intro p hp; exact hp
    | cons l ls ih =>
      intro p hp
      exact ih _ (laterChunksNonEmpty_writeRow maxChunkBytes hdr p l hp)
  exact key lines _ (laterChunksNonEmpty_init hdr)

theorem writeAssociations_other (cfg : Config) (assocs : List Association) (out : Outputs)
    (rowData : RowData) (t : String) (ht : ∀ a ∈ assocs, a.type ≠ t) :
    (writeAssociations cfg out rowData assocs).get t = out.get t := by
  induction assocs generalizing out rowData with
  | nil => rfl
  | cons a rest ih =>
    cases hget : out.get a.type with
    | none => simp [writeAssociations, hget]
    | some q =>
      simp only [writeAssociations, hget]
      rw [ih _ _ (fun b hb => ht b (by simp [hb])), JsMap.get_set]
      simp [ht a (by simp)]

theorem processTask_other (cfg : Config) (sfToHsIdMap : SfToHsIdMap)
    (emailBodyMap : JsMap String) (out : Outputs) (task : JsObject) :
    (processTask cfg sfToHsIdMap emailBodyMap out task).get "other" = out.get "other" := by
  unfold processTask
  split
  · rfl
  · simp only
    split
    · rfl
    · split
      · rfl
      · apply writeAssociations_other
        intro a ha
        have := associations_type_mem sfToHsIdMap task a ha
        simp only [List.mem_cons, List.mem_singleton, List.not_mem_nil, or_false] at this
        rcases this with h | h | h <;> rw [h] <;> decide

/-- In every run of `main` the partition `other` is left as the setup made
it: its chunk 1 holds the header and no row. -/
theorem main_other_header_only (cfg : Config) (disk : Disk) (out : Outputs)
    (hmain : main cfg disk = .ok out) :
    out.get "other" = some (initPartition emailHeadersString) := by
  have hfold : ∀ (idx : SfToHsIdMap) (bodies : JsMap String) (tasks : List JsObject)
      (o : Outputs), (tasks.foldl (processTask cfg idx bodies) o).get "other" =
        o.get "other" := by
    intro idx bodies tasks
    induction tasks with
    | nil => intro o; rfl
    | cons task rest ih => intro o; rw [List.foldl_cons, ih, processTask_other]
  obtain ⟨sfToHsIdMap, emailBodyMap, tasks, _, _, _, hout⟩ := main_ok cfg disk out hmain
  rw [hout, hfold]
  decide

/-- C21 (counterexample): in the run on `exampleEmailFanOut`, where every
input file exists and the one task is linked to a contact and a company, the
chunk files of `deals` and of `other` are created by the writer setup all the
same and hold the header and no row. -/
theorem eager_first_chunk_has_no_row :
    (main CONFIG (FileSystem.toDisk exampleEmailFanOut)).toOption.map (fun out =>
      ((out.get "deals").map (fun p => p.chunks.map ChunkFile.rows),
       (out.get "other").map (fun p => p.chunks.map ChunkFile.rows))) =
      some (some [[]], some [[]]) ∧
    (main CONFIG (FileSystem.toDisk exampleEmailFanOut)).toOption.map (fun out =>
      (out.get "other").map (fun p => p.chunks.map ChunkFile.writes)) =
      some (some [[emailHeadersString]]) := by
  decide

/-- C21 (amended): in `create-task-emails.js` the first chunk file of each of
the four partitions is created by the writer setup, before any row is read,
and holds the header; every further chunk (numbered 2 or more) is created by
a rollover, when a row is about to be written into it, and contains at least
one row after its header. -/
theorem later_chunks_have_a_row (cfg : Config) (disk : Disk) (out : Outputs)
    (hmain : main cfg disk = .ok out) :
    (∀ t ∈ assocTypes, initOutputs.get t = some (initPartition emailHeadersString) ∧
      (initPartition emailHeadersString).chunks =
        [{ chunkIndex := 1, writes := [emailHeadersString] }]) ∧
    (∀ t p, out.get t = some p → ∀ c ∈ p.chunks,
      c.writes.head? = some emailHeadersString ∧ (2 ≤ c.chunkIndex → 1 ≤ c.rows.length)) := by
  refine ⟨by decide, ?_⟩
  intro t p hp c hc
  obtain ⟨lines, hl⟩ := main_partitions_written cfg disk out hmain t p hp
  subst hl
  exact ⟨(chunkNumbering_writeRows cfg.maxChunkBytes emailHeadersString lines).2.2.2 c hc,
    (laterChunksNonEmpty_writeRows cfg.maxChunkBytes emailHeadersString lines).2.1 c hc⟩

/-- Witness for C21 (amended): with a ceiling of 100 bytes the three rows of
the contact go to the chunks 1, 2 and 3 of `contacts`, one row each; the
chunks 2 and 3 are created by a rollover. -/
theorem later_chunks_have_a_row_witness :
    main exampleSmallChunks (FileSystem.toDisk exampleThreeEmails) =
      .ok (exampleThreeTasks.foldl
        (processTask exampleSmallChunks (loadMappers exampleThreeEmails) []) initOutputs) ∧
    ((exampleThreeTasks.foldl
        (processTask exampleSmallChunks (loadMappers exampleThreeEmails) []) initOutputs).get
        "contacts").map (fun p => p.chunks.map (fun c => (c.chunkIndex, c.rows))) =
      some [(1, ["101,Hello,2024-01-01,UNKNOWN,Hi\n"]), (2, ["101,Hallo,2024-01-02,UNKNOWN,Hi\n"]),
            (3, ["101,Salut,2024-01-03,UNKNOWN,Hi\n"])] ∧
    (∀ t p, (exampleThreeTasks.foldl
        (processTask exampleSmallChunks (loadMappers exampleThreeEmails) []) initOutputs).get t =
        some p → ∀ c ∈ p.chunks,
      c.writes.head? = some emailHeadersString ∧ (2 ≤ c.chunkIndex → 1 ≤ c.rows.length)) :=
  ⟨rfl, by decide,
   (later_chunks_have_a_row exampleSmallChunks (FileSystem.toDisk exampleThreeEmails) _ rfl).2⟩

/-- C24 (counterexample): the ceiling of 524288000 bytes is not below
511 * 10^6 bytes. -/
theorem ceiling_not_below_decimal_limit :
    maxChunkSizeBytes MAX_CHUNK_SIZE_MB = 524288000 ∧
    CONFIG.maxChunkBytes = maxChunkSizeBytes MAX_CHUNK_SIZE_MB ∧
    ¬ (maxChunkSizeBytes MAX_CHUNK_SIZE_MB < 511 * 10 ^ 6) := by
  decide

/-- C24 (amended): the chunk ceiling computed in `create-task-emails.js`,
`MAX_CHUNK_SIZE_BYTES = 500 * 1024 * 1024 = 524288000` bytes, is strictly
below the 511MB limit of the configuration comment when 511MB is read as
`511 * 2^20` bytes, the unit of the computation; it exceeds `511 * 10^6`
bytes, by 13288000 bytes. -/
theorem ceiling_below_binary_limit :
    maxChunkSizeBytes MAX_CHUNK_SIZE_MB = 500 * 1024 * 1024 ∧
    maxChunkSizeBytes MAX_CHUNK_SIZE_MB = 524288000 ∧
    CONFIG.maxChunkBytes = maxChunkSizeBytes MAX_CHUNK_SIZE_MB ∧
    maxChunkSizeBytes MAX_CHUNK_SIZE_MB < 511 * 2 ^ 20 ∧
    maxChunkSizeBytes MAX_CHUNK_SIZE_MB = 511 * 10 ^ 6 + 13288000 := by
  decide

theorem byteLength_join (parts : List String) :
    byteLength (String.join parts) = (parts.map byteLength).sum := by
  have key : ∀ (ps : List String) (acc : String),
      byteLength (ps.foldl (fun r s => r ++ s) acc) = byteLength acc + (ps.map byteLength).sum := by
    intro ps
    induction ps with
    | nil => intro acc; simp
    | cons q qs ih =>
      intro acc
      rw [List.foldl_cons, ih, byteLength_append]
      simp [Nat.add_assoc]
  have := key parts ""
  simpa [String.join, byteLength] using this

theorem statsExact_writeRows (maxChunkBytes : Nat) (hdr : String) (lines : List String) :
    StatsExact (writeRows maxChunkBytes hdr lines) ∧
    (writeRows maxChunkBytes hdr lines).stats.totalCount = lines.length := by
  have key : ∀ (ls : List String) (p : Partition), StatsExact p →
      StatsExact (ls.foldl (writeRow maxChunkBytes hdr) p) ∧
      (ls.foldl (writeRow maxChunkBytes hdr) p).stats.totalCount =
        p.stats.totalCount + ls.length := by
    intro ls
    induction ls with
    | nil => intro p hp; exact ⟨hp, rfl⟩
    | cons l ls ih =>
      intro p hp
      obtain ⟨h1, h2, h3⟩ := hp
      have hrows := allRows_writeRow maxChunkBytes hdr p l h3
      have hstep : StatsExact (writeRow maxChunkBytes hdr p l) ∧
          (writeRow maxChunkBytes hdr p l).stats.totalCount = p.stats.totalCount + 1 := by
        refine ⟨⟨?_, ?_, hrows.2⟩, ?_⟩
        · unfold writeRow
          by_cases hc : p.stats.currentSize > 0 ∧
              p.stats.currentSize + byteLength (l ++ "\n") > maxChunkBytes
          · simp [hc, ChunkFile.serializedSize]
          · simp only [hc, if_false]
            simp [ChunkFile.serializedSize, h1]
        · rw [hrows.1, List.length_append, ← h2]
          unfold writeRow
          by_cases hc : p.stats.currentSize > 0 ∧
              p.stats.currentSize + byteLength (l ++ "\n") > maxChunkBytes
          · simp [hc]
          · simp [hc]
        · unfold writeRow
          by_cases hc : p.stats.currentSize > 0 ∧
              p.stats.currentSize + byteLength (l ++ "\n") > maxChunkBytes
          · simp [hc]
          · simp [hc]
      obtain ⟨i1, i2⟩ := ih _ hstep.1
      refine ⟨i1, ?_⟩
      rw [List.foldl_cons, i2, hstep.2, List.length_cons]
      omega
  have hinit : StatsExact (initPartition hdr) := by
    refine ⟨?_, ?_, by simp [initPartition]⟩
    · simp [initPartition, ChunkFile.serializedSize]
    · simp [initPartition, Partition.allRows, Partition.chunks, ChunkFile.rows]
  obtain ⟨k1, k2⟩ := key lines _ hinit
  refine ⟨k1, ?_⟩
  unfold writeRows
  rw [k2]
  simp [initPartition]

/-- C26: after the setup and after every write (that is, after every sequence
of rows written), `stats.currentSize` of a partition is the exact number of
UTF-8 bytes written so far to its current chunk file, the header's bytes plus
the bytes of the rows appended since the chunk was opened, and
`stats.totalCount` is the number of rows written to the partition across all
its chunks; this holds of every partition at the end of every run of
`main`. -/
theorem stats_are_exact (maxChunkBytes : Nat) (emailHeadersString0 : String)
    (lines : List String) (cfg : Config) (disk : Disk) :
    (writeRows maxChunkBytes emailHeadersString0 lines).stats.currentSize =
      byteLength (writeRows maxChunkBytes emailHeadersString0 lines).writer.content ∧
    byteLength (writeRows maxChunkBytes emailHeadersString0 lines).writer.content =
      byteLength emailHeadersString0 +
        ((writeRows maxChunkBytes emailHeadersString0 lines).writer.rows.map byteLength).sum ∧
    (writeRows maxChunkBytes emailHeadersString0 lines).stats.totalCount = lines.length ∧
    (writeRows maxChunkBytes emailHeadersString0 lines).stats.totalCount =
      (writeRows maxChunkBytes emailHeadersString0 lines).allRows.length ∧
    (∀ out, main cfg disk = .ok out → ∀ t p, out.get t = some p →
      p.stats.currentSize = byteLength p.writer.content ∧
      p.stats.totalCount = p.allRows.length) := by
  have h := statsExact_writeRows maxChunkBytes emailHeadersString0 lines
  have hn := chunkNumbering_writeRows maxChunkBytes emailHeadersString0 lines
  refine ⟨?_, ?_, h.2, h.1.2.1, ?_⟩
  · rw [ChunkFile.content, byteLength_join]
    exact h.1.1
  · rw [ChunkFile.content, byteLength_join]
    have hw := hn.2.2.2 (writeRows maxChunkBytes emailHeadersString0 lines).writer
      (by simp [Partition.chunks])
    cases hws : (writeRows maxChunkBytes emailHeadersString0 lines).writer.writes with
    | nil => simp [hws] at hw
    | cons w ws =>
      simp only [hws, List.head?_cons, Option.some.injEq] at hw
      simp [ChunkFile.rows, hws, hw]
  · intro out hmain t p hp
    obtain ⟨ls, hl⟩ := main_partitions_written cfg disk out hmain t p hp
    subst hl
    have h2 := statsExact_writeRows cfg.maxChunkBytes emailHeadersString ls
    refine ⟨?_, h2.1.2.1⟩
    rw [ChunkFile.content, byteLength_join]
    exact h2.1.1

end CreateTaskEmails

/-! ## `create-activities.js`: the type filter and the meeting end time -/

namespace CreateActivities

/-- A `Type` listed in `TYPE_MAP` is looked up as the engagement type under
which it is listed. -/
theorem lookupType_listed :
    ∀ entry ∈ TYPE_MAP, ∀ sfType ∈ entry.2, lookupType (some sfType) = .own entry.1 := by
  decide

/-- An event whose `Type` is neither listed in `TYPE_MAP` nor the name of a
member of `Object.prototype` is ignored. -/
theorem processEvent_unlisted_ignored (pl : Platform) (sfToHsIdMap : SfToHsIdMap)
    (st : LoopState) (event : JsObject)
    (hunlisted : reverseTypeMap.get ((event.get "Type").getD "undefined") = none)
    (hown : (event.get "Type").getD "undefined" ∉ objectPrototypeKeys) :
    processEvent pl sfToHsIdMap st event = .ok st := by
  have : lookupType (event.get "Type") = .undefined := by
    simp [lookupType, hunlisted, hown]
  simp [processEvent, this]

/-- C22 (failing input): the three mapping tables and `Event.csv` exist.  The
`Type` of the second event, `toString`, is not one of the strings listed in
`TYPE_MAP`, and the event is linked to a mapped contact.  The read
`reverseTypeMap[event.Type]` finds the member inherited from
`Object.prototype`, the event is not ignored, and `main` fails with a
`TypeError` without writing the row of the call before it; an event of an
unlisted `Type` that is not such a name is ignored. -/
theorem unlisted_type_not_ignored :
    "toString" ∉ TYPE_MAP.flatMap (fun entry => entry.2) ∧
    lookupType (exampleUnlistedEvent.get "Type") = .inherited "toString" ∧
    Node.loadMappers (FileSystem.toDisk exampleUnlistedType) =
      .ok [("001", [("001A", "202")]), ("003", [("003C", "101")]), ("00Q", []), ("006", []),
           ("500", [])] ∧
    processEvent examplePlatform (loadMappers exampleUnlistedType)
        { heap := [], outputData := initialOutputData } exampleUnlistedEvent =
      .error "TypeError: Cannot read properties of undefined" ∧
    main examplePlatform (FileSystem.toDisk exampleUnlistedType) =
      .error "TypeError: Cannot read properties of undefined" ∧
    processEvent examplePlatform (loadMappers exampleUnlistedType)
        { heap := [], outputData := initialOutputData } exampleOtherEvent =
      .ok { heap := [], outputData := initialOutputData } := by
  refine ⟨by decide, by decide, rfl, rfl, rfl, rfl⟩

/-- C25 (counterexample): the activity date of the meeting parses, to
`t = 1704067200000`, and `DurationInMinutes` parses to
`d = 999999999999999`; `t + 60000 * d` is beyond the range of dates, the end
time is an invalid date, and the row is not built: `toISOString` throws. -/
theorem meeting_end_time_out_of_range :
    newDate examplePlatformParseInt (exampleEndlessMeeting.get "ActivityDateTime") =
      some 1704067200000 ∧
    jsParseInt10 (exampleEndlessMeeting.get "DurationInMinutes") = some 999999999999999 ∧
    timeClip (1704067200000 + 999999999999999 * 60000) = none ∧
    buildRowData examplePlatformParseInt (.own "meetings") exampleEndlessMeeting =
      .error "RangeError: Invalid time value" := by
  refine ⟨by decide, by decide, by decide, rfl⟩

theorem jsParseInt10_undefined : jsParseInt10 none = none := by decide

/-- C25 (amended): in `create-activities.js`, for every meeting event whose
activity date parses to the epoch-millisecond value `t`, where the activity
date used is `ActivityDateTime` when non-empty and `CreatedDate` otherwise,
and with `d` the integer parsed (base 10) from `DurationInMinutes`, `d = 0`
when nothing parses (the field absent or without leading digits) or it parses
to 0: provided `t + 60000 * d` is within the range of dates (at most
8640000000000000 ms from the epoch), the row is built, its
`Meeting start time` is the instant `t` and its `Meeting end time` the
instant `t + 60000 * d`.  The range is exactly that one: beyond it no row is
built. -/
theorem meeting_end_time (pl : Platform) (event : JsObject) (t : Int)
    (hparse : pl.parseInt10 (event.get "DurationInMinutes") =
      jsParseInt10 (event.get "DurationInMinutes"))
    (hstart : newDate pl
      (if truthy (event.get "ActivityDateTime") then event.get "ActivityDateTime"
       else event.get "CreatedDate") = some t) :
    ((-8640000000000000 ≤ t + 60000 * (jsParseInt10 (event.get "DurationInMinutes")).getD 0
        ∧ t + 60000 * (jsParseInt10 (event.get "DurationInMinutes")).getD 0 ≤ 8640000000000000) →
      buildRowData pl (.own "meetings") event =
        .ok [("Record ID", some ""), ("Meeting description", event.get "Description"),
             ("Activity date",
               if truthy (event.get "ActivityDateTime") then event.get "ActivityDateTime"
               else event.get "CreatedDate"),
             ("Meeting start time", some (pl.toISOString t)),
             ("Meeting end time",
               some (pl.toISOString
                 (t + 60000 * (jsParseInt10 (event.get "DurationInMinutes")).getD 0))),
             ("Meeting title", event.get "Subject")]) ∧
    (¬ (-8640000000000000 ≤ t + 60000 * (jsParseInt10 (event.get "DurationInMinutes")).getD 0
        ∧ t + 60000 * (jsParseInt10 (event.get "DurationInMinutes")).getD 0 ≤ 8640000000000000) →
      buildRowData pl (.own "meetings") event = .error "RangeError: Invalid time value") ∧
    (event.get "DurationInMinutes" = none →
      (jsParseInt10 (event.get "DurationInMinutes")).getD 0 = 0) ∧
    (jsParseInt10 (event.get "DurationInMinutes") = none →
      (jsParseInt10 (event.get "DurationInMinutes")).getD 0 = 0) ∧
    ((jsParseInt10 (event.get "DurationInMinutes")).getD 0 = 0 →
      t + 60000 * (jsParseInt10 (event.get "DurationInMinutes")).getD 0 = t) := by
  have hd : (match pl.parseInt10 (event.get "DurationInMinutes") with
      | some n => n
      | none => 0) = (jsParseInt10 (event.get "DurationInMinutes")).getD 0 := by
    rw [hparse]
    cases jsParseInt10 (event.get "DurationInMinutes") <;> rfl
  have hcomm : (jsParseInt10 (event.get "DurationInMinutes")).getD 0 * 60000 =
      60000 * (jsParseInt10 (event.get "DurationInMinutes")).getD 0 := Int.mul_comm _ _
  have hne1 : ¬ (TypeLookup.own "meetings" = TypeLookup.own "calls") := by decide
  refine ⟨?_, ?_, ?_, ?_, ?_⟩
  · intro hrange
    have hclip : timeClip (t + (jsParseInt10 (event.get "DurationInMinutes")).getD 0 * 60000) =
        some (t + 60000 * (jsParseInt10 (event.get "DurationInMinutes")).getD 0) := by
      rw [hcomm]
      simp [timeClip, hrange.1, hrange.2]
    simp only [buildRowData, hne1, if_false, if_true, hstart, hd,
      CreateActivities.toISOString]
    have hbind : ((some t).bind fun a =>
        timeClip (a + (jsParseInt10 (event.get "DurationInMinutes")).getD 0 * 60000)) =
        some (t + 60000 * (jsParseInt10 (event.get "DurationInMinutes")).getD 0) := hclip
    rw [hbind]
  · intro hrange
    have hclip : timeClip (t + (jsParseInt10 (event.get "DurationInMinutes")).getD 0 * 60000) =
        none := by
      rw [hcomm]
      unfold timeClip
      rw [if_neg hrange]
    simp only [buildRowData, hne1, if_false, if_true, hstart, hd,
      CreateActivities.toISOString]
    have hbind : ((some t).bind fun a =>
        timeClip (a + (jsParseInt10 (event.get "DurationInMinutes")).getD 0 * 60000)) =
        none := hclip
    rw [hbind]
  · intro h
    rw [h]
    decide
  · intro h
    rw [h]
    rfl
  · intro h
    rw [h]
    simp

/-- Witness for C25 (amended): a meeting of 30 minutes, and a meeting whose
end lies beyond the range of dates. -/
theorem meeting_end_time_witness :
    newDate examplePlatformParseInt
      (if truthy (exampleMeeting.get "ActivityDateTime") then
        exampleMeeting.get "ActivityDateTime"
       else exampleMeeting.get "CreatedDate") = some 1704067200000 ∧
    (jsParseInt10 (exampleMeeting.get "DurationInMinutes")).getD 0 = 30 ∧
    buildRowData examplePlatformParseInt (.own "meetings") exampleMeeting =
      .ok [("Record ID", some ""), ("Meeting description", exampleMeeting.get "Description"),
           ("Activity date",
             if truthy (exampleMeeting.get "ActivityDateTime") then
               exampleMeeting.get "ActivityDateTime"
             else exampleMeeting.get "CreatedDate"),
           ("Meeting start time", some (examplePlatformParseInt.toISOString 1704067200000)),
           ("Meeting end time",
             some (examplePlatformParseInt.toISOString
               (1704067200000 +
                 60000 * (jsParseInt10 (exampleMeeting.get "DurationInMinutes")).getD 0))),
           ("Meeting title", exampleMeeting.get "Subject")] ∧
    examplePlatformParseInt.toISOString (1704067200000 + 60000 * 30) =
      "2024-01-01T00:30:00.000Z" ∧
    buildRowData examplePlatformParseInt (.own "meetings") exampleEndlessMeeting =
      .error "RangeError: Invalid time value" :=
  ⟨by decide, by decide,
   (meeting_end_time examplePlatformParseInt exampleMeeting 1704067200000 rfl (by decide)).1
      (by decide),
   by decide,
   (meeting_end_time examplePlatformParseInt exampleEndlessMeeting 1704067200000 rfl
      (by decide)).2.1 (by decide)⟩

end CreateActivities
/-! ## `create-classic-notes.js`: one row per resolved note -/

theorem resolve_loadMappers_fed (fs : FileSystem) (p id : String)
    (h : truthy (resolve (loadMappers fs) p id) = true) :
    p ∈ ["001", "003", "00Q", "006"] := by
  by_contra hp
  have hnone := loadMappers_unfed_prefix_empty fs p id (by simpa [mappersToLoad] using hp)
  rw [hnone] at h
  cases h

namespace CreateClassicNotes

theorem objectTypeOf_fed (p : String) (hp : p ∈ ["001", "003", "00Q", "006"]) :
    objectTypeOf p ≠ "other" ∧ objectTypeOf p ∈ ["companies", "contacts", "deals"] := by
  simp only [List.mem_cons, List.mem_singleton, List.not_mem_nil, or_false] at hp
  rcases hp with h | h | h | h <;> subst h <;> decide

/-- C23: in `main` of `create-classic-notes.js` each note emits at most one
row.  It emits a row if and only if `ParentId` is non-empty, `IsDeleted` is
not `'1'` and the sub-map of the index for the first three characters of
`ParentId` maps `ParentId` to a non-empty destination id.  The row is
appended to the partition given by those characters (`001` companies, `003`
and `00Q` contacts, `006` deals, anything else `other`) and reads back with
the destination id as its first field.  With an index built by `loadMappers`
the partition `other` never receives a row. -/
theorem classic_note_row (sfToHsIdMap : SfToHsIdMap) (outputData : JsMap (List String))
    (note : JsObject)
    (hkeys : ∀ t ∈ ["contacts", "companies", "deals", "other"], (outputData.get t).isSome = true) :
    (¬ (truthy (note.get "ParentId") = true ∧ note.get "IsDeleted" ≠ some "1" ∧
        truthy (resolve sfToHsIdMap (substring03 ((note.get "ParentId").getD ""))
          ((note.get "ParentId").getD "")) = true) →
      processNote sfToHsIdMap outputData note = .ok outputData) ∧
    (∀ hubspotId, truthy (note.get "ParentId") = true → note.get "IsDeleted" ≠ some "1" →
      resolve sfToHsIdMap (substring03 ((note.get "ParentId").getD ""))
        ((note.get "ParentId").getD "") = some hubspotId → hubspotId ≠ "" →
      ∃ data, outputData.get (objectTypeOf (substring03 ((note.get "ParentId").getD ""))) =
          some data ∧
        processNote sfToHsIdMap outputData note =
          .ok (outputData.set (objectTypeOf (substring03 ((note.get "ParentId").getD "")))
            (data ++ [newRow hubspotId note])) ∧
        (rfc4180ReadRecord (newRow hubspotId note)).map (fun fields => fields.head?) =
          some (some hubspotId)) ∧
    (objectTypeOf "001" = "companies" ∧ objectTypeOf "003" = "contacts" ∧
      objectTypeOf "00Q" = "contacts" ∧ objectTypeOf "006" = "deals") ∧
    (∀ fs out, processNote (loadMappers fs) outputData note = .ok out →
      out.get "other" = outputData.get "other") := by
  refine ⟨?_, ?_, by decide, ?_⟩
  · intro hno
    unfold processNote
    by_cases h1 : ¬ truthy (note.get "ParentId") = true ∨ note.get "IsDeleted" = some "1"
    · rw [if_pos h1]
    · have h1' : truthy (note.get "ParentId") = true ∧ note.get "IsDeleted" ≠ some "1" := by
        constructor
        · by_contra h; exact h1 (Or.inl h)
        · intro h; exact h1 (Or.inr h)
      have h3 : ¬ truthy (resolve sfToHsIdMap (substring03 ((note.get "ParentId").getD ""))
          ((note.get "ParentId").getD "")) = true := fun h => hno ⟨h1'.1, h1'.2, h⟩
      rw [if_neg h1]
      simp only []
      rw [if_neg h3]
  · intro hubspotId hp hdel hres hne
    have hmem : objectTypeOf (substring03 ((note.get "ParentId").getD "")) ∈
        ["contacts", "companies", "deals", "other"] := by
      unfold objectTypeOf
      cases hpm : prefixMap.get (substring03 ((note.get "ParentId").getD "")) with
      | none => simp
      | some v =>
        simp only [prefixMap, JsMap.get] at hpm
        repeat (split at hpm; (· cases hpm; decide))
        cases hpm
    have hsome := hkeys _ hmem
    cases hget : outputData.get (objectTypeOf (substring03 ((note.get "ParentId").getD ""))) with
    | none => simp [hget] at hsome
    | some data =>
      refine ⟨data, rfl, ?_, ?_⟩
      · have h1 : ¬ (¬ truthy (note.get "ParentId") = true ∨ note.get "IsDeleted" = some "1") := by
          intro h
          rcases h with h | h
          · exact h hp
          · exact hdel h
        have ht : truthy (some hubspotId) = true := by simp [truthy, hne]
        simp only [processNote, h1, if_false, hres, ht, if_true, hget, Option.getD_some]
      · have := readRecordFrom_row (noteFields hubspotId note) (by simp [noteFields]) []
        simp only [rfc4180ReadRecord, newRow, this, List.nil_append, Option.map_some']
        simp [noteFields]
  · intro fs out hout
    unfold processNote at hout
    by_cases h1 : ¬ truthy (note.get "ParentId") = true ∨ note.get "IsDeleted" = some "1"
    · simp only [h1, if_true, Except.ok.injEq] at hout
      rw [← hout]
    · simp only [h1, if_false] at hout
      by_cases h3 : truthy (resolve (loadMappers fs) (substring03 ((note.get "ParentId").getD ""))
          ((note.get "ParentId").getD "")) = true
      · have hfed := resolve_loadMappers_fed fs _ _ h3
        have hne := (objectTypeOf_fed _ hfed).1
        simp only [h3, if_true] at hout
        cases hget : outputData.get
            (objectTypeOf (substring03 ((note.get "ParentId").getD ""))) with
        | none => simp [hget] at hout
        | some data =>
          simp only [hget, Except.ok.injEq] at hout
          rw [← hout, JsMap.get_set]
          simp [hne]
      · simp only [h3, Bool.false_eq_true, if_false, Except.ok.injEq] at hout
        rw [← hout]

/-- Witness for C23: a note attached to a mapped contact. -/
theorem classic_note_row_witness :
    (∀ t ∈ ["contacts", "companies", "deals", "other"],
      (initialOutputData.get t).isSome = true) ∧
    truthy (exampleNote.get "ParentId") = true ∧ exampleNote.get "IsDeleted" ≠ some "1" ∧
    resolve (loadMappers CreateActivities.exampleMappers)
      (substring03 ((exampleNote.get "ParentId").getD ""))
      ((exampleNote.get "ParentId").getD "") = some "101" ∧
    (∃ data, initialOutputData.get
        (objectTypeOf (substring03 ((exampleNote.get "ParentId").getD ""))) = some data ∧
      processNote (loadMappers CreateActivities.exampleMappers) initialOutputData exampleNote =
        .ok (initialOutputData.set
          (objectTypeOf (substring03 ((exampleNote.get "ParentId").getD "")))
          (data ++ [newRow "101" exampleNote])) ∧
      (rfc4180ReadRecord (newRow "101" exampleNote)).map (fun fields => fields.head?) =
        some (some "101")) ∧
    objectTypeOf (substring03 ((exampleNote.get "ParentId").getD "")) = "contacts" :=
  ⟨by decide, by decide, by decide, by decide,
   (classic_note_row (loadMappers CreateActivities.exampleMappers) initialOutputData
      exampleNote (by decide)).2.1 "101" (by decide) (by decide) (by decide) (by decide),
   by decide⟩

end CreateClassicNotes

/-! ## `create-import-manifest.js`: manifest entries -/

/-- C27 (failing input): the company table holds a row with the source id
`001A` and an empty `Record ID`, and an attachment has `ParentId = "001A"`.
`loadMappers` of `create-import-manifest.js` stores the empty id and
`processFiles` pushes a manifest entry whose `hubspot_id` is the empty
string, where the claim asks for none; with the `loadMappers` of the other
scripts the same row is not inserted and the same id yields no
association. -/
theorem manifest_entry_with_empty_hubspot_id :
    ((CreateImportManifest.loadMappers CreateImportManifest.exampleEmptyRecordId).bind
      (fun sfToHsIdMap =>
        CreateImportManifest.processFiles "Attachments"
          [CreateImportManifest.exampleAttachment] sfToHsIdMap
          CreateImportManifest.initialManifest)) =
      .ok [("companies",
            [{ hubspot_id := some "", original_sf_id := "001A",
               salesforce_file_id := some "00P1", file_location := "../Attachments",
               original_filename := some "a.pdf" }]),
           ("contacts", []), ("deals", [])] ∧
    resolve (loadMappers CreateImportManifest.exampleEmptyRecordId) "001" "001A" = none ∧
    associations (loadMappers CreateImportManifest.exampleEmptyRecordId)
      [("AccountId", "001A")] = [] := by
  refine ⟨rfl, by decide, by decide⟩

/-! ## The two document-to-entity maps -/

theorem JsMap.has_set {α : Type} (m : JsMap α) (k : String) (v : α) (k2 : String) :
    (m.set k v).has k2 = (if k = k2 then true else m.has k2) := by
  rw [JsMap.has_eq_isSome_get, JsMap.get_set, JsMap.has_eq_isSome_get]
  by_cases h : k = k2 <;> simp [h]

namespace CreateSnotes

theorem loadLink_get_of_has (m : JsMap String) (row : JsObject) (d : String)
    (h : m.has d = true) : (loadLink m row).get d = m.get d ∧ (loadLink m row).has d = true := by
  unfold loadLink
  split
  · rename_i docId entityId _ _
    split
    · rename_i hc
      have hne : ¬ docId = d := by
        intro e
        rw [e, h] at hc
        exact absurd hc.2.2 (by simp)
      rw [JsMap.get_set, JsMap.has_set]
      simp [hne, h]
    · exact ⟨rfl, h⟩
  · exact ⟨rfl, h⟩

theorem foldl_loadLink_get_of_has (rows : List JsObject) (m : JsMap String) (d : String)
    (h : m.has d = true) : (rows.foldl loadLink m).get d = m.get d := by
  induction rows generalizing m with
  | nil => rfl
  | cons r rs ih =>
    have hstep := loadLink_get_of_has m r d h
    rw [List.foldl_cons, ih _ hstep.2, hstep.1]

theorem foldl_loadLink_get_of_no_row (rows : List JsObject) (m : JsMap String) (d : String)
    (hno : ∀ r ∈ rows, ¬ (r.get "ContentDocumentId" = some d ∧
      truthy (r.get "LinkedEntityId") = true)) :
    (rows.foldl loadLink m).get d = m.get d := by
  induction rows generalizing m with
  | nil => rfl
  | cons r rs ih =>
    rw [List.foldl_cons, ih _ (fun x hx => hno x (by simp [hx]))]
    have hr := hno r (by simp)
    unfold loadLink
    split
    · rename_i docId entityId hd he
      split
      · rename_i hc
        have hne : ¬ docId = d := by
          intro e
          apply hr
          rw [hd, he, e]
          exact ⟨rfl, hc.2.1⟩
        rw [JsMap.get_set]
        simp [hne]
      · rfl
    · rfl

/-- In `create-snotes.js` the first link row of a document that has a
non-empty entity wins. -/
theorem docIdToEntityIdMap_first (pre : List JsObject) (row : JsObject) (post : List JsObject)
    (d e : String) (hd : d ≠ "") (he : e ≠ "")
    (hrow : row.get "ContentDocumentId" = some d ∧ row.get "LinkedEntityId" = some e)
    (hpre : ∀ r ∈ pre, ¬ (r.get "ContentDocumentId" = some d ∧
      truthy (r.get "LinkedEntityId") = true)) :
    (docIdToEntityIdMap (pre ++ row :: post)).get d = some e := by
  unfold docIdToEntityIdMap
  rw [List.foldl_append, List.foldl_cons]
  have h0 : (pre.foldl loadLink []).get d = none := by
    rw [foldl_loadLink_get_of_no_row pre [] d hpre]; rfl
  have hhas : (pre.foldl loadLink []).has d = false := by
    rw [JsMap.has_eq_isSome_get, h0]; rfl
  have htd : truthy (some d) = true := by simp [truthy, hd]
  have hte : truthy (some e) = true := by simp [truthy, he]
  have hstep : loadLink (pre.foldl loadLink []) row = (pre.foldl loadLink []).set d e := by
    simp [loadLink, hrow.1, hrow.2, htd, hte, hhas]
  rw [hstep, foldl_loadLink_get_of_has post _ d (by rw [JsMap.has_set]; simp), JsMap.get_set]
  simp

end CreateSnotes

namespace CreateImportManifest

theorem entriesGet_last (pre : List (Option String × Option String)) (k v : Option String)
    (post : List (Option String × Option String)) (hpost : ∀ e ∈ post, e.1 ≠ k) :
    entriesGet (pre ++ (k, v) :: post) k = v := by
  have hany : post.any (fun e => e.1 == k) = false := by
    rw [List.any_eq_false]
    intro e he
    simpa using hpost e he
  induction pre with
  | nil => simp [entriesGet, hany]
  | cons x xs ih =>
    obtain ⟨a, b⟩ := x
    have : (xs ++ (k, v) :: post).any (fun e => e.1 == k) = true := by
      simp [List.any_append]
    simp only [List.cons_append, entriesGet, List.append_eq, this, if_true]
    exact ih

/-- In `create-import-manifest.js` the last link row of a document wins. -/
theorem docLinkGet_last (pre : List JsObject) (row : JsObject) (post : List JsObject)
    (d : Option String) (hrow : row.get "ContentDocumentId" = d)
    (hpost : ∀ r ∈ post, r.get "ContentDocumentId" ≠ d) :
    docLinkGet (pre ++ row :: post) d = row.get "LinkedEntityId" := by
  unfold docLinkGet docLinkEntries
  rw [List.map_append, List.map_cons, hrow]
  apply entriesGet_last
  intro e he
  obtain ⟨r, hr, rfl⟩ := List.mem_map.mp he
  exact hpost r hr

end CreateImportManifest

/-- C28 (counterexample): two link rows for the document `069D`, the first
with entity `003A` and the second with entity `001B`.  The map of
`create-snotes.js` gives `003A`, the map of `create-import-manifest.js`
gives `001B`. -/
theorem doc_link_maps_differ_on_repeated_document :
    (CreateSnotes.docIdToEntityIdMap CreateImportManifest.exampleLinks).get "069D" =
      some "003A" ∧
    CreateImportManifest.docLinkGet CreateImportManifest.exampleLinks (some "069D") =
      some "001B" ∧
    (CreateSnotes.docIdToEntityIdMap CreateImportManifest.exampleLinks).get "069D" ≠
      CreateImportManifest.docLinkGet CreateImportManifest.exampleLinks (some "069D") := by
  decide

/-- C28 (amended): for every list of ContentDocumentLink rows, the map built
by `create-snotes.js` (`docIdToEntityIdMap`) and the one built by
`create-import-manifest.js` (`docLinkMap`) assign the same `LinkedEntityId`
to every non-empty `ContentDocumentId` that appears in exactly one link row
with a non-empty `LinkedEntityId`.  For a document that appears in more than
one link row, `create-snotes.js` keeps the entity of the first row that has
one and `create-import-manifest.js` the entity of the last row. -/
theorem doc_link_maps_agree_on_single_row (pre : List JsObject) (row : JsObject)
    (post : List JsObject) (d e : String) (hd : d ≠ "") (he : e ≠ "")
    (hrow : row.get "ContentDocumentId" = some d ∧ row.get "LinkedEntityId" = some e) :
    ((∀ r ∈ pre, r.get "ContentDocumentId" ≠ some d) →
      (∀ r ∈ post, r.get "ContentDocumentId" ≠ some d) →
      (CreateSnotes.docIdToEntityIdMap (pre ++ row :: post)).get d = some e ∧
      CreateImportManifest.docLinkGet (pre ++ row :: post) (some d) = some e) ∧
    ((∀ r ∈ pre, ¬ (r.get "ContentDocumentId" = some d ∧
        truthy (r.get "LinkedEntityId") = true)) →
      (CreateSnotes.docIdToEntityIdMap (pre ++ row :: post)).get d = some e) ∧
    ((∀ r ∈ post, r.get "ContentDocumentId" ≠ some d) →
      CreateImportManifest.docLinkGet (pre ++ row :: post) (some d) = some e) := by
  refine ⟨?_, ?_, ?_⟩
  · intro hpre hpost
    refine ⟨CreateSnotes.docIdToEntityIdMap_first pre row post d e hd he hrow
      (fun r hr h => hpre r hr h.1), ?_⟩
    rw [CreateImportManifest.docLinkGet_last pre row post (some d) hrow.1 hpost, hrow.2]
  · intro hpre
    exact CreateSnotes.docIdToEntityIdMap_first pre row post d e hd he hrow hpre
  · intro hpost
    rw [CreateImportManifest.docLinkGet_last pre row post (some d) hrow.1 hpost, hrow.2]

/-- Witness for C28 (amended): the second row of the example alone. -/
theorem doc_link_maps_agree_on_single_row_witness :
    ("069D" : String) ≠ "" ∧ ("001B" : String) ≠ "" ∧
    (CreateSnotes.docIdToEntityIdMap
        ([] ++ [("ContentDocumentId", "069D"), ("LinkedEntityId", "001B")] :: [])).get "069D" =
      some "001B" ∧
    CreateImportManifest.docLinkGet
        ([] ++ [("ContentDocumentId", "069D"), ("LinkedEntityId", "001B")] :: [])
        (some "069D") = some "001B" :=
  ⟨by decide, by decide,
   ((doc_link_maps_agree_on_single_row [] [("ContentDocumentId", "069D"),
      ("LinkedEntityId", "001B")] [] "069D" "001B" (by decide) (by decide)
      ⟨by decide, by decide⟩).1 (by simp) (by simp)).1,
   ((doc_link_maps_agree_on_single_row [] [("ContentDocumentId", "069D"),
      ("LinkedEntityId", "001B")] [] "069D" "001B" (by decide) (by decide)
      ⟨by decide, by decide⟩).1 (by simp) (by simp)).2⟩

/-! ## `map-snotes.js`: the mapping loop -/

namespace MapSnotes

theorem mapRows_counts (sfToHsIdMap : SfToHsIdMap) (rows : List JsObject) (res : FileResult) :
    (rows.foldl (mapRow sfToHsIdMap) res).mappedCount =
      res.mappedCount + rows.countP (fun row => truthy (hubspotIdOf sfToHsIdMap row)) ∧
    (rows.foldl (mapRow sfToHsIdMap) res).unmappedCount =
      res.unmappedCount + rows.countP (fun row => !truthy (hubspotIdOf sfToHsIdMap row)) ∧
    (rows.foldl (mapRow sfToHsIdMap) res).newCsvRows.length =
      res.newCsvRows.length + rows.countP (fun row => truthy (hubspotIdOf sfToHsIdMap row)) := by
  induction rows generalizing res with
  | nil => simp
  | cons r rs ih =>
    obtain ⟨i1, i2, i3⟩ := ih (mapRow sfToHsIdMap res r)
    rw [List.foldl_cons, i1, i2, i3]
    by_cases h : truthy (hubspotIdOf sfToHsIdMap r) = true
    · simp [mapRow, h, List.countP_cons]
      omega
    · have hf : truthy (hubspotIdOf sfToHsIdMap r) = false := by simpa using h
      simp [mapRow, hf, List.countP_cons]
      omega

/-- C29: in `map-snotes.js`, with an index built by `loadMappers`, a note row
is mapped only if the first three characters of its `Association ID` are one
of `001`, `003`, `00Q`, `006` and the id is a key of the sub-map of those
characters; `mappedCount + unmappedCount` equals the number of input rows,
`mappedCount` being the number of mapped rows; and for an input file all of
whose `Association ID`s have other first characters `mappedCount` is 0 and no
output file is written. -/
theorem mapped_only_under_fed_prefixes (fs : FileSystem) (noteRows : List JsObject) :
    (∀ row, truthy (hubspotIdOf (loadMappers fs) row) = true →
      idPre (row.get "Association ID") ∈ ["001", "003", "00Q", "006"] ∧
      (resolve (loadMappers fs) (idPre (row.get "Association ID"))
        ((row.get "Association ID").getD "")).isSome = true) ∧
    (mapNoteRows (loadMappers fs) noteRows).mappedCount +
      (mapNoteRows (loadMappers fs) noteRows).unmappedCount = noteRows.length ∧
    (mapNoteRows (loadMappers fs) noteRows).mappedCount =
      noteRows.countP (fun row => truthy (hubspotIdOf (loadMappers fs) row)) ∧
    ((∀ row ∈ noteRows, idPre (row.get "Association ID") ∉ ["001", "003", "00Q", "006"]) →
      (mapNoteRows (loadMappers fs) noteRows).mappedCount = 0 ∧
      outputFile (mapNoteRows (loadMappers fs) noteRows) = none) := by
  have hrow : ∀ row, truthy (hubspotIdOf (loadMappers fs) row) = true →
      idPre (row.get "Association ID") ∈ ["001", "003", "00Q", "006"] ∧
      (resolve (loadMappers fs) (idPre (row.get "Association ID"))
        ((row.get "Association ID").getD "")).isSome = true := by
    intro row h
    unfold hubspotIdOf at h
    cases hid : row.get "Association ID" with
    | none => simp [hid, truthy] at h
    | some sfId =>
      simp only [hid] at h
      refine ⟨resolve_loadMappers_fed fs _ _ h, ?_⟩
      simp only [Option.getD_some]
      cases hr : resolve (loadMappers fs) (idPre (some sfId)) sfId with
      | none => simp [hr, truthy] at h
      | some v => rfl
  have hc := mapRows_counts (loadMappers fs) noteRows
    { newCsvRows := [header], mappedCount := 0, unmappedCount := 0 }
  have hm : (mapNoteRows (loadMappers fs) noteRows).mappedCount =
      noteRows.countP (fun row => truthy (hubspotIdOf (loadMappers fs) row)) := by
    simpa [mapNoteRows] using hc.1
  have hu : (mapNoteRows (loadMappers fs) noteRows).unmappedCount =
      noteRows.countP (fun row => !truthy (hubspotIdOf (loadMappers fs) row)) := by
    simpa [mapNoteRows] using hc.2.1
  refine ⟨hrow, ?_, hm, ?_⟩
  · rw [hm, hu]
    have := List.length_eq_countP_add_countP
      (fun row => truthy (hubspotIdOf (loadMappers fs) row)) noteRows
    simp only [Bool.not_eq_true, Bool.decide_eq_false] at this
    omega
  · intro hall
    have h0 : (mapNoteRows (loadMappers fs) noteRows).mappedCount = 0 := by
      rw [hm, List.countP_eq_zero]
      intro row hmem ht
      exact hall row hmem (hrow row ht).1
    exact ⟨h0, by simp [outputFile, h0]⟩

/-- Witness for C29: a file of case ids, user ids and an empty id. -/
theorem mapped_only_under_fed_prefixes_witness :
    (∀ row ∈ exampleOtherRows,
      idPre (row.get "Association ID") ∉ ["001", "003", "00Q", "006"]) ∧
    (mapNoteRows (loadMappers CreateActivities.exampleMappers) exampleOtherRows).mappedCount = 0 ∧
    outputFile (mapNoteRows (loadMappers CreateActivities.exampleMappers) exampleOtherRows) =
      none ∧
    (mapNoteRows (loadMappers CreateActivities.exampleMappers) exampleOtherRows).unmappedCount =
      3 :=
  ⟨by decide,
   ((mapped_only_under_fed_prefixes CreateActivities.exampleMappers exampleOtherRows).2.2.2
      (by decide)).1,
   ((mapped_only_under_fed_prefixes CreateActivities.exampleMappers exampleOtherRows).2.2.2
      (by decide)).2,
   by decide⟩

end MapSnotes

/-! ## The names the renamers give and `findFileById` -/

theorem jsStartsWith_append (a b : String) : jsStartsWith (a ++ b) a = true := by
  unfold jsStartsWith
  rw [String.data_append]
  exact startsWithChars_append _ _

theorem eq_of_jsStartsWith_of_length (id1 id2 rest : String)
    (h : jsStartsWith (id2 ++ rest) id1 = true) (hlen : id1.length = id2.length) :
    id1 = id2 := by
  unfold jsStartsWith at h
  rw [String.data_append] at h
  obtain ⟨r, hr⟩ := (startsWithChars_iff _ _).mp h
  have hl : id2.data.length = id1.data.length := hlen.symm
  exact String.ext (List.append_inj hr hl).1.symm

theorem utf16Size_pos (c : Char) : 1 ≤ utf16Size c := by
  unfold utf16Size
  split <;> omega

theorem eq_of_prefix_of_jsLength (a b r1 r2 : List Char) (h : a ++ r1 = b ++ r2)
    (hlen : (a.map utf16Size).sum = (b.map utf16Size).sum) : a = b := by
  induction a generalizing b with
  | nil =>
    cases b with
    | nil => rfl
    | cons d ds =>
      have := utf16Size_pos d
      simp only [List.map_nil, List.sum_nil, List.map_cons, List.sum_cons] at hlen
      omega
  | cons c cs ih =>
    cases b with
    | nil =>
      have := utf16Size_pos c
      simp only [List.map_nil, List.sum_nil, List.map_cons, List.sum_cons] at hlen
      omega
    | cons d ds =>
      simp only [List.cons_append, List.cons.injEq] at h
      obtain ⟨hcd, htl⟩ := h
      subst hcd
      simp only [List.map_cons, List.sum_cons] at hlen
      rw [ih ds htl (by omega)]

theorem eq_of_jsStartsWith_of_jsLength (id1 id2 rest : String)
    (h : jsStartsWith (id2 ++ rest) id1 = true) (hlen : jsLength id1 = jsLength id2) :
    id1 = id2 := by
  unfold jsStartsWith at h
  rw [String.data_append] at h
  obtain ⟨r, hr⟩ := (startsWithChars_iff _ _).mp h
  exact String.ext (eq_of_prefix_of_jsLength id1.data id2.data r rest.data hr.symm hlen)

theorem mem_utf16Take (n : Nat) (cs : List Char) (c : Char) (h : c ∈ utf16Take n cs) :
    c ∈ cs ∨ c = Char.ofNat 0xFFFD := by
  induction cs generalizing n with
  | nil => cases n <;> simp [utf16Take] at h
  | cons d ds ih =>
    cases n with
    | zero => simp [utf16Take] at h
    | succ m =>
      unfold utf16Take at h
      split at h
      · rcases List.mem_cons.mp h with h1 | h1
        · exact Or.inl (by simp [h1])
        · rcases ih m h1 with h2 | h2
          · exact Or.inl (by simp [h2])
          · exact Or.inr h2
      · split at h
        · right
          simpa using h
        · rcases List.mem_cons.mp h with h1 | h1
          · exact Or.inl (by simp [h1])
          · rcases ih (m - 1) h1 with h2 | h2
            · exact Or.inl (by simp [h2])
            · exact Or.inr h2

theorem sanitizeFilename_clean (s : String) (k : Nat) :
    (∀ c ∈ (sanitizeFilename s).data, c ∉ ['<', '>', ':', '"', '/', '\\', '|', '?', '*']) ∧
    (∀ c ∈ (String.mk (utf16Take k (sanitizeFilename s).data)).data,
      c ∉ ['<', '>', ':', '"', '/', '\\', '|', '?', '*']) := by
  have h1 : ∀ c ∈ (sanitizeFilename s).data,
      c ∉ ['<', '>', ':', '"', '/', '\\', '|', '?', '*'] := by
    intro c hc
    simp only [sanitizeFilename, List.mem_map] at hc
    obtain ⟨x, _, rfl⟩ := hc
    by_cases hx : x ∈ ['<', '>', ':', '"', '/', '\\', '|', '?', '*']
    · rw [if_pos hx]; decide
    · rw [if_neg hx]; exact hx
  refine ⟨h1, fun c hc => ?_⟩
  rcases mem_utf16Take k _ c hc with h | h
  · exact h1 c h
  · rw [h]; decide

namespace Renamer

theorem attachmentNewFileName_some (pl : Platform) (fileMetadata : JsMap AttachmentMeta)
    (f n : String) (h : attachmentNewFileName pl fileMetadata f = some n) :
    ∃ entry extension, fileMetadata.get (jsTrim f) = some entry ∧
      inferExtension pl entry (pl.pathJoin attachmentsDirectory f) = some extension ∧
      extension ≠ "" ∧
      n = jsTrim f ++ " -- " ++ sanitizeFilename (pl.parseName entry.name) ++ "." ++
        extension := by
  unfold attachmentNewFileName at h
  split at h
  · cases h
  · simp only at h
    split at h
    · cases h
    · rename_i entry hget
      split at h
      · cases h
      · rename_i ht
        cases hext : inferExtension pl entry (pl.pathJoin attachmentsDirectory f) with
        | none => rw [hext] at ht; exact absurd truthy_none (by simpa using ht)
        | some extension =>
          rw [hext] at ht h
          simp only [Option.some.injEq, Option.getD_some] at h
          refine ⟨entry, extension, hget, hext, ?_, h.symm⟩
          exact (truthy_some_iff extension).mp (by simpa using ht)

theorem contentVersionNewFileName_some (pl : Platform)
    (fileMetadata : JsMap ContentVersionMeta) (f n : String)
    (h : contentVersionNewFileName pl fileMetadata f = some n) :
    ∃ entry, fileMetadata.get (jsTrim f) = some entry ∧
      String.mk ((pl.extname entry.pathOnClient).data.drop 1) ≠ "" ∧
      n = jsTrim f ++ " -- " ++
        (if jsLength (sanitizeFilename (pl.parseName entry.title)) > MAX_FILENAME_BODY_LENGTH then
          String.mk (utf16Take MAX_FILENAME_BODY_LENGTH
            (sanitizeFilename (pl.parseName entry.title)).data)
        else sanitizeFilename (pl.parseName entry.title)) ++ "." ++
        String.mk ((pl.extname entry.pathOnClient).data.drop 1) := by
  unfold contentVersionNewFileName at h
  split at h
  · cases h
  · simp only at h
    split at h
    · cases h
    · rename_i entry hget
      split at h
      · cases h
      · rename_i hne
        simp only [Option.some.injEq] at h
        exact ⟨entry, hget, hne, h.symm⟩

/-- A listing made of names `id -- rest` over pairwise distinct ids none of
which begins a name of another: the first name that starts with an id is the
name of that id. -/
theorem find?_renamed (newFileName : String → Option String)
    (hname : ∀ f n, newFileName f = some n → ∃ rest, n = jsTrim f ++ rest)
    (renamedFiles : List String)
    (hdistinct : (renamedFiles.map jsTrim).Nodup)
    (hsame : ∀ f ∈ renamedFiles, ∀ g ∈ renamedFiles, ∀ rest,
      jsStartsWith (jsTrim g ++ rest) (jsTrim f) = true → jsTrim f = jsTrim g)
    (f : String) (hf : f ∈ renamedFiles) (n : String) (hn : newFileName f = some n) :
    (renamedFiles.filterMap newFileName).find? (fun file => jsStartsWith file (jsTrim f)) =
      some n := by
  obtain ⟨pre, post, rfl⟩ := List.append_of_mem hf
  rw [List.filterMap_append, List.filterMap_cons, hn]
  apply ImportFiles.find?_split
  · intro y hy
    obtain ⟨g, hg, hgy⟩ := List.mem_filterMap.mp hy
    obtain ⟨rest, rfl⟩ := hname g y hgy
    cases hs : jsStartsWith (jsTrim g ++ rest) (jsTrim f) with
    | false => rfl
    | true =>
      exfalso
      have heq := hsame f (by simp) g (by simp [hg]) rest hs
      rw [List.map_append, List.map_cons] at hdistinct
      have hdis := (List.nodup_append.mp hdistinct).2.2
      exact hdis (List.mem_map.mpr ⟨g, hg, rfl⟩) (by rw [heq]; simp)
  · obtain ⟨rest, rfl⟩ := hname f n hn
    exact jsStartsWith_append _ _

theorem findFileById_renamed (newFileName : String → Option String)
    (hname : ∀ f n, newFileName f = some n → ∃ rest, n = jsTrim f ++ " -- " ++ rest)
    (pathJoin : String → String → String) (readdir : String → Except String (List String))
    (dirPath : String) (renamedFiles : List String)
    (hlisting : readdir dirPath = .ok (renamedFiles.filterMap newFileName))
    (hdistinct : (renamedFiles.map jsTrim).Nodup)
    (hlen : (∀ f ∈ renamedFiles, (jsTrim f).length = 18) ∨
      (∀ f ∈ renamedFiles, jsLength (jsTrim f) = 18))
    (f : String) (hf : f ∈ renamedFiles) (n : String) (hn : newFileName f = some n) :
    ImportFiles.findFileById pathJoin readdir dirPath (jsTrim f) = some (pathJoin dirPath n) := by
  have hsame : ∀ f ∈ renamedFiles, ∀ g ∈ renamedFiles, ∀ rest,
      jsStartsWith (jsTrim g ++ rest) (jsTrim f) = true → jsTrim f = jsTrim g := by
    intro f1 hf1 g hg rest hs
    rcases hlen with h | h
    · exact eq_of_jsStartsWith_of_length _ _ rest hs (by rw [h f1 hf1, h g hg])
    · exact eq_of_jsStartsWith_of_jsLength _ _ rest hs (by rw [h f1 hf1, h g hg])
  have hfind := find?_renamed newFileName
    (fun g m hg => by
      obtain ⟨rest, hr⟩ := hname g m hg
      exact ⟨" -- " ++ rest, by rw [hr, String.append_assoc]⟩)
    renamedFiles hdistinct hsame f hf n hn
  obtain ⟨rest, hr⟩ := hname f n hn
  have hne : n ≠ "" := by
    intro h0
    have := congrArg String.length (hr.symm.trans h0)
    simp only [String.length_append] at this
    have h4 : (" -- " : String).length = 4 := by decide
    have h00 : ("" : String).length = 0 := by decide
    omega
  unfold ImportFiles.findFileById
  rw [hlisting]
  simp only [hfind, Option.getD_some]
  rw [if_pos ((truthy_some_iff n).mpr hne)]

/-- The name `attachment-renamer.js` gives to a file that is not yet renamed,
is matched by the metadata and has an extension. -/
theorem attachmentNewFileName_of_entry (pl : Platform) (fileMetadata : JsMap AttachmentMeta)
    (f : String) (entry : AttachmentMeta) (extension : String)
    (hmarker : jsIncludes f " -- " = false)
    (hget : fileMetadata.get (jsTrim f) = some entry)
    (hext : inferExtension pl entry (pl.pathJoin attachmentsDirectory f) = some extension)
    (hne : extension ≠ "") :
    attachmentNewFileName pl fileMetadata f =
      some (jsTrim f ++ " -- " ++ sanitizeFilename (pl.parseName entry.name) ++ "." ++
        extension) := by
  have ht : truthy (some extension) = true := (truthy_some_iff extension).mpr hne
  simp [attachmentNewFileName, hmarker, hget, hext, ht]

/-- The name `contentVersion-renamer.js` gives to a file that is not yet
renamed, is matched by the metadata and has an extension. -/
theorem contentVersionNewFileName_of_entry (pl : Platform)
    (fileMetadata : JsMap ContentVersionMeta) (f : String) (entry : ContentVersionMeta)
    (hmarker : jsIncludes f " -- " = false)
    (hget : fileMetadata.get (jsTrim f) = some entry)
    (hne : String.mk ((pl.extname entry.pathOnClient).data.drop 1) ≠ "") :
    contentVersionNewFileName pl fileMetadata f =
      some (jsTrim f ++ " -- " ++
        (if jsLength (sanitizeFilename (pl.parseName entry.title)) > MAX_FILENAME_BODY_LENGTH then
          String.mk (utf16Take MAX_FILENAME_BODY_LENGTH
            (sanitizeFilename (pl.parseName entry.title)).data)
        else sanitizeFilename (pl.parseName entry.title)) ++ "." ++
        String.mk ((pl.extname entry.pathOnClient).data.drop 1)) := by
  unfold contentVersionNewFileName
  rw [if_neg (by simp [hmarker])]
  simp only [hget]
  rw [if_neg hne]

set_option maxRecDepth 100000 in
/-- The truncation of `contentVersion-renamer.js` counts UTF-16 code units: a
title of 190 letters and 6 emoji has 196 characters and 202 code units, and
is cut to the 190 letters and 5 emoji. -/
theorem contentVersionNewFileName_long_title :
    exampleLongTitle.length = 196 ∧ jsLength exampleLongTitle = 202 ∧
    contentVersionNewFileName exampleContentPlatform exampleContentVersions
        "068000000000000002" =
      some ("068000000000000002 -- " ++
        String.mk (List.replicate 190 'b' ++ List.replicate 5 (Char.ofNat 0x1F600)) ++
        ".txt") ∧
    utf16Take 3 ['a', Char.ofNat 0x1F600, Char.ofNat 0x1F600] =
      ['a', Char.ofNat 0x1F600] ∧
    utf16Take 2 ['a', Char.ofNat 0x1F600, Char.ofNat 0x1F600] = ['a', Char.ofNat 0xFFFD] := by
  refine ⟨by decide, by decide, by decide, by decide, by decide⟩

/-- C30: in `attachment-renamer.js` and in `contentVersion-renamer.js` a file
that is not yet renamed, is matched by the metadata map under its trimmed
name, the id, and has an extension gets a new name, and that name is exactly
id, then ` -- `, then the sanitized name, then a dot, then the extension; the
sanitized name (in `contentVersion-renamer.js` cut to its first 200 UTF-16
code units when longer) has none of the characters `< > : " / \ | ? *`; the
new name starts with id; and for a listing made of the new names of files
over pairwise distinct 18-character ids (18 characters, or 18 UTF-16 code
units, the same for the letters and digits of an id), `findFileById` called
with an id returns the path of the file renamed for that id. -/
theorem renamed_file_found_by_id (pl : Platform) (attachments : JsMap AttachmentMeta)
    (contentVersions : JsMap ContentVersionMeta) :
    (∀ f entry extension, jsIncludes f " -- " = false →
      attachments.get (jsTrim f) = some entry →
      inferExtension pl entry (pl.pathJoin attachmentsDirectory f) = some extension →
      extension ≠ "" →
      attachmentNewFileName pl attachments f =
        some (jsTrim f ++ " -- " ++ sanitizeFilename (pl.parseName entry.name) ++ "." ++
          extension)) ∧
    (∀ f n, attachmentNewFileName pl attachments f = some n →
      ∃ entry extension sanitizedName, attachments.get (jsTrim f) = some entry ∧
        inferExtension pl entry (pl.pathJoin attachmentsDirectory f) = some extension ∧
        extension ≠ "" ∧
        sanitizedName = sanitizeFilename (pl.parseName entry.name) ∧
        n = jsTrim f ++ " -- " ++ sanitizedName ++ "." ++ extension ∧
        (∀ c ∈ sanitizedName.data, c ∉ ['<', '>', ':', '"', '/', '\\', '|', '?', '*']) ∧
        jsStartsWith n (jsTrim f) = true) ∧
    (∀ f entry, jsIncludes f " -- " = false →
      contentVersions.get (jsTrim f) = some entry →
      String.mk ((pl.extname entry.pathOnClient).data.drop 1) ≠ "" →
      contentVersionNewFileName pl contentVersions f =
        some (jsTrim f ++ " -- " ++
          (if jsLength (sanitizeFilename (pl.parseName entry.title)) > MAX_FILENAME_BODY_LENGTH
          then String.mk (utf16Take MAX_FILENAME_BODY_LENGTH
            (sanitizeFilename (pl.parseName entry.title)).data)
          else sanitizeFilename (pl.parseName entry.title)) ++ "." ++
          String.mk ((pl.extname entry.pathOnClient).data.drop 1))) ∧
    (∀ f n, contentVersionNewFileName pl contentVersions f = some n →
      ∃ entry extension sanitizedName, contentVersions.get (jsTrim f) = some entry ∧
        extension = String.mk ((pl.extname entry.pathOnClient).data.drop 1) ∧
        extension ≠ "" ∧
        sanitizedName =
          (if jsLength (sanitizeFilename (pl.parseName entry.title)) > MAX_FILENAME_BODY_LENGTH
          then String.mk (utf16Take MAX_FILENAME_BODY_LENGTH
            (sanitizeFilename (pl.parseName entry.title)).data)
          else sanitizeFilename (pl.parseName entry.title)) ∧
        n = jsTrim f ++ " -- " ++ sanitizedName ++ "." ++ extension ∧
        (∀ c ∈ sanitizedName.data, c ∉ ['<', '>', ':', '"', '/', '\\', '|', '?', '*']) ∧
        jsStartsWith n (jsTrim f) = true) ∧
    (∀ (newFileName : String → Option String),
      (newFileName = attachmentNewFileName pl attachments ∨
        newFileName = contentVersionNewFileName pl contentVersions) →
      ∀ (pathJoin : String → String → String)
        (readdir : String → Except String (List String)) (dirPath : String)
        (renamedFiles : List String),
        readdir dirPath = .ok (renamedFiles.filterMap newFileName) →
        (renamedFiles.map jsTrim).Nodup →
        ((∀ f ∈ renamedFiles, (jsTrim f).length = 18) ∨
          (∀ f ∈ renamedFiles, jsLength (jsTrim f) = 18)) →
        ∀ f ∈ renamedFiles, ∀ n, newFileName f = some n →
          ImportFiles.findFileById pathJoin readdir dirPath (jsTrim f) =
            some (pathJoin dirPath n)) := by
  have hatt : ∀ f n, attachmentNewFileName pl attachments f = some n →
      ∃ rest, n = jsTrim f ++ " -- " ++ rest := by
    intro f n h
    obtain ⟨entry, extension, _, _, _, hn⟩ := attachmentNewFileName_some pl attachments f n h
    exact ⟨sanitizeFilename (pl.parseName entry.name) ++ "." ++ extension, by
      rw [hn]; simp only [String.append_assoc]⟩
  have hcv : ∀ f n, contentVersionNewFileName pl contentVersions f = some n →
      ∃ rest, n = jsTrim f ++ " -- " ++ rest := by
    intro f n h
    obtain ⟨entry, _, _, hn⟩ := contentVersionNewFileName_some pl contentVersions f n h
    rw [hn]
    simp only [String.append_assoc]
    exact ⟨_, rfl⟩
  refine ⟨?_, ?_, ?_, ?_, ?_⟩
  · intro f entry extension hmarker hget hext hne
    exact attachmentNewFileName_of_entry pl attachments f entry extension hmarker hget hext hne
  · intro f n h
    obtain ⟨entry, extension, hget, hext, hne, hn⟩ :=
      attachmentNewFileName_some pl attachments f n h
    refine ⟨entry, extension, _, hget, hext, hne, rfl, hn, (sanitizeFilename_clean _ 0).1, ?_⟩
    rw [hn]
    simp only [String.append_assoc]
    exact jsStartsWith_append _ _
  · intro f entry hmarker hget hne
    exact contentVersionNewFileName_of_entry pl contentVersions f entry hmarker hget hne
  · intro f n h
    obtain ⟨entry, hget, hne, hn⟩ := contentVersionNewFileName_some pl contentVersions f n h
    refine ⟨entry, _, _, hget, rfl, hne, rfl, hn, ?_, ?_⟩
    · split
      · exact (sanitizeFilename_clean _ _).2
      · exact (sanitizeFilename_clean _ 0).1
    · rw [hn]
      simp only [String.append_assoc]
      exact jsStartsWith_append _ _
  · intro newFileName hscript pathJoin readdir dirPath renamedFiles hlisting hdistinct hlen
      f hf n hn
    have hname : ∀ g m, newFileName g = some m → ∃ rest, m = jsTrim g ++ " -- " ++ rest := by
      rcases hscript with rfl | rfl
      · exact hatt
      · exact hcv
    exact findFileById_renamed newFileName hname pathJoin readdir dirPath renamedFiles
      hlisting hdistinct hlen f hf n hn

/-- Witness for C30: two attachments with 18-character ids are renamed and
the second id finds the second file; a content version whose title holds a
colon and a question mark is renamed and found by its id. -/
theorem renamed_file_found_by_id_witness :
    attachmentNewFileName examplePlatform exampleMetadata18 "00P000000000000002" =
      some "00P000000000000002 -- scan.pdf" ∧
    ImportFiles.findFileById (fun d n => d ++ "/" ++ n) exampleRenamedListing "../Attachments"
      (jsTrim "00P000000000000002") = some ("../Attachments/00P000000000000002 -- scan.pdf") ∧
    contentVersionNewFileName exampleContentPlatform exampleContentVersions
        "068000000000000001" =
      some "068000000000000001 -- Quarterly_ plan_.docx" ∧
    ImportFiles.findFileById (fun d n => d ++ "/" ++ n) exampleVersionListing
      "../ContentVersion" (jsTrim "068000000000000001") =
      some ("../ContentVersion/068000000000000001 -- Quarterly_ plan_.docx") :=
  ⟨(renamed_file_found_by_id examplePlatform exampleMetadata18 exampleContentVersions).1
     "00P000000000000002" { name := "scan", contentType := some "application/pdf" } "pdf"
     (by decide) (by decide) (by decide) (by decide),
   (renamed_file_found_by_id examplePlatform exampleMetadata18 exampleContentVersions).2.2.2.2
     (attachmentNewFileName examplePlatform exampleMetadata18) (Or.inl rfl)
     (fun d n => d ++ "/" ++ n) exampleRenamedListing "../Attachments"
     ["00P000000000000001", "00P000000000000002"] rfl (by decide) (Or.inl (by decide))
     "00P000000000000002" (by decide) "00P000000000000002 -- scan.pdf" (by decide),
   (renamed_file_found_by_id exampleContentPlatform exampleMetadata18
     exampleContentVersions).2.2.1
     "068000000000000001" { title := "Quarterly: plan?", pathOnClient := "plan.docx" }
     (by decide) (by decide) (by decide),
   (renamed_file_found_by_id exampleContentPlatform exampleMetadata18
     exampleContentVersions).2.2.2.2
     (contentVersionNewFileName exampleContentPlatform exampleContentVersions) (Or.inr rfl)
     (fun d n => d ++ "/" ++ n) exampleVersionListing "../ContentVersion"
     ["068000000000000001"] rfl (by decide) (Or.inr (by decide))
     "068000000000000001" (by decide) "068000000000000001 -- Quarterly_ plan_.docx"
     (by decide)⟩

end Renamer
